import Mathlib

/-!
# ALSA driver of the JACK audio server: a shallow embedding

The definitions below follow `src/alsa_driver.c` and `src/jack/alsa_driver.h`
function by function.  The driver record is passed explicitly, calls into the
sound library, the engine and the hardware profile are recorded as events, and
their replies are supplied by explicit environment records.

Integer model.  `unsigned long` is a natural number below `2 ^ w`, where the
word width `w` is a parameter of every function that can wrap (the C standard
only promises `32 ≤ w`).  `int` is 32 bits wide.  `channel_t` and `nframes_t`
(declared in `jack/types.h`, which is not part of the sources at hand) are
taken to be `unsigned long`, as the `%lu` conversions at lines 903 and 1109 of
`alsa_driver.c` print them.
-/

namespace Jack

/-! ## C integers -/

/-- An arithmetic result stored into an `unsigned long` of `w` bits. -/
def ulong_wrap (w n : Nat) : Nat := n % 2 ^ w

/-- Conversion of a signed integer value to `unsigned long` (sign extension followed by
truncation to `w` bits). -/
def ulong_of_int (w : Nat) (i : Int) : Nat := (i % (2 : Int) ^ w).toNat

/-- Reading an `unsigned long` object through a `long` lvalue (two's complement). -/
def long_of_ulong (w n : Nat) : Int :=
  if n < 2 ^ (w - 1) then (n : Int) else (n : Int) - (2 : Int) ^ w

/-- The `int` expression `1<<chn`.  C defines it for `chn < 31` only, where it is `2 ^ chn`;
outside that range the value chosen here is the one an x86 shift instruction produces (the count
is taken modulo 32 and bit 31 is the sign bit). -/
def int_shl1 (chn : Nat) : Int :=
  if chn % 32 = 31 then -((2 : Int) ^ 31) else (2 : Int) ^ (chn % 32)

/-- The operand `(1<<chn)` after the usual arithmetic conversion to `unsigned long`. -/
def chn_bit (w chn : Nat) : Nat := ulong_of_int w (int_shl1 chn)

/-- The operand `~(1<<chn)` after the usual arithmetic conversion to `unsigned long`. -/
def chn_bit_compl (w chn : Nat) : Nat := ulong_of_int w (-(int_shl1 chn) - 1)

/-- The constant `~0U` (an `unsigned int`) converted to `unsigned long`. -/
def all_ones_uint : Nat := 2 ^ 32 - 1

/-! ## System constants (Linux values of `errno.h` and `poll.h`) -/

def EINTR : Nat := 4
def EPIPE : Int := 32
def POLLOUT : Nat := 4
def POLLERR : Nat := 8

/-! ## Memory, ports, events -/

/-- Byte-addressed memory: address to byte value. -/
abbrev Mem := Nat → Nat

/-- One entry of the array `snd_pcm_mmap_begin` hands back (`snd_pcm_channel_area_t`). -/
structure snd_pcm_channel_area_t where
  addr : Nat
  first : Nat
  step : Nat

/-- The two fields of `jack_port_t` the driver reads: the connection count and the address
`jack_port_get_buffer` yields for the port. -/
structure jack_port_t where
  connections : Nat
  buffer : Nat

inductive Stream where
  | capture
  | playback
deriving DecidableEq, Repr

/-- Calls that leave the driver, in the order they are made. -/
inductive Event where
  | poll
  | avail_update (s : Stream)
  | pcm_delay
  | pcm_drop (s : Stream)
  | pcm_prepare (s : Stream)
  | pcm_start (s : Stream)
  | poll_descriptors
  | mmap_begin (s : Stream) (frames : Nat)
  | mmap_commit (s : Stream) (offset frames : Nat)
  | process (frames : Nat)
  | set_input_monitor_mask (mask : Nat)
  | input_monitor_notify (chn : Nat) (yn : Bool)
  | set_buffer_size (frames : Nat)
deriving DecidableEq, Repr

/-- The fields of `alsa_driver_t` (with those of `JACK_DRIVER_DECL` and of `driver->hw` that the
driver code touches).  Arrays are functions of the index; `silent`, `playback_addr` have
`playback_nchannels` entries, `capture_addr` has `capture_nchannels`, `input_monitor_requests`
has `max_nchannels`.  The three codec function pointers and the hardware profile's
`set_input_monitor_mask` are function-valued fields. -/
structure alsa_driver_t where
  frames_per_cycle : Nat
  frame_rate : Nat
  hw_monitoring : Bool
  all_monitor_in : Bool
  input_monitor_mask : Nat
  engine : Bool
  playback_addr : Nat → Nat
  capture_addr : Nat → Nat
  capture_areas : Nat → snd_pcm_channel_area_t
  playback_areas : Nat → snd_pcm_channel_area_t
  interleave_unit : Nat
  capture_interleave_skip : Nat
  playback_interleave_skip : Nat
  max_nchannels : Nat
  user_nchannels : Nat
  playback_nchannels : Nat
  capture_nchannels : Nat
  sample_bytes : Nat
  silent : Nat → Nat
  buffer_frames : Nat
  bytes_per_cycle : Nat
  channels_not_done : Nat
  channel_done_bits : Nat
  sample_format : Int
  nfragments : Nat
  max_level : Int
  min_level : Int
  silence_pending : Nat
  input_monitor_requests : Nat → Nat
  hw_input_monitor_mask : Nat
  hw_set_input_monitor_mask : Nat → Nat → Nat
  playback_ports : List jack_port_t
  capture_and_playback_not_synced : Bool
  interleaved : Bool
  write_via_copy : Mem → Nat → Nat → Nat → Nat → Mem
  channel_copy : Mem → Nat → Nat → Nat → Nat → Nat → Mem

/-! ## Monitor request API (`alsa_driver.c`, lines 963-1021) -/

/-- Function `alsa_driver_mark_channel_silent`: `driver->silence_pending |= (1<<chn)`. -/
def alsa_driver_mark_channel_silent (w : Nat) (d : alsa_driver_t) (chn : Nat) : alsa_driver_t :=
  { d with silence_pending := d.silence_pending ||| chn_bit w chn }

/-- Function `alsa_driver_request_monitor_input`.  The result is the driver afterwards and the
notifications sent. -/
def alsa_driver_request_monitor_input (w : Nat) (d : alsa_driver_t) (chn : Nat) (yn : Bool) :
    alsa_driver_t × List Event :=
  if chn ≥ d.max_nchannels then (d, [])
  else
    let step : alsa_driver_t × Bool :=
      if yn then
        let r := ulong_wrap w (d.input_monitor_requests chn + 1)
        let d1 := { d with input_monitor_requests := Function.update d.input_monitor_requests chn r }
        if r = 1 then
          if d1.input_monitor_mask &&& chn_bit w chn = 0 then
            ({ d1 with input_monitor_mask := d1.input_monitor_mask ||| chn_bit w chn }, true)
          else (d1, false)
        else (d1, false)
      else
        if d.input_monitor_requests chn ≠ 0 then
          let r := d.input_monitor_requests chn - 1
          let d1 := { d with input_monitor_requests := Function.update d.input_monitor_requests chn r }
          if r = 0 then
            if d1.input_monitor_mask &&& chn_bit w chn ≠ 0 then
              ({ d1 with input_monitor_mask := d1.input_monitor_mask &&& chn_bit_compl w chn }, true)
            else (d1, false)
          else (d1, false)
        else (d, false)
    if step.2 then
      let d2 := if !step.1.hw_monitoring && !yn then alsa_driver_mark_channel_silent w step.1 chn
                else step.1
      (d2, [Event.input_monitor_notify chn yn])
    else (step.1, [])

/-- A sequence of `request_monitor_input` calls, applied left to right. -/
def run_monitor_requests (w : Nat) (d : alsa_driver_t) : List (Nat × Bool) → alsa_driver_t
  | [] => d
  | (chn, yn) :: rest =>
      run_monitor_requests w (alsa_driver_request_monitor_input w d chn yn).1 rest

/-- Bit `c` of the mask is set exactly when channel `c` has outstanding requests. -/
def mask_inv (d : alsa_driver_t) : Prop :=
  ∀ c, c < d.max_nchannels → (d.input_monitor_mask.testBit c = true ↔ 0 < d.input_monitor_requests c)

/-- The driver record as `calloc` leaves it at line 1111 of `alsa_driver.c`: every field zero.
The null function pointers are rendered as functions that leave memory (`write_via_copy`,
`channel_copy`) or the hardware mask (`hw_set_input_monitor_mask`) as it is. -/
def driver_calloc : alsa_driver_t where
  frames_per_cycle := 0
  frame_rate := 0
  hw_monitoring := false
  all_monitor_in := false
  input_monitor_mask := 0
  engine := false
  playback_addr := fun _ => 0
  capture_addr := fun _ => 0
  capture_areas := fun _ => ⟨0, 0, 0⟩
  playback_areas := fun _ => ⟨0, 0, 0⟩
  interleave_unit := 0
  capture_interleave_skip := 0
  playback_interleave_skip := 0
  max_nchannels := 0
  user_nchannels := 0
  playback_nchannels := 0
  capture_nchannels := 0
  sample_bytes := 0
  silent := fun _ => 0
  buffer_frames := 0
  bytes_per_cycle := 0
  channels_not_done := 0
  channel_done_bits := 0
  sample_format := 0
  nfragments := 0
  max_level := 0
  min_level := 0
  silence_pending := 0
  input_monitor_requests := fun _ => 0
  hw_input_monitor_mask := 0
  hw_set_input_monitor_mask := fun m _ => m
  playback_ports := []
  capture_and_playback_not_synced := false
  interleaved := false
  write_via_copy := fun m _ _ _ _ => m
  channel_copy := fun m _ _ _ _ _ => m

/-! ## Channel helpers (`jack/alsa_driver.h`, lines 99-154) -/

/-- The C library's `memset`: `n` bytes from `dst` are set to `val`. -/
def memset (m : Mem) (dst val n : Nat) : Mem :=
  fun a => if dst ≤ a ∧ a < dst + n then val else m a

/-- Modelled from the spec: `memset_interleave` is declared in `jack/memops.h`, which is not among
the sources.  Section 4.2 of the specification describes it as
`memset_strided(dst, value, n_bytes, unit, stride)`, which fills a non-contiguous region:
`n_bytes` bytes in all, written in units of `unit` bytes whose starts lie `stride` bytes apart. -/
def memset_interleave (m : Mem) (dst val bytes unit_bytes skip_bytes : Nat) : Mem :=
  fun a =>
    if ∃ k, k < bytes / unit_bytes ∧ dst + k * skip_bytes ≤ a ∧ a < dst + k * skip_bytes + unit_bytes
    then val else m a

/-- Function `alsa_driver_mark_channel_done`: clear the channel's bit in `channels_not_done`, reset its
silence counter. -/
def alsa_driver_mark_channel_done (w : Nat) (d : alsa_driver_t) (chn : Nat) : alsa_driver_t :=
  { d with channels_not_done := d.channels_not_done &&& chn_bit_compl w chn,
           silent := Function.update d.silent chn 0 }

/-- Function `alsa_driver_silence_on_channel`: zero `nframes` frames of the channel, then mark it done. -/
def alsa_driver_silence_on_channel (w : Nat) (d : alsa_driver_t) (m : Mem) (chn nframes : Nat) :
    alsa_driver_t × Mem :=
  let m1 :=
    if d.interleaved then
      memset_interleave m (d.playback_addr chn) 0 (ulong_wrap w (nframes * d.sample_bytes))
        d.interleave_unit d.playback_interleave_skip
    else memset m (d.playback_addr chn) 0 (ulong_wrap w (nframes * d.sample_bytes))
  (alsa_driver_mark_channel_done w d chn, m1)

/-- Function `alsa_driver_write_to_channel`.  The gain argument (the floating point constant 1.0 at the
only call site) is part of what the function pointer `write_via_copy` stands for. -/
def alsa_driver_write_to_channel (w : Nat) (d : alsa_driver_t) (m : Mem)
    (channel buf nsamples offset : Nat) : alsa_driver_t × Mem :=
  (alsa_driver_mark_channel_done w d channel,
   d.write_via_copy m (d.playback_addr channel + offset) buf nsamples d.playback_interleave_skip)

/-- Function `alsa_driver_copy_channel`: copy a capture channel onto a playback channel, mark the latter
done. -/
def alsa_driver_copy_channel (w : Nat) (d : alsa_driver_t) (m : Mem)
    (input_channel output_channel nsamples : Nat) : alsa_driver_t × Mem :=
  (alsa_driver_mark_channel_done w d output_channel,
   d.channel_copy m (d.playback_addr output_channel) (d.capture_addr input_channel)
     (ulong_wrap w (nsamples * d.sample_bytes)) d.playback_interleave_skip
     d.capture_interleave_skip)

/-- Body of the loop of `alsa_driver_silence_untouched_channels` for one channel. -/
def silence_untouched_step (w nframes : Nat) (s : alsa_driver_t × Mem) (chn : Nat) :
    alsa_driver_t × Mem :=
  if s.1.channels_not_done &&& chn_bit w chn ≠ 0 then
    if s.1.silent chn < s.1.buffer_frames then
      let s1 := alsa_driver_silence_on_channel w s.1 s.2 chn nframes
      ({ s1.1 with silent := Function.update s1.1.silent chn
                                (ulong_wrap w (s1.1.silent chn + nframes)) }, s1.2)
    else s
  else s

/-- Function `alsa_driver_silence_untouched_channels` (lines 661-675): the loop over
`chn < playback_nchannels`. -/
def alsa_driver_silence_untouched_channels (w : Nat) (d : alsa_driver_t) (m : Mem)
    (nframes : Nat) : alsa_driver_t × Mem :=
  (List.range d.playback_nchannels).foldl (silence_untouched_step w nframes) (d, m)

/-! ## Channel addresses, start, stop, xrun recovery (lines 495-659) -/

/-- What `snd_pcm_mmap_begin` answers: on success (return value 0) the areas, the offset and the
contiguous frame count it stores through its pointer arguments; on failure a negative code, the
pointed-to objects being left as they were. -/
inductive MmapReply where
  | ok (areas : Nat → snd_pcm_channel_area_t) (offset frames : Nat)
  | error (code : Int)

/-- Return value of `snd_pcm_mmap_begin`. -/
def MmapReply.ret : MmapReply → Int
  | MmapReply.ok _ _ _ => 0
  | MmapReply.error code => code

/-- Address of the first sample of a channel area at frame `offset`:
`a->addr + ((a->first + a->step * offset) / 8)`. -/
def area_addr (w : Nat) (a : snd_pcm_channel_area_t) (offset : Nat) : Nat :=
  a.addr + ulong_wrap w (a.first + a.step * offset) / 8

/-- Result of `alsa_driver_get_channel_addresses`: return value, driver, the objects behind the
`avail` and `offset` pointers of either stream (`none` for a null pointer), events. -/
structure ChannelAddresses where
  ret : Int
  driver : alsa_driver_t
  capture : Option (Nat × Nat)
  playback : Option (Nat × Nat)
  events : List Event

/-- Function `alsa_driver_get_channel_addresses`.  An argument `some (avail, offset)` stands for the two
non-null pointers of a stream.  The local `err` is an `unsigned long`, so the test `err < 0`
after each `snd_pcm_mmap_begin` is a comparison of natural numbers. -/
def alsa_driver_get_channel_addresses (w : Nat) (d : alsa_driver_t)
    (capture playback : Option (Nat × Nat)) (crep prep : MmapReply) : ChannelAddresses :=
  let cstep : Option (alsa_driver_t × Option (Nat × Nat) × List Event) :=
    match capture with
    | none => some (d, none, [])
    | some (avail, offset) =>
      let ev := [Event.mmap_begin Stream.capture avail]
      if ulong_of_int w crep.ret < 0 then none
      else
        match crep with
        | MmapReply.ok areas off fr =>
          some ({ d with capture_areas := areas,
                         capture_addr := fun chn =>
                           if chn < d.capture_nchannels then area_addr w (areas chn) off
                           else d.capture_addr chn }, some (fr, off), ev)
        | MmapReply.error _ =>
          some ({ d with capture_addr := fun chn =>
                           if chn < d.capture_nchannels then
                             area_addr w (d.capture_areas chn) offset
                           else d.capture_addr chn }, some (avail, offset), ev)
  match cstep with
  | none => ⟨-1, d, capture, playback, [Event.mmap_begin Stream.capture (capture.getD (0, 0)).1]⟩
  | some (d1, cap, ev1) =>
    match playback with
    | none => ⟨0, d1, cap, none, ev1⟩
    | some (avail, offset) =>
      let ev := ev1 ++ [Event.mmap_begin Stream.playback avail]
      if ulong_of_int w prep.ret < 0 then ⟨-1, d1, cap, playback, ev⟩
      else
        match prep with
        | MmapReply.ok areas off fr =>
          ⟨0, { d1 with playback_areas := areas,
                        playback_addr := fun chn =>
                          if chn < d1.playback_nchannels then area_addr w (areas chn) off
                          else d1.playback_addr chn }, cap, some (fr, off), ev⟩
        | MmapReply.error _ =>
          ⟨0, { d1 with playback_addr := fun chn =>
                          if chn < d1.playback_nchannels then
                            area_addr w (d1.playback_areas chn) offset
                          else d1.playback_addr chn }, cap, some (avail, offset), ev⟩

/-- The hardware profile call `driver->hw->set_input_monitor_mask (driver->hw, mask)`. -/
def hw_set_mask (d : alsa_driver_t) (mask : Nat) : alsa_driver_t × List Event :=
  ({ d with hw_input_monitor_mask := d.hw_set_input_monitor_mask d.hw_input_monitor_mask mask },
   [Event.set_input_monitor_mask mask])

/-- Replies of the sound library during `alsa_driver_audio_stop`. -/
structure StopEnv where
  drop_playback : Int
  drop_capture : Int

/-- Replies of the sound library during `alsa_driver_audio_start`, and `poffset`: the value the
local variable `poffset` of that function holds when `alsa_driver_get_channel_addresses` is
called.  The source declares the variable without an initial value (line 542), so this is
whatever the stack holds; it is replaced only when `snd_pcm_mmap_begin` succeeds. -/
structure StartEnv where
  prepare_playback : Int
  prepare_capture : Int
  avail : Int
  mmap : MmapReply
  start_playback : Int
  start_capture : Int
  poffset : Nat

/-- Result of a driver function that returns an `int`. -/
structure Call where
  ret : Int
  driver : alsa_driver_t
  mem : Mem
  events : List Event

/-- Function `alsa_driver_audio_stop` (lines 608-629). -/
def alsa_driver_audio_stop (d : alsa_driver_t) (m : Mem) (e : StopEnv) : Call :=
  if e.drop_playback < 0 then ⟨-1, d, m, [Event.pcm_drop Stream.playback]⟩
  else if d.capture_and_playback_not_synced then
    if e.drop_capture < 0 then
      ⟨-1, d, m, [Event.pcm_drop Stream.playback, Event.pcm_drop Stream.capture]⟩
    else
      ⟨0, (hw_set_mask d 0).1, m,
        [Event.pcm_drop Stream.playback, Event.pcm_drop Stream.capture] ++ (hw_set_mask d 0).2⟩
  else ⟨0, (hw_set_mask d 0).1, m, [Event.pcm_drop Stream.playback] ++ (hw_set_mask d 0).2⟩

/-- The loop `for (chn = 0; chn < playback_nchannels; chn++) alsa_driver_silence_on_channel
(driver, chn, buffer_frames)` of `alsa_driver_audio_start`. -/
def silence_all_channels (w : Nat) (d : alsa_driver_t) (m : Mem) : alsa_driver_t × Mem :=
  (List.range d.playback_nchannels).foldl
    (fun s chn => alsa_driver_silence_on_channel w s.1 s.2 chn s.1.buffer_frames) (d, m)

/-- Sequencing of two blocks of a C function body: when the first block has executed a `return`
with a non-zero value that is the result; otherwise the second block runs on the state the
first one left. -/
def Call.andThen (c : Call) (f : alsa_driver_t → Mem → Call) : Call :=
  if c.ret ≠ 0 then c
  else
    let r := f c.driver c.mem
    ⟨r.ret, r.driver, r.mem, c.events ++ r.events⟩

/-- Lines 545-555 of `alsa_driver_audio_start`: `snd_pcm_prepare` on the playback stream and, when
the streams are not linked, on the capture stream. -/
def start_prepare (d : alsa_driver_t) (m : Mem) (e : StartEnv) : Call :=
  if e.prepare_playback < 0 then ⟨-1, d, m, [Event.pcm_prepare Stream.playback]⟩
  else if d.capture_and_playback_not_synced then
    if e.prepare_capture < 0 then
      ⟨-1, d, m, [Event.pcm_prepare Stream.playback, Event.pcm_prepare Stream.capture]⟩
    else ⟨0, d, m, [Event.pcm_prepare Stream.playback, Event.pcm_prepare Stream.capture]⟩
  else ⟨0, d, m, [Event.pcm_prepare Stream.playback]⟩

/-- Lines 557-580 of `alsa_driver_audio_start`: push the monitor mask when hardware monitoring is
on, then fill the whole playback buffer with silence and commit it.  The local `poffset` has no
initial value in the source: `e.poffset` is the value it happens to hold.  When
`snd_pcm_mmap_begin` fails nothing is stored in it, the failure goes unnoticed, and the
addresses and the commit are computed from that value. -/
def start_fill (w : Nat) (d : alsa_driver_t) (m : Mem) (e : StartEnv) : Call :=
  let h1 := if d.hw_monitoring then hw_set_mask d d.input_monitor_mask else (d, [])
  let ev := h1.2 ++ [Event.avail_update Stream.playback]
  let pavail := ulong_of_int w e.avail
  if pavail ≠ h1.1.buffer_frames then ⟨-1, h1.1, m, ev⟩
  else
    let ca := alsa_driver_get_channel_addresses w h1.1 none (some (pavail, e.poffset))
                (MmapReply.error 0) e.mmap
    if ca.ret ≠ 0 then ⟨-1, ca.driver, m, ev ++ ca.events⟩
    else
      let poffset := (ca.playback.getD (pavail, e.poffset)).2
      let s := silence_all_channels w ca.driver m
      ⟨0, s.1, s.2,
        ev ++ ca.events ++ [Event.mmap_commit Stream.playback poffset s.1.buffer_frames]⟩

/-- Lines 582-592 of `alsa_driver_audio_start`: `snd_pcm_start` on the playback stream and, when
the streams are not linked, on the capture stream. -/
def start_trigger (d : alsa_driver_t) (m : Mem) (e : StartEnv) : Call :=
  if e.start_playback < 0 then ⟨-1, d, m, [Event.pcm_start Stream.playback]⟩
  else if d.capture_and_playback_not_synced then
    if e.start_capture < 0 then
      ⟨-1, d, m, [Event.pcm_start Stream.playback, Event.pcm_start Stream.capture]⟩
    else ⟨0, d, m, [Event.pcm_start Stream.playback, Event.pcm_start Stream.capture]⟩
  else ⟨0, d, m, [Event.pcm_start Stream.playback]⟩

/-- Lines 594-605 of `alsa_driver_audio_start`: push the monitor mask again, fetch the poll
descriptor, `return 0`. -/
def start_finish (d : alsa_driver_t) (m : Mem) : Call :=
  let h2 :=
    if d.hw_monitoring ∧ (d.input_monitor_mask ≠ 0 ∨ d.all_monitor_in) then
      if d.all_monitor_in then hw_set_mask d all_ones_uint
      else hw_set_mask d d.input_monitor_mask
    else (d, [])
  ⟨0, h2.1, m, h2.2 ++ [Event.poll_descriptors]⟩

/-- Function `alsa_driver_audio_start` (lines 537-606): its four blocks in sequence. -/
def alsa_driver_audio_start (w : Nat) (d : alsa_driver_t) (m : Mem) (e : StartEnv) : Call :=
  ((((start_prepare d m e).andThen fun d1 m1 => start_fill w d1 m1 e).andThen
    fun d2 m2 => start_trigger d2 m2 e).andThen fun d3 m3 => start_finish d3 m3)

/-- How a call of `alsa_driver_wait` ends: it returns a value, or the process leaves through
`exit`. -/
inductive Outcome where
  | returned (code : Int)
  | exited (code : Int)
deriving DecidableEq, Repr

/-- Result of a driver function that may call `exit`. -/
structure Run where
  outcome : Outcome
  driver : alsa_driver_t
  mem : Mem
  events : List Event

/-- Function `alsa_driver_xrun_recovery` (lines 631-659).  `delay` is the return value of `snd_pcm_delay`.
The block under `#if ENGINE` is not compiled: no file defines `ENGINE`. -/
def alsa_driver_xrun_recovery (w : Nat) (d : alsa_driver_t) (m : Mem) (delay : Int)
    (stop : StopEnv) (start : StartEnv) : Run :=
  if delay ≠ 0 then ⟨Outcome.exited 1, d, m, [Event.pcm_delay]⟩
  else
    let s := alsa_driver_audio_stop d m stop
    if s.ret ≠ 0 then ⟨Outcome.returned (-1), s.driver, s.mem, Event.pcm_delay :: s.events⟩
    else
      let t := alsa_driver_audio_start w s.driver s.mem start
      if t.ret ≠ 0 then
        ⟨Outcome.returned (-1), t.driver, t.mem, Event.pcm_delay :: (s.events ++ t.events)⟩
      else ⟨Outcome.returned 0, t.driver, t.mem, Event.pcm_delay :: (s.events ++ t.events)⟩

/-! ## The cycle: `alsa_driver_wait` (lines 685-842) -/

/-- What the engine and the sound library answer during one pass of the `while (avail)` loop:
the two `snd_pcm_mmap_begin` replies, the return value of `engine->process` and what that call
does to memory (the engine's clients fill the port buffers). -/
structure SpanEnv where
  capture_begin : MmapReply
  playback_begin : MmapReply
  process_ret : Int
  process_mem : Mem → Mem

/-- The block guarded by `if (driver->silence_pending)` (lines 776-783). -/
def apply_silence_pending (w : Nat) (d : alsa_driver_t) (m : Mem) (nframes : Nat) :
    alsa_driver_t × Mem :=
  if d.silence_pending ≠ 0 then
    let s := (List.range d.playback_nchannels).foldl
      (fun (s : alsa_driver_t × Mem) chn =>
        if s.1.silence_pending &&& chn_bit w chn ≠ 0 then
          alsa_driver_silence_on_channel w s.1 s.2 chn nframes
        else s) (d, m)
    ({ s.1 with silence_pending := 0 }, s.2)
  else (d, m)

/-- The loop over `driver->playback_ports` (lines 801-813): the port at position `chn` of the list
is written to channel `chn` unless it has no connections. -/
def write_ports (w nframes : Nat) :
    List jack_port_t → Nat → alsa_driver_t × Mem → alsa_driver_t × Mem
  | [], _, s => s
  | port :: rest, chn, s =>
    if port.connections = 0 then write_ports w nframes rest (chn + 1) s
    else
      write_ports w nframes rest (chn + 1)
        (alsa_driver_write_to_channel w s.1 s.2 chn port.buffer nframes 0)

/-- Input monitoring in software (lines 815-829). -/
def monitor_inputs (w : Nat) (d : alsa_driver_t) (m : Mem) (nframes : Nat) :
    alsa_driver_t × Mem :=
  if !d.hw_monitoring then
    if d.all_monitor_in then
      (List.range d.playback_nchannels).foldl
        (fun (s : alsa_driver_t × Mem) chn => alsa_driver_copy_channel w s.1 s.2 chn chn nframes)
        (d, m)
    else if d.input_monitor_mask ≠ 0 then
      (List.range d.playback_nchannels).foldl
        (fun (s : alsa_driver_t × Mem) chn =>
          if s.1.input_monitor_mask &&& chn_bit w chn ≠ 0 then
            alsa_driver_copy_channel w s.1 s.2 chn chn nframes
          else s) (d, m)
    else (d, m)
  else (d, m)

/-- Lines 799-833: what happens to the driver and to memory between the return of
`engine->process` and the two commits. -/
def finish_span (w : Nat) (d : alsa_driver_t) (m : Mem) (nframes : Nat) : alsa_driver_t × Mem :=
  let s1 := write_ports w nframes d.playback_ports 0 (d, m)
  let s2 := monitor_inputs w s1.1 s1.2 nframes
  if s2.1.channels_not_done ≠ 0 then
    alsa_driver_silence_untouched_channels w s2.1 s2.2 nframes
  else s2

/-- State after one pass of the loop body: `ret` is `some r` when the body executes `return r`;
`contiguous` is the local of that name, `capture_offset` and `playback_offset` the two offsets. -/
structure Iteration where
  ret : Option Int
  driver : alsa_driver_t
  mem : Mem
  events : List Event
  contiguous : Int
  capture_offset : Nat
  playback_offset : Nat

/-- The value both `capture_avail` and `playback_avail` receive at lines 760-761:
`(avail > driver->frames_per_cycle) ? driver->frames_per_cycle : avail`.  `avail` is a `long`
and `frames_per_cycle` an `unsigned long`, so the comparison is made in `unsigned long`. -/
def span_request (w : Nat) (d : alsa_driver_t) (avail : Int) : Int :=
  if ulong_of_int w avail > d.frames_per_cycle then long_of_ulong w d.frames_per_cycle
  else avail

/-- One pass of the body of `while (avail)` (lines 760-838).  `capture_avail` and
`playback_avail` are `long` objects that `snd_pcm_mmap_begin` writes through an
`unsigned long` pointer. -/
def wait_iteration (w : Nat) (d : alsa_driver_t) (m : Mem) (avail : Int)
    (capture_offset playback_offset : Nat) (e : SpanEnv) : Iteration :=
  let capture_avail : Int := span_request w d avail
  let playback_avail : Int := span_request w d avail
  let ca := alsa_driver_get_channel_addresses w d
    (some (ulong_of_int w capture_avail, capture_offset))
    (some (ulong_of_int w playback_avail, playback_offset)) e.capture_begin e.playback_begin
  let cap := ca.capture.getD (0, 0)
  let play := ca.playback.getD (0, 0)
  if ca.ret < 0 then ⟨some (-1), ca.driver, m, ca.events, 0, cap.2, play.2⟩
  else
    let capture_avail := long_of_ulong w cap.1
    let playback_avail := long_of_ulong w play.1
    let contiguous : Int :=
      if capture_avail < playback_avail then capture_avail else playback_avail
    let nframes := ulong_of_int w contiguous
    let s1 := apply_silence_pending w ca.driver m nframes
    let d2 := { s1.1 with channels_not_done := s1.1.channel_done_bits }
    let h := if d2.hw_input_monitor_mask ≠ d2.input_monitor_mask ∧ d2.hw_monitoring ∧
                !d2.all_monitor_in
             then hw_set_mask d2 d2.input_monitor_mask else (d2, [])
    let ev1 := ca.events ++ h.2
    if h.1.engine ∧ e.process_ret ≠ 0 then
      ⟨some (-1), h.1, e.process_mem s1.2, ev1 ++ [Event.process nframes], contiguous,
        cap.2, play.2⟩
    else
      let m3 := if h.1.engine then e.process_mem s1.2 else s1.2
      let ev2 := if h.1.engine then ev1 ++ [Event.process nframes] else ev1
      let s4 := finish_span w h.1 m3 nframes
      ⟨none, s4.1, s4.2,
        ev2 ++ [Event.mmap_commit Stream.capture cap.2 nframes,
                Event.mmap_commit Stream.playback play.2 nframes],
        contiguous, cap.2, play.2⟩

/-- The loop `while (avail) ...` with the `return 0` that follows it.  The list holds the
replies for the passes still to come; `none` means the loop needs more replies than the list
holds. -/
def wait_loop (w : Nat) :
    List SpanEnv → alsa_driver_t → Mem → Int → Nat → Nat → Option Call
  | spans, d, m, avail, coff, poff =>
    if avail = 0 then some ⟨0, d, m, []⟩
    else
      match spans with
      | [] => none
      | e :: rest =>
        let it := wait_iteration w d m avail coff poff e
        match it.ret with
        | some r => some ⟨r, it.driver, it.mem, it.events⟩
        | none =>
          match wait_loop w rest it.driver it.mem (avail - it.contiguous)
                  it.capture_offset it.playback_offset with
          | none => none
          | some c => some ⟨c.ret, c.driver, c.mem, it.events ++ c.events⟩

/-- What `poll` answers: a negative return value with the `errno` it sets, or a non-negative one
with the `revents` it stores in `driver->pfd`. -/
inductive PollReply where
  | failed (errno : Nat)
  | returned (revents : Nat)
deriving DecidableEq, Repr

/-- Everything the outside world answers during one call of `alsa_driver_wait`.  `under_gdb` is
the file-level variable of that name; `polls` are the successive `poll` replies, `spans` the
replies for the successive passes of the processing loop. -/
structure WaitEnv where
  under_gdb : Bool
  polls : List PollReply
  capture_avail : Int
  playback_avail : Int
  delay : Int
  stop : StopEnv
  start : StartEnv
  spans : List SpanEnv

/-- Lines 730-842 of `alsa_driver_wait`: what follows a `poll` that reported events other than
`POLLERR`. -/
def wait_after_poll (w : Nat) (d : alsa_driver_t) (m : Mem) (env : WaitEnv) : Option Run :=
  let ev := [Event.avail_update Stream.capture, Event.avail_update Stream.playback]
  let xrun_detected : Bool :=
    (decide (env.capture_avail < 0) && decide (env.capture_avail = -EPIPE)) ||
    (decide (env.playback_avail < 0) && decide (env.playback_avail = -EPIPE))
  if xrun_detected then
    let r := alsa_driver_xrun_recovery w d m env.delay env.stop env.start
    match r.outcome with
    | Outcome.exited code => some ⟨Outcome.exited code, r.driver, r.mem, ev ++ r.events⟩
    | Outcome.returned code =>
      if code ≠ 0 then some ⟨Outcome.returned (-1), r.driver, r.mem, ev ++ r.events⟩
      else some ⟨Outcome.returned 0, r.driver, r.mem, ev ++ r.events⟩
  else
    let avail : Int :=
      if env.capture_avail < env.playback_avail then env.capture_avail else env.playback_avail
    match wait_loop w env.spans d m avail 0 0 with
    | none => none
    | some c => some ⟨Outcome.returned c.ret, c.driver, c.mem, ev ++ c.events⟩

/-- Function `alsa_driver_wait`, from the label `again` on: the recursion follows `goto again`.  `none`
means the call needs more `poll` replies (or loop replies) than the environment holds.  The
time stamp `time_at_interrupt` is not part of the model. -/
def wait_from_poll (w : Nat) (d : alsa_driver_t) (m : Mem) (env : WaitEnv) :
    List PollReply → Option Run
  | [] => none
  | PollReply.failed errno :: rest =>
    if errno = EINTR then
      if env.under_gdb then
        match wait_from_poll w d m env rest with
        | none => none
        | some r => some ⟨r.outcome, r.driver, r.mem, Event.poll :: r.events⟩
      else some ⟨Outcome.returned 1, d, m, [Event.poll]⟩
    else some ⟨Outcome.returned (-1), d, m, [Event.poll]⟩
  | PollReply.returned revents :: _ =>
    if revents &&& POLLERR ≠ 0 then some ⟨Outcome.returned (-1), d, m, [Event.poll]⟩
    else if revents = 0 then some ⟨Outcome.returned 0, d, m, [Event.poll]⟩
    else
      match wait_after_poll w d m env with
      | none => none
      | some r => some ⟨r.outcome, r.driver, r.mem, Event.poll :: r.events⟩

/-- Function `alsa_driver_wait`. -/
def alsa_driver_wait (w : Nat) (d : alsa_driver_t) (m : Mem) (env : WaitEnv) : Option Run :=
  wait_from_poll w d m env env.polls

/-- Number of `engine->process` calls in a trace. -/
def count_process (evs : List Event) : Nat :=
  (evs.filter (fun e => match e with | Event.process _ => true | _ => false)).length

/-- Number of `snd_pcm_mmap_begin` and `snd_pcm_mmap_commit` calls on a stream in a trace. -/
def count_mmap (s : Stream) (evs : List Event) : Nat :=
  (evs.filter (fun e => match e with
    | Event.mmap_begin s1 _ => decide (s1 = s)
    | Event.mmap_commit s1 _ _ => decide (s1 = s)
    | _ => false)).length

/-! ## Stream configuration (lines 185-485) -/

def SND_PCM_ACCESS_MMAP_NONINTERLEAVED : Int := 1
def SND_PCM_FORMAT_S16_LE : Int := 2
def SND_PCM_FORMAT_S32_LE : Int := 10
def INT_MAX : Int := 2 ^ 31 - 1
def INT_MIN : Int := -(2 ^ 31)
def SHRT_MAX : Int := 32767
def SHRT_MIN : Int := -32768

/-- The file-level variables `config_max_level` and `config_min_level`; nothing assigns them. -/
def config_max_level : Int := 0
def config_min_level : Int := 0

/-- Conversion of a signed value to `unsigned int`. -/
def uint_of_int (i : Int) : Nat := (i % (2 : Int) ^ 32).toNat

/-- Value of `snd_pcm_format_physical_width` on the two formats the driver accepts. -/
def snd_pcm_format_physical_width (format : Int) : Nat :=
  if format = SND_PCM_FORMAT_S32_LE then 32
  else if format = SND_PCM_FORMAT_S16_LE then 16
  else 0

/-- What the sound library answers while one stream is configured: the return value of every
call `alsa_driver_configure_stream` makes, the value of `snd_pcm_hw_params_get_channels_max`,
and the negotiated values `alsa_driver_set_parameters` reads back afterwards. -/
structure StreamEnv where
  hw_params_any : Int
  set_periods_integer : Int
  set_access_noninterleaved : Int
  set_access_interleaved : Int
  set_format_s32 : Int
  set_format_s16 : Int
  set_rate : Int
  channels_max : Nat
  set_channels : Int
  set_period_size : Int
  set_periods : Int
  set_buffer_size : Int
  hw_params : Int
  set_start_threshold : Int
  set_stop_threshold : Int
  set_silence_threshold : Int
  set_silence_size : Int
  set_avail_min : Int
  sw_params : Int
  get_period_size : Int
  get_periods : Int
  get_format : Int
  get_access : Int

/-- Result of `alsa_driver_configure_stream`: return value, the object behind `nchns`, and the
count passed to `snd_pcm_hw_params_set_channels` when that call is reached. -/
structure StreamResult where
  ret : Int
  nchns : Nat
  channels_requested : Option Nat

/-- Function `alsa_driver_configure_stream` (lines 185-297); `nchns` is the value behind the pointer on
entry. -/
def alsa_driver_configure_stream (e : StreamEnv) (nchns : Nat) : StreamResult :=
  if e.hw_params_any < 0 then ⟨-1, nchns, none⟩
  else if e.set_periods_integer < 0 then ⟨-1, nchns, none⟩
  else if e.set_access_noninterleaved < 0 ∧ e.set_access_interleaved < 0 then ⟨-1, nchns, none⟩
  else if e.set_format_s32 < 0 ∧ e.set_format_s16 < 0 then ⟨-1, nchns, none⟩
  else if e.set_rate < 0 then ⟨-1, nchns, none⟩
  else
    let n := if e.channels_max > 1024 then 2 else e.channels_max
    if e.set_channels < 0 then ⟨-1, n, some n⟩
    else if e.set_period_size < 0 then ⟨-1, n, some n⟩
    else if e.set_periods < 0 then ⟨-1, n, some n⟩
    else if e.set_buffer_size < 0 then ⟨-1, n, some n⟩
    else if e.hw_params < 0 then ⟨-1, n, some n⟩
    else if e.set_start_threshold < 0 then ⟨-1, n, some n⟩
    else if e.set_stop_threshold < 0 then ⟨-1, n, some n⟩
    else if e.set_silence_threshold < 0 then ⟨-1, n, some n⟩
    else if e.set_silence_size < 0 then ⟨-1, n, some n⟩
    else if e.set_avail_min < 0 then ⟨-1, n, some n⟩
    else if e.sw_params < 0 then ⟨-1, n, some n⟩
    else ⟨0, n, some n⟩

/-- The codec routines of `jack/memops.h` that `alsa_driver_setup_io_function_pointers` installs.
The header is not among the sources, so the routines are parameters. -/
structure memops_t where
  memcpy_interleave_d16_s16 : Mem → Nat → Nat → Nat → Nat → Nat → Mem
  memcpy_interleave_d32_s32 : Mem → Nat → Nat → Nat → Nat → Nat → Mem
  memcpy_fake : Mem → Nat → Nat → Nat → Nat → Nat → Mem
  sample_move_d16_sS : Mem → Nat → Nat → Nat → Nat → Mem
  sample_move_d32u24_sS : Mem → Nat → Nat → Nat → Nat → Mem

/-- Function `alsa_driver_setup_io_function_pointers` (lines 155-183); `read_via_copy` is not part of the
driver record here. -/
def alsa_driver_setup_io_function_pointers (ops : memops_t) (d : alsa_driver_t) : alsa_driver_t :=
  if d.sample_bytes = 2 then
    { d with channel_copy := if d.interleaved then ops.memcpy_interleave_d16_s16
                             else ops.memcpy_fake,
             write_via_copy := ops.sample_move_d16_sS }
  else if d.sample_bytes = 4 then
    { d with channel_copy := if d.interleaved then ops.memcpy_interleave_d32_s32
                             else ops.memcpy_fake,
             write_via_copy := ops.sample_move_d32u24_sS }
  else d

/-- Result of `alsa_driver_set_parameters`. -/
structure SetParameters where
  outcome : Outcome
  driver : alsa_driver_t
  events : List Event

/-- Lines 366-484 of `alsa_driver_set_parameters`: what follows the cross-stream checks of period
size, period count and sample format.  `malloc` is taken to succeed; the new arrays are zero at
every index the code initialises.  The floating point `period_interval` and the
`clock_sync_data` array are not part of the driver record. -/
def set_parameters_tail (w : Nat) (ops : memops_t) (d : alsa_driver_t) (p_format : Int)
    (cenv penv : StreamEnv) : SetParameters :=
  let width := snd_pcm_format_physical_width p_format
  let d1 := { d with sample_format := p_format,
                     sample_bytes := width / 8,
                     bytes_per_cycle := ulong_wrap w (width / 8 * d.frames_per_cycle) }
  let levels : Option (Int × Int) :=
    if p_format = SND_PCM_FORMAT_S32_LE then
      some (if config_max_level ≠ 0 then config_max_level else INT_MAX,
            if config_min_level ≠ 0 then config_min_level else INT_MIN)
    else if p_format = SND_PCM_FORMAT_S16_LE then
      some (if config_max_level ≠ 0 then config_max_level else SHRT_MAX,
            if config_min_level ≠ 0 then config_min_level else SHRT_MIN)
    else none
  match levels with
  | none => ⟨Outcome.exited 1, d1, []⟩
  | some (max_level, min_level) =>
    let d2 := { d1 with max_level := max_level, min_level := min_level }
    let p_noninterleaved := decide (penv.get_access = SND_PCM_ACCESS_MMAP_NONINTERLEAVED)
    let c_noninterleaved := decide (cenv.get_access = SND_PCM_ACCESS_MMAP_NONINTERLEAVED)
    if c_noninterleaved ≠ p_noninterleaved then ⟨Outcome.returned (-1), d2, []⟩
    else
      let d3 := { d2 with interleaved := !c_noninterleaved }
      let d4 :=
        if d3.interleaved then
          { d3 with interleave_unit := width / 8,
                    playback_interleave_skip := ulong_wrap w (width / 8 * d3.playback_nchannels),
                    capture_interleave_skip := ulong_wrap w (width / 8 * d3.capture_nchannels) }
        else
          { d3 with interleave_unit := 0,
                    playback_interleave_skip := width / 8,
                    capture_interleave_skip := width / 8 }
      let d5 :=
        if d4.playback_nchannels > d4.capture_nchannels then
          { d4 with max_nchannels := d4.playback_nchannels,
                    user_nchannels := d4.capture_nchannels }
        else
          { d4 with max_nchannels := d4.capture_nchannels,
                    user_nchannels := d4.playback_nchannels }
      let d6 := alsa_driver_setup_io_function_pointers ops d5
      let d7 := { d6 with playback_addr := fun _ => 0,
                          capture_addr := fun _ => 0,
                          silent := fun _ => 0,
                          input_monitor_requests := fun _ => 0,
                          channel_done_bits :=
                            (List.range d6.playback_nchannels).foldl
                              (fun bits chn => bits ||| chn_bit w chn) 0 }
      ⟨Outcome.returned 0, d7,
        if d7.engine then [Event.set_buffer_size d7.frames_per_cycle] else []⟩

/-- Function `alsa_driver_set_parameters` (lines 299-485).  `cenv` and `penv` are the library's answers
for the capture and the playback stream. -/
def alsa_driver_set_parameters (w : Nat) (ops : memops_t) (d : alsa_driver_t)
    (frames_per_cycle rate : Nat) (cenv penv : StreamEnv) : SetParameters :=
  let d0 := { d with frame_rate := rate, frames_per_cycle := frames_per_cycle }
  let c := alsa_driver_configure_stream cenv d0.capture_nchannels
  let d1 := { d0 with capture_nchannels := c.nchns }
  if c.ret ≠ 0 then ⟨Outcome.returned (-1), d1, []⟩
  else
    let p := alsa_driver_configure_stream penv d1.playback_nchannels
    let d2 := { d1 with playback_nchannels := p.nchns }
    if p.ret ≠ 0 then ⟨Outcome.returned (-1), d2, []⟩
    else
      let p_period_size := uint_of_int penv.get_period_size
      let c_period_size := uint_of_int cenv.get_period_size
      if c_period_size ≠ d2.frames_per_cycle ∨ p_period_size ≠ d2.frames_per_cycle then
        ⟨Outcome.returned (-1), d2, []⟩
      else
        let p_nfragments := uint_of_int penv.get_periods
        let c_nfragments := uint_of_int cenv.get_periods
        if p_nfragments ≠ c_nfragments then ⟨Outcome.returned (-1), d2, []⟩
        else
          let d3 := { d2 with nfragments := c_nfragments,
                              buffer_frames := ulong_wrap w (d2.frames_per_cycle * c_nfragments) }
          let p_format := penv.get_format
          let c_format := cenv.get_format
          if p_format ≠ c_format then ⟨Outcome.returned (-1), d3, []⟩
          else set_parameters_tail w ops d3 p_format cenv penv

/-! ## Monitor-all, reset, construction (lines 47-153, 473-493, 815-829, 1008-1213) -/

/-- Function `alsa_driver_request_all_monitor_input` (lines 1008-1021). -/
def alsa_driver_request_all_monitor_input (d : alsa_driver_t) (yn : Bool) :
    alsa_driver_t × List Event :=
  let h :=
    if d.hw_monitoring then
      if yn then hw_set_mask d all_ones_uint else hw_set_mask d d.input_monitor_mask
    else (d, [])
  ({ h.1 with all_monitor_in := yn }, h.2)

/-- The loop at lines 473-476 of `alsa_driver_set_parameters`, for `P` playback channels:
`channel_done_bits = 0; for (chn = 0; chn < P; chn++) channel_done_bits |= (1<<chn);`. -/
def channel_done_bits_loop (w P : Nat) : Nat :=
  (List.range P).foldl (fun bits chn => bits ||| chn_bit w chn) 0

/-- The channels for which the monitoring code at lines 815-829 calls
`alsa_driver_copy_channel (driver, chn, chn, contiguous)`, in the order of the calls.  Each call
reads `capture_addr[chn]` and `playback_addr[chn]`. -/
def monitor_copy_channels (w : Nat) (d : alsa_driver_t) : List Nat :=
  if !d.hw_monitoring then
    if d.all_monitor_in then List.range d.playback_nchannels
    else if d.input_monitor_mask ≠ 0 then
      (List.range d.playback_nchannels).filter
        (fun chn => decide (d.input_monitor_mask &&& chn_bit w chn ≠ 0))
    else []
  else []

/-- Function `alsa_driver_release_channel_dependent_memory` (lines 47-70): the four per-channel arrays
are freed and their pointers set to 0.  An array that is gone is rendered as the zero
function. -/
def alsa_driver_release_channel_dependent_memory (d : alsa_driver_t) : alsa_driver_t :=
  { d with playback_addr := fun _ => 0,
           capture_addr := fun _ => 0,
           silent := fun _ => 0,
           input_monitor_requests := fun _ => 0 }

/-- Function `alsa_driver_reset_parameters` (lines 487-493). -/
def alsa_driver_reset_parameters (w : Nat) (ops : memops_t) (d : alsa_driver_t)
    (frames_per_cycle rate : Nat) (cenv penv : StreamEnv) : SetParameters :=
  alsa_driver_set_parameters w ops (alsa_driver_release_channel_dependent_memory d)
    frames_per_cycle rate cenv penv

/-- The handles of a driver under construction: whether `driver->playback_handle` and
`driver->capture_handle` are non-null, and which handles are open in the sound library. -/
structure Handles where
  playback_handle : Bool
  capture_handle : Bool
  playback_open : Bool
  capture_open : Bool
  ctl_open : Bool
deriving DecidableEq, Repr

/-- The part of `jack_hardware_t` (`jack/hardware.h`) the driver uses. -/
structure jack_hardware_t where
  capabilities : Nat
  input_monitor_mask : Nat
  set_input_monitor_mask : Nat → Nat → Nat

/-- What the outside world answers during `alsa_driver_new`: the return values of the two
`snd_pcm_open` calls, of `snd_ctl_open` and `snd_ctl_card_info`, whether the card's driver name
is "RME9652", the return values of the four parameter allocations, the two streams'
answers during configuration, the return value of `snd_pcm_link`, and the hardware records
`jack_alsa_hammerfall_hw_new` and `jack_alsa_generic_hw_new` hand out (`jack/hammerfall.h` and
`jack/generic.h` are not among the sources). -/
structure NewEnv where
  open_playback : Int
  open_capture : Int
  ctl_open : Int
  ctl_card_info : Int
  card_is_rme9652 : Bool
  hw_params_malloc_playback : Int
  hw_params_malloc_capture : Int
  sw_params_malloc_playback : Int
  sw_params_malloc_capture : Int
  capture : StreamEnv
  playback : StreamEnv
  link : Int
  hammerfall_hw : jack_hardware_t
  generic_hw : jack_hardware_t

/-- What `alsa_driver_new` yields: a driver, the null pointer (`return 0`), or the process
leaves through `exit`. -/
inductive NewOutcome where
  | driver (d : alsa_driver_t)
  | null
  | exited (code : Int)

/-- Whether `alsa_driver_new` returned the null pointer. -/
def NewOutcome.isNull : NewOutcome → Bool
  | NewOutcome.null => true
  | _ => false

/-- Result of `alsa_driver_new`: the outcome and the state of the handles at that point. -/
structure NewResult where
  outcome : NewOutcome
  handles : Handles

/-- Function `alsa_driver_delete` (lines 1054-1098), as far as the stream handles go: the capture
stream is closed when `capture_handle` is set; the playback stream is closed when
`playback_handle` is set, after which the source assigns 0 to `capture_handle` once more.  The
control handle is not closed. -/
def alsa_driver_delete (h : Handles) : Handles :=
  let h1 := if h.capture_handle then { h with capture_open := false, capture_handle := false }
            else h
  if h1.playback_handle then { h1 with playback_open := false, capture_handle := false }
  else h1

/-- Function `alsa_driver_check_card_type` (lines 79-102): return value and whether the control handle
is left open. -/
def alsa_driver_check_card_type (e : NewEnv) : Int × Bool :=
  if e.ctl_open < 0 then (-1, false)
  else if e.ctl_card_info < 0 then (-1, false)
  else (0, true)

/-- Function `alsa_driver_hw_specific` (lines 120-153).  The flags `has_hw_monitoring` and
`has_clock_sync_reporting` it derives from the capabilities are not part of the driver record
here. -/
def alsa_driver_hw_specific (e : NewEnv) (d : alsa_driver_t) : alsa_driver_t :=
  let hw := if e.card_is_rme9652 then e.hammerfall_hw else e.generic_hw
  { d with hw_input_monitor_mask := hw.input_monitor_mask,
           hw_set_input_monitor_mask := hw.set_input_monitor_mask,
           hw_monitoring := false }

/-- Function `alsa_driver_new` (lines 1100-1213).  The failure paths before the parameter allocations
only `free (driver)`; the later ones call `alsa_driver_delete`. -/
def alsa_driver_new (w : Nat) (ops : memops_t) (e : NewEnv) (frames_per_cycle rate : Nat) :
    NewResult :=
  let h0 : Handles := ⟨false, false, false, false, false⟩
  if e.open_playback < 0 then ⟨NewOutcome.null, h0⟩
  else
    let h1 := { h0 with playback_handle := true, playback_open := true }
    if e.open_capture < 0 then ⟨NewOutcome.null, h1⟩
    else
      let h2 := { h1 with capture_handle := true, capture_open := true }
      let card := alsa_driver_check_card_type e
      let h3 := { h2 with ctl_open := card.2 }
      if card.1 ≠ 0 then ⟨NewOutcome.null, h3⟩
      else if e.hw_params_malloc_playback < 0 then ⟨NewOutcome.null, alsa_driver_delete h3⟩
      else if e.hw_params_malloc_capture < 0 then ⟨NewOutcome.null, alsa_driver_delete h3⟩
      else if e.sw_params_malloc_playback < 0 then ⟨NewOutcome.null, alsa_driver_delete h3⟩
      else if e.sw_params_malloc_capture < 0 then ⟨NewOutcome.null, alsa_driver_delete h3⟩
      else
        let sp := alsa_driver_set_parameters w ops driver_calloc frames_per_cycle rate
                    e.capture e.playback
        match sp.outcome with
        | Outcome.exited code => ⟨NewOutcome.exited code, h3⟩
        | Outcome.returned r =>
          if r ≠ 0 then ⟨NewOutcome.null, alsa_driver_delete h3⟩
          else
            let d1 := { sp.driver with
                        capture_and_playback_not_synced := decide (e.link ≠ 0) }
            ⟨NewOutcome.driver (alsa_driver_hw_specific e d1), h3⟩

/-! ## Clock sync data, loop traces (lines 460-462, 677-683, 756-841) -/

/-- The argument of `malloc` at lines 460-462 of `alsa_driver_set_parameters`:
`sizeof (ClockSyncStatus) * driver->capture_nchannels > driver->playback_nchannels ?
driver->capture_nchannels : driver->playback_nchannels`.  In C `*` binds tighter than `>` and
`>` tighter than `?:`, so the product is an operand of the comparison.  The type
`ClockSyncStatus` is declared outside the sources at hand; `size` is its `sizeof`.  The product
is computed in `size_t`, taken to be as wide as `unsigned long`. -/
def clock_sync_data_bytes (w size : Nat) (d : alsa_driver_t) : Nat :=
  if ulong_wrap w (size * d.capture_nchannels) > d.playback_nchannels then d.capture_nchannels
  else d.playback_nchannels

/-- Function `alsa_driver_set_clock_sync_status` (lines 677-683), as far as memory goes: the
store `driver->clock_sync_data[chn] = status` writes `size` bytes from byte offset `chn * size`
of the array on.  The result is the pair of the first offset written and the first offset after
the store. -/
def alsa_driver_set_clock_sync_status (size chn : Nat) : Nat × Nat :=
  (chn * size, chn * size + size)

/-- Number of passes of the processing loop a trace shows: every pass starts with
`snd_pcm_mmap_begin` on the capture stream. -/
def loop_passes (evs : List Event) : Nat :=
  (evs.filter (fun e => match e with
    | Event.mmap_begin s _ => decide (s = Stream.capture)
    | _ => false)).length

/-- Sum of the frame counts of the `snd_pcm_mmap_commit` calls on a stream in a trace. -/
def committed_frames (s : Stream) (evs : List Event) : Nat :=
  (evs.map (fun e => match e with
    | Event.mmap_commit s1 _ k => if s1 = s then k else 0
    | _ => 0)).sum

/-! ## Specification vocabulary -/

/-- The second driver record differs from the first at most in the per-cycle bookkeeping:
`channels_not_done`, `silent` and `silence_pending`. -/
def bookkeeping_only (d d' : alsa_driver_t) : Prop :=
  d' = { d with channels_not_done := d'.channels_not_done,
                silent := d'.silent,
                silence_pending := d'.silence_pending }

/-- The port at position `p` of the list exists and has at least one connection: the condition
under which the loop at lines 801-813 writes channel `p`. -/
def port_connected (ports : List jack_port_t) (p : Nat) : Bool :=
  match ports[p]? with
  | some port => decide (port.connections ≠ 0)
  | none => false

/-- The first `n` frames of playback channel `p` are zero in memory: every byte of every sample,
the samples lying `playback_interleave_skip` bytes apart from `playback_addr[p]` on. -/
def channel_zero_filled (d : alsa_driver_t) (m : Mem) (p n : Nat) : Prop :=
  ∀ k, k < n → ∀ j, j < d.sample_bytes →
    m (d.playback_addr p + k * d.playback_interleave_skip + j) = 0

/-- The contiguous frame count a `snd_pcm_mmap_begin` reply stores, when the call succeeds. -/
def MmapReply.granted : MmapReply → Option Nat
  | MmapReply.ok _ _ frames => some frames
  | MmapReply.error _ => none

/-- The replies serve the processing loop within bounds: in every pass the loop makes from
`avail` on, as long as replies are left, both `snd_pcm_mmap_begin` calls succeed with a
contiguous count between 1 and the count requested, and `engine->process` returns 0.  `fpc` is
`frames_per_cycle`; the count requested is the one of lines 760-761. -/
def spans_grant (w fpc : Nat) : Int → List SpanEnv → Bool
  | _, [] => true
  | avail, e :: rest =>
    if avail = 0 then true
    else
      let requested : Nat := ulong_of_int w
        (if ulong_of_int w avail > fpc then long_of_ulong w fpc else avail)
      match e.capture_begin.granted, e.playback_begin.granted with
      | some cf, some pf =>
        decide (1 ≤ cf ∧ cf ≤ requested ∧ 1 ≤ pf ∧ pf ≤ requested ∧ e.process_ret = 0) &&
          spans_grant w fpc (avail - (min cf pf : Nat)) rest
      | _, _ => false

/-! ## Concrete inputs -/

/-- What a call of `alsa_driver_wait` lets an observer see: how it ended, how often it called
`engine->process`, and how many `snd_pcm_mmap_begin`/`snd_pcm_mmap_commit` calls it made on the
capture and on the playback stream.  `none` when the replies ran out. -/
def wait_summary (r : Option Run) : Option (Outcome × Nat × Nat × Nat) :=
  r.map (fun x => (x.outcome, count_process x.events, count_mmap Stream.capture x.events,
                   count_mmap Stream.playback x.events))

/-- A sound library that answers every call with success and an empty buffer. -/
def quiet_env : WaitEnv where
  under_gdb := false
  polls := []
  capture_avail := 0
  playback_avail := 0
  delay := 0
  stop := ⟨0, 0⟩
  start := ⟨0, 0, 0, MmapReply.ok (fun _ => ⟨0, 0, 0⟩) 0 0, 0, 0, 0⟩
  spans := []

/-- A span in which both streams grant `frames` contiguous frames at offset 0 (one area of
4096 bytes per channel, non-interleaved) and `engine->process` returns `ret`. -/
def plain_span (frames : Nat) (ret : Int) : SpanEnv where
  capture_begin := MmapReply.ok (fun chn => ⟨4096 * chn, 0, 16⟩) 0 frames
  playback_begin := MmapReply.ok (fun chn => ⟨65536 + 4096 * chn, 0, 16⟩) 0 frames
  process_ret := ret
  process_mem := fun m => m

/-- A configured stereo driver: 64 frames per cycle, two periods, 16 bit samples,
non-interleaved, attached to an engine, no ports connected. -/
def stereo_driver : alsa_driver_t :=
  { driver_calloc with
    frames_per_cycle := 64
    frame_rate := 48000
    engine := true
    max_nchannels := 2
    user_nchannels := 2
    playback_nchannels := 2
    capture_nchannels := 2
    sample_bytes := 2
    buffer_frames := 128
    bytes_per_cycle := 128
    channel_done_bits := 3
    sample_format := 2
    nfragments := 2
    playback_interleave_skip := 2
    capture_interleave_skip := 2
    playback_ports := [⟨0, 0⟩, ⟨0, 0⟩] }

/-- Replies in which `snd_pcm_avail_update` fails on the capture stream with `-EBADFD` (-77),
the playback stream has 64 frames free, the first pass of the loop succeeds and
`engine->process` fails in the second. -/
def negative_avail_env : WaitEnv :=
  { quiet_env with
    polls := [PollReply.returned POLLOUT]
    capture_avail := -77
    playback_avail := 64
    spans := [plain_span 64 0, plain_span 64 1] }

/-- A stream that accepts every request and negotiates 64 frames per period, two periods,
the given sample format and non-interleaved access. -/
def willing_stream (format : Int) : StreamEnv where
  hw_params_any := 0
  set_periods_integer := 0
  set_access_noninterleaved := 0
  set_access_interleaved := 0
  set_format_s32 := 0
  set_format_s16 := 0
  set_rate := 0
  channels_max := 2
  set_channels := 0
  set_period_size := 0
  set_periods := 0
  set_buffer_size := 0
  hw_params := 0
  set_start_threshold := 0
  set_stop_threshold := 0
  set_silence_threshold := 0
  set_silence_size := 0
  set_avail_min := 0
  sw_params := 0
  get_period_size := 64
  get_periods := 2
  get_format := format
  get_access := 1

/-- Codec routines that leave memory alone. -/
def idle_memops : memops_t where
  memcpy_interleave_d16_s16 := fun m _ _ _ _ _ => m
  memcpy_interleave_d32_s32 := fun m _ _ _ _ _ => m
  memcpy_fake := fun m _ _ _ _ _ => m
  sample_move_d16_sS := fun m _ _ _ _ => m
  sample_move_d32u24_sS := fun m _ _ _ _ => m

/-- Replies for a cycle in which `snd_pcm_avail_update` reports an overrun (`-EPIPE`) on the
capture stream and every call of the recovery succeeds: after the restart the whole playback
buffer of 128 frames is free. -/
def xrun_env : WaitEnv :=
  { quiet_env with
    polls := [PollReply.returned POLLOUT]
    capture_avail := -32
    playback_avail := 64
    start := ⟨0, 0, 128, MmapReply.ok (fun chn => ⟨65536 + 4096 * chn, 0, 16⟩) 0 128, 0, 0, 0⟩ }

/-- A stream like `willing_stream` that reports 33 channels. -/
def wide_stream : StreamEnv :=
  { willing_stream SND_PCM_FORMAT_S16_LE with channels_max := 33 }

/-- The driver `alsa_driver_set_parameters` configures for 33 capture and 33 playback channels
when `unsigned long` has 32 bits, attached to an engine, with ports 0..31 connected and port 32
not connected. -/
def wide_driver : alsa_driver_t :=
  { (alsa_driver_set_parameters 32 idle_memops driver_calloc 64 48000
      wide_stream wide_stream).driver with
    engine := true
    playback_ports := List.replicate 32 ⟨1, 0⟩ ++ [⟨0, 0⟩] }

/-- Replies for a cycle with 64 frames available on both streams, processed in one span. -/
def one_span_env : WaitEnv :=
  { quiet_env with
    polls := [PollReply.returned POLLOUT]
    capture_avail := 64
    playback_avail := 64
    spans := [plain_span 64 0] }

/-- Replies for a cycle with 128 frames available on both streams, processed in two spans of
64 frames. -/
def two_span_env : WaitEnv :=
  { quiet_env with
    polls := [PollReply.returned POLLOUT]
    capture_avail := 128
    playback_avail := 128
    spans := [plain_span 64 0, plain_span 64 0] }

/-- The silence counter of channel `p` when the call has returned. -/
def silent_after (r : Option Run) (p : Nat) : Option Nat :=
  r.map (fun x => x.driver.silent p)

/-- A driver with four channels and nothing else set. -/
def four_channel_driver : alsa_driver_t :=
  { driver_calloc with max_nchannels := 4, playback_nchannels := 4, capture_nchannels := 4 }

/-- A driver with four channels, one outstanding monitor request for channel 3 and bit 3 of the
mask set. -/
def monitoring_driver : alsa_driver_t :=
  (alsa_driver_request_monitor_input 32 four_channel_driver 3 true).1

/-- A stream like `willing_stream SND_PCM_FORMAT_S16_LE` that reports `n` channels. -/
def stream_of_channels (n : Nat) : StreamEnv :=
  { willing_stream SND_PCM_FORMAT_S16_LE with channels_max := n }

/-- A driver of two channels with one outstanding monitor request for channel 1 and bit 1 of the
mask set. -/
def requested_driver : alsa_driver_t :=
  (alsa_driver_request_monitor_input 32
    { driver_calloc with max_nchannels := 2, playback_nchannels := 2, capture_nchannels := 2 }
    1 true).1

/-- A hardware record without capabilities whose mask setter returns the mask it is given. -/
def plain_hw : jack_hardware_t where
  capabilities := 0
  input_monitor_mask := 0
  set_input_monitor_mask := fun m _ => m

/-- Replies with which every step of `alsa_driver_new` succeeds. -/
def willing_new_env : NewEnv where
  open_playback := 0
  open_capture := 0
  ctl_open := 0
  ctl_card_info := 0
  card_is_rme9652 := false
  hw_params_malloc_playback := 0
  hw_params_malloc_capture := 0
  sw_params_malloc_playback := 0
  sw_params_malloc_capture := 0
  capture := willing_stream SND_PCM_FORMAT_S16_LE
  playback := willing_stream SND_PCM_FORMAT_S16_LE
  link := 0
  hammerfall_hw := plain_hw
  generic_hw := plain_hw

/-- The playback stream opens, the capture stream does not (`-ENOENT`). -/
def capture_refused_env : NewEnv := { willing_new_env with open_capture := -2 }

/-- Both streams open, the control device does not (`-ENOENT`). -/
def control_refused_env : NewEnv := { willing_new_env with ctl_open := -2 }

/-- Both streams and the control device open, the first parameter allocation fails
(`-ENOMEM`). -/
def no_memory_env : NewEnv := { willing_new_env with hw_params_malloc_playback := -12 }

/-- Both streams open and the allocations succeed, the capture stream then refuses
`snd_pcm_hw_params_any`, so that `alsa_driver_set_parameters` returns -1. -/
def unconfigurable_env : NewEnv :=
  { willing_new_env with
    capture := { willing_stream SND_PCM_FORMAT_S16_LE with hw_params_any := -22 } }

/-- The driver `alsa_driver_set_parameters` configures for one capture channel and two playback
channels, after `alsa_driver_request_all_monitor_input (driver, TRUE)`. -/
def mono_in_stereo_out : alsa_driver_t :=
  (alsa_driver_request_all_monitor_input
    (alsa_driver_set_parameters 32 idle_memops driver_calloc 64 48000
      (stream_of_channels 1) (stream_of_channels 2)).driver true).1

/-- The 33 channel driver `wide_driver` with no playback port connected. -/
def wide_idle_driver : alsa_driver_t :=
  { wide_driver with playback_ports := [] }

/-- A span in which `snd_pcm_mmap_begin` fails on the capture stream with `-EPIPE`, succeeds on
the playback stream with 64 frames, and `engine->process` returns 0. -/
def capture_begin_fails : SpanEnv :=
  { plain_span 64 0 with capture_begin := MmapReply.error (-32) }

/-- Replies for a cycle with 100 frames available on both streams: both streams grant 64 frames
in the first pass and the remaining 36 in the second; 98 further replies are at hand and are
not asked for. -/
def uneven_spans : List SpanEnv :=
  [plain_span 64 0, plain_span 36 0] ++ List.replicate 98 (plain_span 1 0)

/-- Replies for a cycle with 64 frames available on both streams in which `snd_pcm_mmap_begin`
fails on the capture stream. -/
def begin_fails_env : WaitEnv :=
  { quiet_env with
    polls := [PollReply.returned POLLOUT]
    capture_avail := 64
    playback_avail := 64
    spans := [capture_begin_fails] }

/-- The driver `alsa_driver_set_parameters` configures for two capture and two playback
channels. -/
def configured_stereo : alsa_driver_t :=
  (alsa_driver_set_parameters 32 idle_memops driver_calloc 64 48000
    (willing_stream SND_PCM_FORMAT_S16_LE) (willing_stream SND_PCM_FORMAT_S16_LE)).driver

/-- Codec routines whose three copy routines copy `bytes` bytes from `src` to `dst`, as `memcpy`
does, and whose sample routines leave memory alone (`memops.c` is not among the sources). -/
def copying_memops : memops_t where
  memcpy_interleave_d16_s16 := fun m dst src bytes _ _ a =>
    if dst ≤ a ∧ a < dst + bytes then m (src + (a - dst)) else m a
  memcpy_interleave_d32_s32 := fun m dst src bytes _ _ a =>
    if dst ≤ a ∧ a < dst + bytes then m (src + (a - dst)) else m a
  memcpy_fake := fun m dst src bytes _ _ a =>
    if dst ≤ a ∧ a < dst + bytes then m (src + (a - dst)) else m a
  sample_move_d16_sS := fun m _ _ _ _ => m
  sample_move_d32u24_sS := fun m _ _ _ _ => m

/-- The driver `alsa_driver_set_parameters` configures for 33 capture and 33 playback channels
when `unsigned long` has 32 bits, with copying codec routines, no engine and no ports, after a
monitor request for channel 0. -/
def wide_copying_driver : alsa_driver_t :=
  (alsa_driver_request_monitor_input 32
    (alsa_driver_set_parameters 32 copying_memops driver_calloc 64 48000
      wide_stream wide_stream).driver 0 true).1

/-- A span in which both streams grant 64 contiguous frames at offset 0, with one area of 4096
bytes per channel: the capture areas from address 0 on, the playback areas from address
1048576 on. -/
def wide_span : SpanEnv where
  capture_begin := MmapReply.ok (fun chn => ⟨4096 * chn, 0, 16⟩) 0 64
  playback_begin := MmapReply.ok (fun chn => ⟨1048576 + 4096 * chn, 0, 16⟩) 0 64
  process_ret := 0
  process_mem := fun m => m

/-- Memory with the byte 7 all over the capture areas of `wide_span` and the byte 255 all over
its playback areas. -/
def wide_memory : Mem := fun a => if a < 1048576 then 7 else 255

/-! # Properties -/

/-! ## Bit-level facts -/

theorem ulong_of_int_natCast (w n : Nat) (h : n < 2 ^ w) : ulong_of_int w (n : Int) = n := by
  unfold ulong_of_int
  have h1 : ((n : Int) % (2 : Int) ^ w) = (n : Int) := by
    apply Int.emod_eq_of_lt (by positivity)
    exact_mod_cast h
  rw [h1]; simp

theorem chn_bit_eq (w chn : Nat) (hw : 32 ≤ w) (hc : chn < 31) : chn_bit w chn = 2 ^ chn := by
  unfold chn_bit int_shl1
  have h32 : chn % 32 = chn := Nat.mod_eq_of_lt (by omega)
  rw [h32, if_neg (by omega)]
  have hlt : 2 ^ chn < 2 ^ w := Nat.pow_lt_pow_right (by norm_num) (by omega)
  have := ulong_of_int_natCast w (2 ^ chn) hlt
  simpa using this

theorem chn_bit_compl_eq (w chn : Nat) (hw : 32 ≤ w) (hc : chn < 31) :
    chn_bit_compl w chn = 2 ^ w - (2 ^ chn + 1) := by
  unfold chn_bit_compl int_shl1 ulong_of_int
  have h32 : chn % 32 = chn := Nat.mod_eq_of_lt (by omega)
  rw [h32, if_neg (by omega)]
  have hlt : 2 ^ chn < 2 ^ w := Nat.pow_lt_pow_right (by norm_num) (by omega)
  have hcast : (-(2 : Int) ^ chn - 1) % (2 : Int) ^ w = ((2 ^ w - (2 ^ chn + 1) : Nat) : Int) := by
    have e : (-(2 : Int) ^ chn - 1) = ((2 ^ w - (2 ^ chn + 1) : Nat) : Int) + (-1) * (2 : Int) ^ w := by
      have : 2 ^ chn + 1 ≤ 2 ^ w := hlt
      push_cast [Nat.cast_sub this]
      ring
    rw [e, Int.add_mul_emod_self]
    apply Int.emod_eq_of_lt (by positivity)
    have : 2 ^ w - (2 ^ chn + 1) < 2 ^ w :=
      Nat.sub_lt (by positivity) (by positivity)
    exact_mod_cast this
  rw [hcast]; simp

theorem and_two_pow_eq_zero_iff (m c : Nat) : m &&& 2 ^ c = 0 ↔ m.testBit c = false := by
  constructor
  · intro h
    have := congrArg (fun x => x.testBit c) h
    simpa [Nat.testBit_two_pow_self] using this
  · intro h
    apply Nat.eq_of_testBit_eq
    intro i
    by_cases hi : c = i
    · subst hi; simp [h]
    · simp [Nat.testBit_two_pow_of_ne hi]

theorem testBit_or_two_pow (m c i : Nat) :
    (m ||| 2 ^ c).testBit i = (m.testBit i || decide (c = i)) := by
  simp [Nat.testBit_two_pow]

theorem testBit_and_compl_two_pow (w m c i : Nat) (hc : c < w) (hi : i < w) :
    (m &&& (2 ^ w - (2 ^ c + 1))).testBit i = (m.testBit i && !decide (c = i)) := by
  have hlt : 2 ^ c < 2 ^ w := Nat.pow_lt_pow_right (by norm_num) hc
  rw [Nat.testBit_and, Nat.testBit_two_pow_sub_succ hlt, Nat.testBit_two_pow]
  simp [hi]

/-! ## Monitor requests -/

section request_cases

variable (w : Nat) (d : alsa_driver_t) (chn : Nat)

theorem request_out_of_range (yn : Bool) (h : d.max_nchannels ≤ chn) :
    alsa_driver_request_monitor_input w d chn yn = (d, []) := by
  unfold alsa_driver_request_monitor_input
  rw [if_pos h]

theorem request_on_first (h : chn < d.max_nchannels)
    (hr : ulong_wrap w (d.input_monitor_requests chn + 1) = 1)
    (hm : d.input_monitor_mask &&& chn_bit w chn = 0) :
    alsa_driver_request_monitor_input w d chn true =
      ({ d with input_monitor_requests := Function.update d.input_monitor_requests chn 1,
                input_monitor_mask := d.input_monitor_mask ||| chn_bit w chn },
       [Event.input_monitor_notify chn true]) := by
  unfold alsa_driver_request_monitor_input
  simp [Nat.not_le.mpr h, hr, hm]

theorem request_on_first_set (h : chn < d.max_nchannels)
    (hr : ulong_wrap w (d.input_monitor_requests chn + 1) = 1)
    (hm : d.input_monitor_mask &&& chn_bit w chn ≠ 0) :
    alsa_driver_request_monitor_input w d chn true =
      ({ d with input_monitor_requests := Function.update d.input_monitor_requests chn 1 }, []) := by
  unfold alsa_driver_request_monitor_input
  simp [Nat.not_le.mpr h, hr, hm]

theorem request_on_more (h : chn < d.max_nchannels)
    (hr : ulong_wrap w (d.input_monitor_requests chn + 1) ≠ 1) :
    alsa_driver_request_monitor_input w d chn true =
      ({ d with input_monitor_requests := Function.update d.input_monitor_requests chn
                  (ulong_wrap w (d.input_monitor_requests chn + 1)) }, []) := by
  unfold alsa_driver_request_monitor_input
  simp [Nat.not_le.mpr h, hr]

theorem request_off_zero (h : chn < d.max_nchannels) (hr : d.input_monitor_requests chn = 0) :
    alsa_driver_request_monitor_input w d chn false = (d, []) := by
  unfold alsa_driver_request_monitor_input
  simp [Nat.not_le.mpr h, hr]

theorem request_off_more (h : chn < d.max_nchannels) (hr : 2 ≤ d.input_monitor_requests chn) :
    alsa_driver_request_monitor_input w d chn false =
      ({ d with input_monitor_requests := Function.update d.input_monitor_requests chn
                  (d.input_monitor_requests chn - 1) }, []) := by
  unfold alsa_driver_request_monitor_input
  have h1 : d.input_monitor_requests chn ≠ 0 := by omega
  have h2 : d.input_monitor_requests chn - 1 ≠ 0 := by omega
  simp [Nat.not_le.mpr h, h1, h2]

theorem request_off_last_clear (h : chn < d.max_nchannels) (hr : d.input_monitor_requests chn = 1)
    (hm : d.input_monitor_mask &&& chn_bit w chn = 0) :
    alsa_driver_request_monitor_input w d chn false =
      ({ d with input_monitor_requests := Function.update d.input_monitor_requests chn 0 }, []) := by
  unfold alsa_driver_request_monitor_input
  simp [Nat.not_le.mpr h, hr, hm]

theorem request_off_last (h : chn < d.max_nchannels) (hr : d.input_monitor_requests chn = 1)
    (hm : d.input_monitor_mask &&& chn_bit w chn ≠ 0) :
    alsa_driver_request_monitor_input w d chn false =
      ({ d with input_monitor_requests := Function.update d.input_monitor_requests chn 0,
                input_monitor_mask := d.input_monitor_mask &&& chn_bit_compl w chn,
                silence_pending := if d.hw_monitoring then d.silence_pending
                                   else d.silence_pending ||| chn_bit w chn },
       [Event.input_monitor_notify chn false]) := by
  unfold alsa_driver_request_monitor_input alsa_driver_mark_channel_silent
  cases hh : d.hw_monitoring <;> simp [Nat.not_le.mpr h, hr, hm, hh]

end request_cases

theorem request_max_nchannels (w : Nat) (d : alsa_driver_t) (chn : Nat) (yn : Bool) :
    (alsa_driver_request_monitor_input w d chn yn).1.max_nchannels = d.max_nchannels := by
  by_cases h : chn < d.max_nchannels
  · cases yn
    · by_cases h0 : d.input_monitor_requests chn = 0
      · rw [request_off_zero w d chn h h0]
      · by_cases h1 : d.input_monitor_requests chn = 1
        · by_cases hm : d.input_monitor_mask &&& chn_bit w chn = 0
          · rw [request_off_last_clear w d chn h h1 hm]
          · rw [request_off_last w d chn h h1 hm]
        · rw [request_off_more w d chn h (by omega)]
    · by_cases hr : ulong_wrap w (d.input_monitor_requests chn + 1) = 1
      · by_cases hm : d.input_monitor_mask &&& chn_bit w chn = 0
        · rw [request_on_first w d chn h hr hm]
        · rw [request_on_first_set w d chn h hr hm]
      · rw [request_on_more w d chn h hr]
  · rw [request_out_of_range w d chn yn (by omega)]

theorem request_mask_inv (w : Nat) (d : alsa_driver_t) (chn : Nat) (yn : Bool)
    (hw : 32 ≤ w) (hM : d.max_nchannels ≤ 31) (hinv : mask_inv d)
    (hcnt : chn < d.max_nchannels → d.input_monitor_requests chn < 2 ^ w - 1) :
    mask_inv (alsa_driver_request_monitor_input w d chn yn).1 := by
  by_cases h : chn < d.max_nchannels
  swap
  · rw [request_out_of_range w d chn yn (by omega)]; exact hinv
  have hcnt := hcnt h
  have hchn31 : chn < 31 := by omega
  have hb := chn_bit_eq w chn hw hchn31
  have hbc := chn_bit_compl_eq w chn hw hchn31
  have hwrap : ulong_wrap w (d.input_monitor_requests chn + 1) = d.input_monitor_requests chn + 1 := by
    unfold ulong_wrap; apply Nat.mod_eq_of_lt; omega
  have hic := hinv chn h
  cases yn
  · by_cases h0 : d.input_monitor_requests chn = 0
    · rw [request_off_zero w d chn h h0]; exact hinv
    · by_cases h1 : d.input_monitor_requests chn = 1
      · by_cases hm : d.input_monitor_mask &&& chn_bit w chn = 0
        · rw [hb, and_two_pow_eq_zero_iff] at hm
          rw [hm, h1] at hic; simp at hic
        · rw [request_off_last w d chn h h1 hm]
          intro c hc
          have hcc := hinv c hc
          simp only [hbc]
          rw [testBit_and_compl_two_pow w _ chn c (by omega) (by have : c < d.max_nchannels := hc; omega)]
          by_cases hcc' : chn = c
          · subst hcc'; simp
          · simp [hcc', Function.update_noteq (Ne.symm hcc'), hcc]
      · rw [request_off_more w d chn h (by omega)]
        intro c hc
        have hcc := hinv c hc
        by_cases hcc' : chn = c
        · subst hcc'
          simp only [Function.update_same]
          rw [hcc]; constructor <;> intro <;> omega
        · simp only [Function.update_noteq (Ne.symm hcc')]; exact hcc
  · by_cases hr : ulong_wrap w (d.input_monitor_requests chn + 1) = 1
    · by_cases hm : d.input_monitor_mask &&& chn_bit w chn = 0
      · rw [request_on_first w d chn h hr hm]
        intro c hc
        have hcc := hinv c hc
        simp only [hb, testBit_or_two_pow]
        by_cases hcc' : chn = c
        · subst hcc'; simp
        · simp [hcc', Function.update_noteq (Ne.symm hcc'), hcc]
      · rw [request_on_first_set w d chn h hr hm]
        intro c hc
        have hcc := hinv c hc
        rw [hb] at hm
        have hbit : d.input_monitor_mask.testBit chn = true := by
          by_contra hne
          exact hm ((and_two_pow_eq_zero_iff _ _).mpr (by simpa using hne))
        by_cases hcc' : chn = c
        · subst hcc'; simp [hbit]
        · simp only [Function.update_noteq (Ne.symm hcc')]; exact hcc
    · rw [request_on_more w d chn h hr]
      intro c hc
      have hcc := hinv c hc
      rw [hwrap] at hr
      by_cases hcc' : chn = c
      · subst hcc'
        simp only [Function.update_same, hwrap]
        rw [hcc]; constructor <;> intro <;> omega
      · simp only [Function.update_noteq (Ne.symm hcc')]; exact hcc

/-- C1. Monitor-mask invariant: from a driver with mask 0 and all request counts 0 and at most
31 channels, after any sequence of `request_monitor_input` calls during which no count of a
channel below `max_nchannels` reaches the largest `unsigned long`, bit `c` of
`input_monitor_mask` is set if and only if `input_monitor_requests[c] > 0`, for every
`c < max_nchannels`. -/
theorem monitor_mask_invariant (w : Nat) (d : alsa_driver_t) (calls : List (Nat × Bool))
    (hw : 32 ≤ w) (hM : d.max_nchannels ≤ 31)
    (hmask : d.input_monitor_mask = 0) (hreq : ∀ c, d.input_monitor_requests c = 0)
    (hmax : ∀ k, k ≤ calls.length → ∀ c, c < d.max_nchannels →
      (run_monitor_requests w d (calls.take k)).input_monitor_requests c < 2 ^ w - 1) :
    ∀ c, c < d.max_nchannels →
      ((run_monitor_requests w d calls).input_monitor_mask.testBit c = true ↔
        0 < (run_monitor_requests w d calls).input_monitor_requests c) := by
  have hinv : mask_inv d := by
    intro c _
    simp [hmask, hreq]
  clear hmask hreq
  have key : ∀ (calls : List (Nat × Bool)) (d : alsa_driver_t), d.max_nchannels ≤ 31 → mask_inv d →
      (∀ k, k ≤ calls.length → ∀ c, c < d.max_nchannels →
        (run_monitor_requests w d (calls.take k)).input_monitor_requests c < 2 ^ w - 1) →
      (run_monitor_requests w d calls).max_nchannels = d.max_nchannels ∧
        mask_inv (run_monitor_requests w d calls) := by
    intro calls
    induction calls with
    | nil => intro d _ hinv _; exact ⟨rfl, hinv⟩
    | cons call rest ih =>
      intro d hM hinv hmax
      obtain ⟨chn, yn⟩ := call
      have h0 := hmax 0 (Nat.zero_le _) chn
      simp only [List.take_zero, run_monitor_requests] at h0
      have hstep := request_mask_inv w d chn yn hw hM hinv h0
      have hMstep := request_max_nchannels w d chn yn
      have := ih (alsa_driver_request_monitor_input w d chn yn).1 (by omega) hstep (by
        intro k hk c hc
        have := hmax (k + 1) (by simpa using hk) c (by rw [← hMstep]; exact hc)
        simpa [run_monitor_requests] using this)
      simp only [run_monitor_requests]
      exact ⟨by rw [this.1, hMstep], this.2⟩
  have := key calls d hM hinv hmax
  intro c hc
  exact this.2 c (by rw [this.1]; exact hc)

/-- Instance of C1: four channels, the calls on(0), on(2), off(0), channel 2. -/
theorem monitor_mask_invariant_witness :
    (32 ≤ 32 ∧ ({ driver_calloc with max_nchannels := 4 } : alsa_driver_t).max_nchannels ≤ 31) ∧
    ((run_monitor_requests 32 { driver_calloc with max_nchannels := 4 }
        [(0, true), (2, true), (0, false)]).input_monitor_mask.testBit 2 = true ↔
      0 < (run_monitor_requests 32 { driver_calloc with max_nchannels := 4 }
        [(0, true), (2, true), (0, false)]).input_monitor_requests 2) :=
  ⟨⟨by decide, by decide⟩,
   monitor_mask_invariant 32 { driver_calloc with max_nchannels := 4 }
     [(0, true), (2, true), (0, false)] (by decide) (by decide) rfl (fun _ => rfl) (by decide)
     2 (by decide)⟩

/-- C2. Monitor request lifecycle: for a channel `c < max_nchannels` (at most 31 channels) whose
request count is 0 and whose mask bit is clear, the calls on, on, off, off give the request
counts 1, 2, 1, 0 and mask bit `c` set, set, set, clear; the counts of all other channels and
all other mask bits are unchanged after each call; for `c = 3` and initial mask 0 the masks are
8, 8, 8, 0. -/
theorem monitor_request_lifecycle (w : Nat) (d : alsa_driver_t) (c : Nat)
    (hw : 32 ≤ w) (hM : d.max_nchannels ≤ 31) (hc : c < d.max_nchannels)
    (hlt : d.input_monitor_mask < 2 ^ w)
    (h0 : d.input_monitor_requests c = 0) (hbit : d.input_monitor_mask.testBit c = false) :
    let d1 := (alsa_driver_request_monitor_input w d c true).1
    let d2 := (alsa_driver_request_monitor_input w d1 c true).1
    let d3 := (alsa_driver_request_monitor_input w d2 c false).1
    let d4 := (alsa_driver_request_monitor_input w d3 c false).1
    (d1.input_monitor_requests c = 1 ∧ d2.input_monitor_requests c = 2 ∧
      d3.input_monitor_requests c = 1 ∧ d4.input_monitor_requests c = 0) ∧
    (d1.input_monitor_mask.testBit c = true ∧ d2.input_monitor_mask.testBit c = true ∧
      d3.input_monitor_mask.testBit c = true ∧ d4.input_monitor_mask.testBit c = false) ∧
    (∀ c', c' ≠ c →
      d1.input_monitor_requests c' = d.input_monitor_requests c' ∧
      d2.input_monitor_requests c' = d.input_monitor_requests c' ∧
      d3.input_monitor_requests c' = d.input_monitor_requests c' ∧
      d4.input_monitor_requests c' = d.input_monitor_requests c') ∧
    (∀ i, i ≠ c →
      d1.input_monitor_mask.testBit i = d.input_monitor_mask.testBit i ∧
      d2.input_monitor_mask.testBit i = d.input_monitor_mask.testBit i ∧
      d3.input_monitor_mask.testBit i = d.input_monitor_mask.testBit i ∧
      d4.input_monitor_mask.testBit i = d.input_monitor_mask.testBit i) ∧
    (c = 3 → d.input_monitor_mask = 0 →
      d1.input_monitor_mask = 8 ∧ d2.input_monitor_mask = 8 ∧
      d3.input_monitor_mask = 8 ∧ d4.input_monitor_mask = 0) := by
  have hc31 : c < 31 := by omega
  have hb := chn_bit_eq w c hw hc31
  have hbc := chn_bit_compl_eq w c hw hc31
  have h2w : (2 : Nat) < 2 ^ w :=
    lt_of_lt_of_le (by norm_num) (Nat.pow_le_pow_right (by norm_num) hw)
  have hwrap1 : ulong_wrap w (0 + 1) = 1 := by
    unfold ulong_wrap; exact Nat.mod_eq_of_lt (by omega)
  have hwrap2 : ulong_wrap w (1 + 1) = 2 := by
    unfold ulong_wrap; exact Nat.mod_eq_of_lt (by omega)
  have hm0 : d.input_monitor_mask &&& chn_bit w c = 0 := by
    rw [hb]; exact (and_two_pow_eq_zero_iff _ _).mpr hbit
  have e1 := request_on_first w d c hc (by rw [h0]; exact hwrap1) hm0
  intro d1
  have hd1 : d1 = { d with input_monitor_requests := Function.update d.input_monitor_requests c 1,
                           input_monitor_mask := d.input_monitor_mask ||| 2 ^ c } := by
    show (alsa_driver_request_monitor_input w d c true).1 = _
    rw [e1, hb]
  have h1req : d1.input_monitor_requests c = 1 := by rw [hd1]; simp
  have h1M : c < d1.max_nchannels := by rw [hd1]; exact hc
  have e2 := request_on_more w d1 c h1M (by rw [h1req, hwrap2]; decide)
  intro d2
  have hd2 : d2 = { d1 with input_monitor_requests :=
                      Function.update d1.input_monitor_requests c 2 } := by
    show (alsa_driver_request_monitor_input w d1 c true).1 = _
    rw [e2, h1req, hwrap2]
  have h2req : d2.input_monitor_requests c = 2 := by rw [hd2]; simp
  have h2M : c < d2.max_nchannels := by rw [hd2]; exact h1M
  have e3 := request_off_more w d2 c h2M (by rw [h2req])
  intro d3
  have hd3 : d3 = { d2 with input_monitor_requests :=
                      Function.update d2.input_monitor_requests c 1 } := by
    show (alsa_driver_request_monitor_input w d2 c false).1 = _
    rw [e3, h2req]
  have h3req : d3.input_monitor_requests c = 1 := by rw [hd3]; simp
  have h3M : c < d3.max_nchannels := by rw [hd3]; exact h2M
  have h3mask : d3.input_monitor_mask = d.input_monitor_mask ||| 2 ^ c := by
    rw [hd3, hd2, hd1]
  have hm3 : d3.input_monitor_mask &&& chn_bit w c ≠ 0 := by
    rw [hb, h3mask]
    intro h
    have := (and_two_pow_eq_zero_iff _ _).mp h
    simp [testBit_or_two_pow] at this
  have e4 := request_off_last w d3 c h3M h3req hm3
  intro d4
  have h4req : d4.input_monitor_requests = Function.update d3.input_monitor_requests c 0 := by
    show (alsa_driver_request_monitor_input w d3 c false).1.input_monitor_requests = _
    rw [e4]
  have h4mask : d4.input_monitor_mask =
      (d.input_monitor_mask ||| 2 ^ c) &&& (2 ^ w - (2 ^ c + 1)) := by
    show (alsa_driver_request_monitor_input w d3 c false).1.input_monitor_mask = _
    rw [e4]; simp only [h3mask, hbc]
  have h1mask : d1.input_monitor_mask = d.input_monitor_mask ||| 2 ^ c := by rw [hd1]
  have h2mask : d2.input_monitor_mask = d.input_monitor_mask ||| 2 ^ c := by rw [hd2, hd1]
  have hcw : c < w := by omega
  refine ⟨⟨h1req, h2req, h3req, by rw [h4req]; simp⟩, ⟨?_, ?_, ?_, ?_⟩, ?_, ?_, ?_⟩
  · rw [h1mask, testBit_or_two_pow]; simp
  · rw [h2mask, testBit_or_two_pow]; simp
  · rw [h3mask, testBit_or_two_pow]; simp
  · rw [h4mask, testBit_and_compl_two_pow w _ c c hcw hcw]; simp
  · intro c' hc'
    refine ⟨?_, ?_, ?_, ?_⟩
    · rw [hd1]; simp [Function.update_noteq hc']
    · rw [hd2, hd1]; simp [Function.update_noteq hc']
    · rw [hd3, hd2, hd1]; simp [Function.update_noteq hc']
    · rw [h4req, hd3, hd2, hd1]; simp [Function.update_noteq hc']
  · intro i hi
    have hne : ¬ c = i := fun h => hi h.symm
    refine ⟨?_, ?_, ?_, ?_⟩
    · rw [h1mask, testBit_or_two_pow]; simp [hne]
    · rw [h2mask, testBit_or_two_pow]; simp [hne]
    · rw [h3mask, testBit_or_two_pow]; simp [hne]
    · rw [h4mask]
      by_cases hiw : i < w
      · rw [testBit_and_compl_two_pow w _ c i hcw hiw, testBit_or_two_pow]; simp [hne]
      · have hz : d.input_monitor_mask.testBit i = false :=
          Nat.testBit_lt_two_pow
            (lt_of_lt_of_le hlt (Nat.pow_le_pow_right (by norm_num) (by omega)))
        rw [Nat.testBit_and, testBit_or_two_pow, hz]; simp [hne]
  · intro h3 hz
    subst h3
    refine ⟨by rw [h1mask, hz]; rfl, by rw [h2mask, hz]; rfl, by rw [h3mask, hz]; rfl, ?_⟩
    rw [h4mask, hz]
    apply Nat.eq_of_testBit_eq
    intro i
    by_cases hiw : i < w
    · rw [testBit_and_compl_two_pow w _ 3 i hcw hiw, testBit_or_two_pow]
      by_cases h : 3 = i <;> simp [h]
    · rw [Nat.testBit_and, testBit_or_two_pow]
      have : ¬ 3 = i := by omega
      simp [this]

/-- Instance of C2: four channels, channel 3, initial mask 0; the mask after the four calls is 0. -/
theorem monitor_request_lifecycle_witness :
    (32 ≤ 32 ∧ ({ driver_calloc with max_nchannels := 4 } : alsa_driver_t).max_nchannels ≤ 31) ∧
    (alsa_driver_request_monitor_input 32
      (alsa_driver_request_monitor_input 32
        (alsa_driver_request_monitor_input 32
          (alsa_driver_request_monitor_input 32 { driver_calloc with max_nchannels := 4 }
            3 true).1 3 true).1 3 false).1 3 false).1.input_monitor_mask = 0 :=
  ⟨⟨by decide, by decide⟩,
   ((monitor_request_lifecycle 32 { driver_calloc with max_nchannels := 4 } 3
      (by decide) (by decide) (by decide) (by decide) rfl (by decide)).2.2.2.2 rfl rfl).2.2.2⟩

/-- C3. A request for a channel index `chn >= max_nchannels` is a silent no-op, for either value
of the flag: the driver (and so `input_monitor_requests`, `input_monitor_mask` and
`silence_pending`) is returned unchanged and no notification is emitted. -/
theorem request_monitor_out_of_range_noop (w : Nat) (d : alsa_driver_t) (chn : Nat) (yn : Bool)
    (h : d.max_nchannels ≤ chn) :
    (alsa_driver_request_monitor_input w d chn yn).1 = d ∧
    (alsa_driver_request_monitor_input w d chn yn).1.input_monitor_requests =
      d.input_monitor_requests ∧
    (alsa_driver_request_monitor_input w d chn yn).1.input_monitor_mask = d.input_monitor_mask ∧
    (alsa_driver_request_monitor_input w d chn yn).1.silence_pending = d.silence_pending ∧
    (alsa_driver_request_monitor_input w d chn yn).2 = [] := by
  rw [request_out_of_range w d chn yn h]
  exact ⟨rfl, rfl, rfl, rfl, rfl⟩

/-- Instance of C3: four channels, a request for channel 7 sends no notification. -/
theorem request_monitor_out_of_range_noop_witness :
    ({ driver_calloc with max_nchannels := 4 } : alsa_driver_t).max_nchannels ≤ 7 ∧
    (alsa_driver_request_monitor_input 32 { driver_calloc with max_nchannels := 4 } 7 true).2
      = [] :=
  ⟨by decide,
   (request_monitor_out_of_range_noop 32 { driver_calloc with max_nchannels := 4 } 7 true
      (by decide)).2.2.2.2⟩

/-! ## The cycle -/

theorem wait_from_poll_retry (w : Nat) (d : alsa_driver_t) (m : Mem) (env : WaitEnv)
    (hgdb : env.under_gdb = true) (k : Nat) (rest : List PollReply) :
    wait_from_poll w d m env (List.replicate k (PollReply.failed EINTR) ++ rest) =
      match wait_from_poll w d m env rest with
      | none => none
      | some r => some ⟨r.outcome, r.driver, r.mem, List.replicate k Event.poll ++ r.events⟩ := by
  induction k with
  | zero =>
    cases h : wait_from_poll w d m env rest <;> simp [h]
  | succ k ih =>
    rw [List.replicate_succ, List.cons_append, wait_from_poll]
    simp only [if_true, hgdb]
    rw [ih]
    cases h : wait_from_poll w d m env rest <;> simp [h, List.replicate_succ]

/-- C9. Result of `alsa_driver_wait` for the poll outcomes.  After `k` interrupted polls that
were retried (`k = 0` unless the debugger flag is on): a poll interrupted with the debugger flag
off makes the call return 1; a poll failing with another error, or returning with `POLLERR`
among the events, makes it return -1; a poll returning with no events makes it return 0.  In all
four cases the only events are the polls: `engine->process`, `snd_pcm_mmap_begin` and
`snd_pcm_mmap_commit` are not called, and the driver and memory are untouched. -/
theorem wait_poll_outcomes (w : Nat) (d : alsa_driver_t) (m : Mem) (env : WaitEnv)
    (k : Nat) (rest : List PollReply) (hk : k = 0 ∨ env.under_gdb = true) :
    (env.under_gdb = false →
      env.polls = PollReply.failed EINTR :: rest →
      alsa_driver_wait w d m env = some ⟨Outcome.returned 1, d, m, [Event.poll]⟩) ∧
    (∀ errno, errno ≠ EINTR →
      env.polls = List.replicate k (PollReply.failed EINTR) ++ PollReply.failed errno :: rest →
      alsa_driver_wait w d m env =
        some ⟨Outcome.returned (-1), d, m, List.replicate (k + 1) Event.poll⟩) ∧
    (∀ revents, revents &&& POLLERR ≠ 0 →
      env.polls = List.replicate k (PollReply.failed EINTR) ++ PollReply.returned revents :: rest →
      alsa_driver_wait w d m env =
        some ⟨Outcome.returned (-1), d, m, List.replicate (k + 1) Event.poll⟩) ∧
    (env.polls = List.replicate k (PollReply.failed EINTR) ++ PollReply.returned 0 :: rest →
      alsa_driver_wait w d m env =
          some ⟨Outcome.returned 0, d, m, List.replicate (k + 1) Event.poll⟩ ∧
        count_process (List.replicate (k + 1) Event.poll) = 0 ∧
        count_mmap Stream.capture (List.replicate (k + 1) Event.poll) = 0 ∧
        count_mmap Stream.playback (List.replicate (k + 1) Event.poll) = 0) := by
  have hpre : ∀ tail : List PollReply,
      wait_from_poll w d m env (List.replicate k (PollReply.failed EINTR) ++ tail) =
        match wait_from_poll w d m env tail with
        | none => none
        | some r =>
          some ⟨r.outcome, r.driver, r.mem, List.replicate k Event.poll ++ r.events⟩ := by
    intro tail
    rcases hk with hk | hk
    · subst hk
      cases h : wait_from_poll w d m env tail <;> simp [h]
    · exact wait_from_poll_retry w d m env hk k tail
  have hrep : List.replicate k Event.poll ++ [Event.poll] = List.replicate (k + 1) Event.poll := by
    rw [List.replicate_succ']
  refine ⟨?_, ?_, ?_, ?_⟩
  · intro hgdb hp
    unfold alsa_driver_wait
    rw [hp, wait_from_poll]
    simp [hgdb]
  · intro errno hne hp
    unfold alsa_driver_wait
    rw [hp, hpre, wait_from_poll]
    simp [hne, hrep]
  · intro revents hre hp
    unfold alsa_driver_wait
    rw [hp, hpre, wait_from_poll]
    simp [hre, hrep]
  · intro hp
    refine ⟨?_, ?_, ?_, ?_⟩
    · unfold alsa_driver_wait
      rw [hp, hpre, wait_from_poll]
      simp [POLLERR, hrep]
    · simp [count_process, List.filter_replicate]
    · simp [count_mmap, List.filter_replicate]
    · simp [count_mmap, List.filter_replicate]

/-- Instances of C9: an interrupted poll, a poll failing with `EBADF` (9), a poll reporting `POLLERR` (8), a poll reporting no events. -/
theorem wait_poll_outcomes_witness :
    wait_summary (alsa_driver_wait 32 stereo_driver (fun _ => 0)
        { quiet_env with polls := [PollReply.failed EINTR] }) =
      some (Outcome.returned 1, 0, 0, 0) ∧
    wait_summary (alsa_driver_wait 32 stereo_driver (fun _ => 0)
        { quiet_env with polls := [PollReply.failed 9] }) =
      some (Outcome.returned (-1), 0, 0, 0) ∧
    wait_summary (alsa_driver_wait 32 stereo_driver (fun _ => 0)
        { quiet_env with polls := [PollReply.returned 8] }) =
      some (Outcome.returned (-1), 0, 0, 0) ∧
    wait_summary (alsa_driver_wait 32 stereo_driver (fun _ => 0)
        { quiet_env with polls := [PollReply.returned 0] }) =
      some (Outcome.returned 0, 0, 0, 0) := by
  refine ⟨?_, ?_, ?_, ?_⟩
  · rw [(wait_poll_outcomes 32 stereo_driver (fun _ => 0)
      { quiet_env with polls := [PollReply.failed EINTR] } 0 [] (Or.inl rfl)).1 rfl rfl]
    rfl
  · rw [(wait_poll_outcomes 32 stereo_driver (fun _ => 0)
      { quiet_env with polls := [PollReply.failed 9] } 0 [] (Or.inl rfl)).2.1 9 (by decide) rfl]
    rfl
  · rw [(wait_poll_outcomes 32 stereo_driver (fun _ => 0)
      { quiet_env with polls := [PollReply.returned 8] } 0 [] (Or.inl rfl)).2.2.1 8 (by decide)
        rfl]
    rfl
  · rw [((wait_poll_outcomes 32 stereo_driver (fun _ => 0)
      { quiet_env with polls := [PollReply.returned 0] } 0 [] (Or.inl rfl)).2.2.2 rfl).1]
    rfl

/-- C8 (the code at the failing input). With no xrun and `avail = -77`, `alsa_driver_wait` enters
the processing loop: it calls `engine->process` twice, makes three mmap calls on either stream
(begin, commit, begin) and returns -1 when the engine fails in the second pass. -/
theorem wait_negative_avail_enters_loop :
    wait_summary (alsa_driver_wait 32 stereo_driver (fun _ => 0) negative_avail_env) =
      some (Outcome.returned (-1), 2, 3, 3) := by
  decide

/-! ## Stream configuration -/

theorem set_parameters_tail_success (w : Nat) (ops : memops_t) (d : alsa_driver_t)
    (p_format : Int) (cenv penv : StreamEnv)
    (h : (set_parameters_tail w ops d p_format cenv penv).outcome = Outcome.returned 0) :
    (penv.get_access = SND_PCM_ACCESS_MMAP_NONINTERLEAVED ↔
      cenv.get_access = SND_PCM_ACCESS_MMAP_NONINTERLEAVED) := by
  unfold set_parameters_tail at h
  by_cases h32 : p_format = SND_PCM_FORMAT_S32_LE
  · simp only [h32, if_true] at h
    by_cases hacc : decide (cenv.get_access = SND_PCM_ACCESS_MMAP_NONINTERLEAVED) ≠
        decide (penv.get_access = SND_PCM_ACCESS_MMAP_NONINTERLEAVED)
    · rw [if_pos hacc] at h; simp at h
    · simp at hacc; exact hacc.symm
  · by_cases h16 : p_format = SND_PCM_FORMAT_S16_LE
    · simp only [h16, if_true] at h
      have hne : ¬ SND_PCM_FORMAT_S16_LE = SND_PCM_FORMAT_S32_LE := by decide
      simp only [hne, if_false] at h
      by_cases hacc : decide (cenv.get_access = SND_PCM_ACCESS_MMAP_NONINTERLEAVED) ≠
          decide (penv.get_access = SND_PCM_ACCESS_MMAP_NONINTERLEAVED)
      · rw [if_pos hacc] at h; simp at h
      · simp at hacc; exact hacc.symm
    · simp [h32, h16] at h

/-- C10. Cross-stream equality: `alsa_driver_set_parameters` returns 0 only if the negotiated
capture and playback period sizes both equal `frames_per_cycle`, the period counts are equal,
the sample formats are equal and both streams are, or both are not, non-interleaved; and
whenever the negotiated playback and capture formats differ it returns -1. -/
theorem set_parameters_cross_stream (w : Nat) (ops : memops_t) (d : alsa_driver_t)
    (frames_per_cycle rate : Nat) (cenv penv : StreamEnv) :
    ((alsa_driver_set_parameters w ops d frames_per_cycle rate cenv penv).outcome =
        Outcome.returned 0 →
      uint_of_int cenv.get_period_size = frames_per_cycle ∧
      uint_of_int penv.get_period_size = frames_per_cycle ∧
      uint_of_int penv.get_periods = uint_of_int cenv.get_periods ∧
      penv.get_format = cenv.get_format ∧
      (penv.get_access = SND_PCM_ACCESS_MMAP_NONINTERLEAVED ↔
        cenv.get_access = SND_PCM_ACCESS_MMAP_NONINTERLEAVED)) ∧
    (penv.get_format ≠ cenv.get_format →
      (alsa_driver_set_parameters w ops d frames_per_cycle rate cenv penv).outcome =
        Outcome.returned (-1)) := by
  have hneg : Outcome.returned (-1) ≠ Outcome.returned 0 := by decide
  unfold alsa_driver_set_parameters
  by_cases hc : (alsa_driver_configure_stream cenv d.capture_nchannels).ret ≠ 0
  · rw [if_pos hc]
    exact ⟨fun h => absurd h hneg, fun _ => rfl⟩
  rw [if_neg hc]
  by_cases hp : (alsa_driver_configure_stream penv d.playback_nchannels).ret ≠ 0
  · rw [if_pos hp]
    exact ⟨fun h => absurd h hneg, fun _ => rfl⟩
  rw [if_neg hp]
  by_cases hsz : uint_of_int cenv.get_period_size ≠ frames_per_cycle ∨
      uint_of_int penv.get_period_size ≠ frames_per_cycle
  · rw [if_pos hsz]
    exact ⟨fun h => absurd h hneg, fun _ => rfl⟩
  rw [if_neg hsz]
  by_cases hn : uint_of_int penv.get_periods ≠ uint_of_int cenv.get_periods
  · rw [if_pos hn]
    exact ⟨fun h => absurd h hneg, fun _ => rfl⟩
  rw [if_neg hn]
  by_cases hf : penv.get_format ≠ cenv.get_format
  · rw [if_pos hf]
    exact ⟨fun h => absurd h hneg, fun _ => rfl⟩
  rw [if_neg hf]
  push_neg at hsz hn hf
  refine ⟨fun h => ⟨hsz.1, hsz.2, hn, hf, ?_⟩, fun h => absurd hf h⟩
  exact set_parameters_tail_success w ops _ _ cenv penv h

/-- Instances of C10: playback S32_LE against capture S16_LE returns -1; S16_LE on both streams succeeds with 64 frames per period. -/
theorem set_parameters_cross_stream_witness :
    SND_PCM_FORMAT_S32_LE ≠ SND_PCM_FORMAT_S16_LE ∧
    (alsa_driver_set_parameters 32 idle_memops driver_calloc 64 48000
      (willing_stream SND_PCM_FORMAT_S16_LE) (willing_stream SND_PCM_FORMAT_S32_LE)).outcome =
        Outcome.returned (-1) ∧
    uint_of_int (willing_stream SND_PCM_FORMAT_S16_LE).get_period_size = 64 :=
  ⟨by decide,
   (set_parameters_cross_stream 32 idle_memops driver_calloc 64 48000
      (willing_stream SND_PCM_FORMAT_S16_LE) (willing_stream SND_PCM_FORMAT_S32_LE)).2
      (by decide),
   ((set_parameters_cross_stream 32 idle_memops driver_calloc 64 48000
      (willing_stream SND_PCM_FORMAT_S16_LE) (willing_stream SND_PCM_FORMAT_S16_LE)).1
      (by decide)).1⟩

/-! ## Xrun recovery -/

theorem count_process_append (a b : List Event) :
    count_process (a ++ b) = count_process a + count_process b := by
  simp [count_process]

theorem count_mmap_append (s : Stream) (a b : List Event) :
    count_mmap s (a ++ b) = count_mmap s a + count_mmap s b := by
  simp [count_mmap]

theorem count_process_replicate_poll (k : Nat) :
    count_process (List.replicate k Event.poll) = 0 := by
  simp [count_process, List.filter_replicate]

theorem count_mmap_replicate_poll (s : Stream) (k : Nat) :
    count_mmap s (List.replicate k Event.poll) = 0 := by
  simp [count_mmap, List.filter_replicate]

theorem audio_stop_events (d : alsa_driver_t) (m : Mem) (e : StopEnv) (s : Stream) :
    count_process (alsa_driver_audio_stop d m e).events = 0 ∧
    count_mmap s (alsa_driver_audio_stop d m e).events = 0 := by
  unfold alsa_driver_audio_stop hw_set_mask
  split_ifs <;> simp [count_process, count_mmap]

theorem get_channel_addresses_playback_only (w : Nat) (d : alsa_driver_t) (avail offset : Nat)
    (crep prep : MmapReply) :
    (alsa_driver_get_channel_addresses w d none (some (avail, offset)) crep prep).ret = 0 ∧
    (alsa_driver_get_channel_addresses w d none (some (avail, offset)) crep prep).events =
      [Event.mmap_begin Stream.playback avail] := by
  unfold alsa_driver_get_channel_addresses
  cases prep <;> simp

theorem andThen_count_process (c : Call) (f : alsa_driver_t → Mem → Call)
    (hc : count_process c.events = 0) (hf : ∀ d m, count_process (f d m).events = 0) :
    count_process (c.andThen f).events = 0 := by
  unfold Call.andThen
  split_ifs
  · exact hc
  · simp only [count_process_append, hc, hf]

theorem andThen_count_mmap (s : Stream) (c : Call) (f : alsa_driver_t → Mem → Call) (a b : Nat)
    (hc : count_mmap s c.events ≤ a) (hf : ∀ d m, count_mmap s (f d m).events ≤ b) :
    count_mmap s (c.andThen f).events ≤ a + b := by
  unfold Call.andThen
  split_ifs
  · omega
  · have := hf c.driver c.mem
    simp only [count_mmap_append]
    omega

theorem start_prepare_events (d : alsa_driver_t) (m : Mem) (e : StartEnv) (s : Stream) :
    count_process (start_prepare d m e).events = 0 ∧
    count_mmap s (start_prepare d m e).events = 0 := by
  unfold start_prepare
  split_ifs <;> simp [count_process, count_mmap]

theorem start_trigger_events (d : alsa_driver_t) (m : Mem) (e : StartEnv) (s : Stream) :
    count_process (start_trigger d m e).events = 0 ∧
    count_mmap s (start_trigger d m e).events = 0 := by
  unfold start_trigger
  split_ifs <;> simp [count_process, count_mmap]

theorem start_finish_events (d : alsa_driver_t) (m : Mem) (s : Stream) :
    count_process (start_finish d m).events = 0 ∧
    count_mmap s (start_finish d m).events = 0 := by
  unfold start_finish hw_set_mask
  split_ifs <;> simp [count_process, count_mmap]

theorem start_fill_events (w : Nat) (d : alsa_driver_t) (m : Mem) (e : StartEnv) :
    count_process (start_fill w d m e).events = 0 ∧
    count_mmap Stream.capture (start_fill w d m e).events = 0 ∧
    count_mmap Stream.playback (start_fill w d m e).events ≤ 2 := by
  unfold start_fill
  simp only [(get_channel_addresses_playback_only w _ _ _ _ _).1,
    (get_channel_addresses_playback_only w _ _ _ _ _).2]
  unfold hw_set_mask
  split_ifs <;> simp [count_process, count_mmap]

theorem audio_start_events (w : Nat) (d : alsa_driver_t) (m : Mem) (e : StartEnv) :
    count_process (alsa_driver_audio_start w d m e).events = 0 ∧
    count_mmap Stream.capture (alsa_driver_audio_start w d m e).events = 0 ∧
    count_mmap Stream.playback (alsa_driver_audio_start w d m e).events ≤ 2 := by
  unfold alsa_driver_audio_start
  refine ⟨?_, ?_, ?_⟩
  · apply andThen_count_process
    · apply andThen_count_process
      · apply andThen_count_process
        · exact (start_prepare_events d m e Stream.capture).1
        · intro d1 m1; exact (start_fill_events w d1 m1 e).1
      · intro d2 m2; exact (start_trigger_events d2 m2 e Stream.capture).1
    · intro d3 m3; exact (start_finish_events d3 m3 Stream.capture).1
  · have h := andThen_count_mmap Stream.capture
      (((start_prepare d m e).andThen fun d1 m1 => start_fill w d1 m1 e).andThen
        fun d2 m2 => start_trigger d2 m2 e) (fun d3 m3 => start_finish d3 m3) 0 0
      (andThen_count_mmap Stream.capture
        ((start_prepare d m e).andThen fun d1 m1 => start_fill w d1 m1 e)
        (fun d2 m2 => start_trigger d2 m2 e) 0 0
        (andThen_count_mmap Stream.capture (start_prepare d m e)
          (fun d1 m1 => start_fill w d1 m1 e) 0 0
          (le_of_eq (start_prepare_events d m e Stream.capture).2)
          (fun d1 m1 => le_of_eq (start_fill_events w d1 m1 e).2.1))
        (fun d2 m2 => le_of_eq (start_trigger_events d2 m2 e Stream.capture).2))
      (fun d3 m3 => le_of_eq (start_finish_events d3 m3 Stream.capture).2)
    omega
  · have h := andThen_count_mmap Stream.playback
      (((start_prepare d m e).andThen fun d1 m1 => start_fill w d1 m1 e).andThen
        fun d2 m2 => start_trigger d2 m2 e) (fun d3 m3 => start_finish d3 m3) 2 0
      (andThen_count_mmap Stream.playback
        ((start_prepare d m e).andThen fun d1 m1 => start_fill w d1 m1 e)
        (fun d2 m2 => start_trigger d2 m2 e) 2 0
        (andThen_count_mmap Stream.playback (start_prepare d m e)
          (fun d1 m1 => start_fill w d1 m1 e) 0 2
          (le_of_eq (start_prepare_events d m e Stream.playback).2)
          (fun d1 m1 => (start_fill_events w d1 m1 e).2.2))
        (fun d2 m2 => le_of_eq (start_trigger_events d2 m2 e Stream.playback).2))
      (fun d3 m3 => le_of_eq (start_finish_events d3 m3 Stream.playback).2)
    omega

theorem wait_after_poll_xrun (w : Nat) (d : alsa_driver_t) (m : Mem) (env : WaitEnv)
    (hx : env.capture_avail = -EPIPE ∨ env.playback_avail = -EPIPE) (hdelay : env.delay = 0) :
    wait_after_poll w d m env =
      some ⟨(if (alsa_driver_audio_stop d m env.stop).ret ≠ 0 then Outcome.returned (-1)
             else if (alsa_driver_audio_start w (alsa_driver_audio_stop d m env.stop).driver
                       (alsa_driver_audio_stop d m env.stop).mem env.start).ret ≠ 0
                  then Outcome.returned (-1) else Outcome.returned 0),
            (if (alsa_driver_audio_stop d m env.stop).ret ≠ 0 then
               (alsa_driver_audio_stop d m env.stop).driver
             else (alsa_driver_audio_start w (alsa_driver_audio_stop d m env.stop).driver
                       (alsa_driver_audio_stop d m env.stop).mem env.start).driver),
            (if (alsa_driver_audio_stop d m env.stop).ret ≠ 0 then
               (alsa_driver_audio_stop d m env.stop).mem
             else (alsa_driver_audio_start w (alsa_driver_audio_stop d m env.stop).driver
                       (alsa_driver_audio_stop d m env.stop).mem env.start).mem),
            [Event.avail_update Stream.capture, Event.avail_update Stream.playback,
              Event.pcm_delay] ++
            (if (alsa_driver_audio_stop d m env.stop).ret ≠ 0 then
               (alsa_driver_audio_stop d m env.stop).events
             else (alsa_driver_audio_stop d m env.stop).events ++
               (alsa_driver_audio_start w (alsa_driver_audio_stop d m env.stop).driver
                       (alsa_driver_audio_stop d m env.stop).mem env.start).events)⟩ := by
  have hxr : ((decide (env.capture_avail < 0) && decide (env.capture_avail = -EPIPE)) ||
      (decide (env.playback_avail < 0) && decide (env.playback_avail = -EPIPE))) = true := by
    rcases hx with h | h <;> simp [h, EPIPE]
  unfold wait_after_poll
  simp only [hxr, if_true]
  unfold alsa_driver_xrun_recovery
  rw [if_neg (by simp [hdelay])]
  by_cases hs : (alsa_driver_audio_stop d m env.stop).ret ≠ 0
  · simp [hs]
  · by_cases ht : (alsa_driver_audio_start w (alsa_driver_audio_stop d m env.stop).driver
        (alsa_driver_audio_stop d m env.stop).mem env.start).ret ≠ 0
    · simp [hs, ht]
    · simp [hs, ht]

/-- C7 (as stated, refuted). Capture overrun with a recovery in which every call succeeds: the
cycle returns 0 and calls `engine->process` zero times, yet it makes two mmap calls on the
playback stream (the `snd_pcm_mmap_begin` and `snd_pcm_mmap_commit` of the start sequence), so
"no mmap begin/commit in that call" does not hold. -/
theorem xrun_recovery_commits_playback :
    wait_summary (alsa_driver_wait 32 stereo_driver (fun _ => 0) xrun_env) =
      some (Outcome.returned 0, 0, 0, 2) := by
  decide

/-! ## Bookkeeping frame -/

theorem bookkeeping_only_refl (d : alsa_driver_t) : bookkeeping_only d d := rfl

theorem bookkeeping_only_trans {d d' d'' : alsa_driver_t}
    (h1 : bookkeeping_only d d') (h2 : bookkeeping_only d' d'') : bookkeeping_only d d'' := by
  unfold bookkeeping_only at *
  rw [h2]
  rw [h1]

theorem bookkeeping_only_mark_done (w : Nat) (d : alsa_driver_t) (chn : Nat) :
    bookkeeping_only d (alsa_driver_mark_channel_done w d chn) := rfl

theorem bookkeeping_only_silence (w : Nat) (d : alsa_driver_t) (m : Mem) (chn n : Nat) :
    bookkeeping_only d (alsa_driver_silence_on_channel w d m chn n).1 := rfl

theorem bookkeeping_only_foldl {α : Type} (f : alsa_driver_t × Mem → α → alsa_driver_t × Mem)
    (hf : ∀ s a, bookkeeping_only s.1 (f s a).1) (l : List α) (s : alsa_driver_t × Mem) :
    bookkeeping_only s.1 (l.foldl f s).1 := by
  induction l generalizing s with
  | nil => exact bookkeeping_only_refl _
  | cons a l ih =>
    rw [List.foldl_cons]
    exact bookkeeping_only_trans (hf s a) (ih (f s a))

theorem bookkeeping_only_apply_silence_pending (w : Nat) (d : alsa_driver_t) (m : Mem) (n : Nat) :
    bookkeeping_only d (apply_silence_pending w d m n).1 := by
  unfold apply_silence_pending
  split_ifs
  · refine bookkeeping_only_trans (bookkeeping_only_foldl _ ?_ _ (d, m)) rfl
    intro s a
    split_ifs
    · exact bookkeeping_only_silence w s.1 s.2 a n
    · exact bookkeeping_only_refl _
  · exact bookkeeping_only_refl _

theorem get_channel_addresses_ok (w : Nat) (d : alsa_driver_t) (a1 o1 a2 o2 : Nat)
    (careas pareas : Nat → snd_pcm_channel_area_t) (co cf po pf : Nat) :
    alsa_driver_get_channel_addresses w d (some (a1, o1)) (some (a2, o2))
        (MmapReply.ok careas co cf) (MmapReply.ok pareas po pf) =
      ⟨0, { d with capture_areas := careas,
                   capture_addr := fun chn =>
                     if chn < d.capture_nchannels then area_addr w (careas chn) co
                     else d.capture_addr chn,
                   playback_areas := pareas,
                   playback_addr := fun chn =>
                     if chn < d.playback_nchannels then area_addr w (pareas chn) po
                     else d.playback_addr chn },
        some (cf, co), some (pf, po),
        [Event.mmap_begin Stream.capture a1, Event.mmap_begin Stream.playback a2]⟩ := by
  unfold alsa_driver_get_channel_addresses
  simp

theorem span_request_le (w : Nat) (d : alsa_driver_t) (avail : Int)
    (hfpc : d.frames_per_cycle < 2 ^ (w - 1)) :
    ulong_of_int w (span_request w d avail) ≤ d.frames_per_cycle := by
  unfold span_request
  split_ifs with h
  · unfold long_of_ulong
    rw [if_pos hfpc]
    have hlt : d.frames_per_cycle < 2 ^ w :=
      lt_of_lt_of_le hfpc (Nat.pow_le_pow_right (by norm_num) (Nat.sub_le _ _))
    rw [ulong_of_int_natCast w _ hlt]
  · omega

theorem long_of_ulong_small (w n : Nat) (h : n < 2 ^ (w - 1)) : long_of_ulong w n = (n : Int) := by
  unfold long_of_ulong
  rw [if_pos h]

theorem hw_push_events (d : alsa_driver_t) (c : Prop) [Decidable c] (ev : Event)
    (h : ev ∈ (if c then hw_set_mask d d.input_monitor_mask else (d, [])).2) :
    ev = Event.set_input_monitor_mask d.input_monitor_mask := by
  split_ifs at h
  · simpa [hw_set_mask] using h
  · simp at h

theorem hw_push_engine (d : alsa_driver_t) (c : Prop) [Decidable c] :
    (if c then hw_set_mask d d.input_monitor_mask else (d, [])).1.engine = d.engine := by
  split_ifs <;> rfl

/-- C6. One pass of the processing loop of `alsa_driver_wait`, with both `snd_pcm_mmap_begin`
calls succeeding and granting no more frames than requested (`cf` on capture, `pf` on
playback): the frame count `min cf pf` is at most `frames_per_cycle` and at most either
contiguous span; every `engine->process` call and every `snd_pcm_mmap_commit` of the pass
carries exactly that count; and when the engine is attached and `process` returns 0 the pass
does call `process` and commits that count on the capture and on the playback stream. -/
theorem span_frame_counts (w : Nat) (d : alsa_driver_t) (m : Mem) (avail : Int)
    (coff poff : Nat) (e : SpanEnv)
    (careas pareas : Nat → snd_pcm_channel_area_t) (co cf po pf : Nat)
    (hfpc : d.frames_per_cycle < 2 ^ (w - 1))
    (hc : e.capture_begin = MmapReply.ok careas co cf)
    (hp : e.playback_begin = MmapReply.ok pareas po pf)
    (hcf : cf ≤ ulong_of_int w (span_request w d avail))
    (hpf : pf ≤ ulong_of_int w (span_request w d avail)) :
    min cf pf ≤ d.frames_per_cycle ∧ min cf pf ≤ cf ∧ min cf pf ≤ pf ∧
    (∀ k, Event.process k ∈ (wait_iteration w d m avail coff poff e).events → k = min cf pf) ∧
    (∀ s off k, Event.mmap_commit s off k ∈ (wait_iteration w d m avail coff poff e).events →
      k = min cf pf) ∧
    (d.engine = true → e.process_ret = 0 →
      (wait_iteration w d m avail coff poff e).ret = none ∧
      Event.process (min cf pf) ∈ (wait_iteration w d m avail coff poff e).events ∧
      Event.mmap_commit Stream.capture co (min cf pf) ∈
        (wait_iteration w d m avail coff poff e).events ∧
      Event.mmap_commit Stream.playback po (min cf pf) ∈
        (wait_iteration w d m avail coff poff e).events) := by
  have hreq := span_request_le w d avail hfpc
  have hcs : cf < 2 ^ (w - 1) := by omega
  have hps : pf < 2 ^ (w - 1) := by omega
  have hn : ulong_of_int w (if long_of_ulong w cf < long_of_ulong w pf then long_of_ulong w cf
      else long_of_ulong w pf) = min cf pf := by
    rw [long_of_ulong_small w cf hcs, long_of_ulong_small w pf hps]
    have h2 : (2 : Nat) ^ (w - 1) ≤ 2 ^ w := Nat.pow_le_pow_right (by norm_num) (Nat.sub_le _ _)
    split_ifs with h
    · have : cf < pf := by exact_mod_cast h
      rw [ulong_of_int_natCast w cf (by omega)]; omega
    · have : ¬ cf < pf := by exact_mod_cast h
      rw [ulong_of_int_natCast w pf (by omega)]; omega
  refine ⟨by omega, Nat.min_le_left _ _, Nat.min_le_right _ _, ?_⟩
  unfold wait_iteration
  rw [hc, hp]
  simp only [get_channel_addresses_ok, Option.getD_some, hn, lt_self_iff_false, if_false]
  have hfr := bookkeeping_only_apply_silence_pending w
    { d with capture_areas := careas,
             capture_addr := fun chn =>
               if chn < d.capture_nchannels then area_addr w (careas chn) co
               else d.capture_addr chn,
             playback_areas := pareas,
             playback_addr := fun chn =>
               if chn < d.playback_nchannels then area_addr w (pareas chn) po
               else d.playback_addr chn } m (min cf pf)
  have he1 := congrArg alsa_driver_t.engine hfr
  simp only at he1
  generalize apply_silence_pending w _ m (min cf pf) = s1 at he1 ⊢
  clear hfr hn hc hp hcf hpf hreq hcs hps hfpc
  generalize finish_span w _ _ _ = fs
  generalize e.process_mem s1.2 = pm
  have hh := hw_push_engine { s1.1 with channels_not_done := s1.1.channel_done_bits }
    (s1.1.hw_input_monitor_mask ≠ s1.1.input_monitor_mask ∧ s1.1.hw_monitoring = true ∧
      (!s1.1.all_monitor_in) = true)
  have hev := hw_push_events { s1.1 with channels_not_done := s1.1.channel_done_bits }
    (s1.1.hw_input_monitor_mask ≠ s1.1.input_monitor_mask ∧ s1.1.hw_monitoring = true ∧
      (!s1.1.all_monitor_in) = true)
  simp only at hh hev
  generalize (if s1.1.hw_input_monitor_mask ≠ s1.1.input_monitor_mask ∧
      s1.1.hw_monitoring = true ∧ (!s1.1.all_monitor_in) = true
    then hw_set_mask { s1.1 with channels_not_done := s1.1.channel_done_bits }
      s1.1.input_monitor_mask
    else ({ s1.1 with channels_not_done := s1.1.channel_done_bits }, [])) = h at hh hev ⊢
  rw [he1] at hh
  have hnp : ∀ k, Event.process k ∉ h.2 := fun k hk => by have := hev _ hk; cases this
  have hnc : ∀ s off k, Event.mmap_commit s off k ∉ h.2 :=
    fun s off k hk => by have := hev _ hk; cases this
  clear hev he1
  cases hE : d.engine <;> rw [hE] at hh
  · simp only [hh, Bool.false_eq_true, false_and, if_false, List.mem_append, List.mem_cons,
      List.mem_singleton]
    simp [hnp, hnc]
    tauto
  · by_cases hP : e.process_ret = 0
    · simp [hh, hP, hnp, hnc]
      tauto
    · simp [hh, hP, hnp, hnc]

/-- Instance of C6: the stereo driver, 64 frames available, 64 frames granted on both streams. -/
theorem span_frame_counts_witness :
    (stereo_driver.frames_per_cycle < 2 ^ (32 - 1) ∧
      64 ≤ ulong_of_int 32 (span_request 32 stereo_driver 64) ∧
      stereo_driver.engine = true ∧ (plain_span 64 0).process_ret = 0) ∧
    Event.mmap_commit Stream.playback 0 (min 64 64) ∈
      (wait_iteration 32 stereo_driver (fun _ => 0) 64 0 0 (plain_span 64 0)).events :=
  ⟨⟨by decide, by decide, rfl, rfl⟩,
   ((span_frame_counts 32 stereo_driver (fun _ => 0) 64 0 0 (plain_span 64 0)
      (fun chn => ⟨4096 * chn, 0, 16⟩) (fun chn => ⟨65536 + 4096 * chn, 0, 16⟩) 0 64 0 64
      (by decide) rfl rfl (by decide) (by decide)).2.2.2.2.2 rfl rfl).2.2.2⟩

/-! ## Silencing -/

theorem testBit_and_chn_bit_compl (w m c i : Nat) (hw : 32 ≤ w) (hc : c < 31) :
    (m &&& chn_bit_compl w c).testBit i = (m.testBit i && (decide (i < w) && !decide (c = i))) := by
  rw [chn_bit_compl_eq w c hw hc]
  have hlt : 2 ^ c < 2 ^ w := Nat.pow_lt_pow_right (by norm_num) (by omega)
  rw [Nat.testBit_and, Nat.testBit_two_pow_sub_succ hlt, Nat.testBit_two_pow]

theorem and_chn_bit_ne_zero_iff (w m c : Nat) (hw : 32 ≤ w) (hc : c < 31) :
    m &&& chn_bit w c ≠ 0 ↔ m.testBit c = true := by
  rw [chn_bit_eq w c hw hc, Ne, and_two_pow_eq_zero_iff]
  simp

theorem silence_on_channel_zero_pres (w : Nat) (d : alsa_driver_t) (m : Mem) (chn n a : Nat)
    (h : m a = 0) : (alsa_driver_silence_on_channel w d m chn n).2 a = 0 := by
  unfold alsa_driver_silence_on_channel memset memset_interleave
  simp only
  split_ifs
  · show (if _ then 0 else m a) = 0
    split_ifs <;> first | rfl | exact h
  · show (if _ then 0 else m a) = 0
    split_ifs <;> first | rfl | exact h

theorem silence_on_channel_zero_fill (w : Nat) (d : alsa_driver_t) (m : Mem) (chn n : Nat)
    (hil : d.interleaved = true → d.interleave_unit = d.sample_bytes)
    (hnil : d.interleaved = false → d.playback_interleave_skip = d.sample_bytes)
    (hbytes : n * d.sample_bytes < 2 ^ w) :
    channel_zero_filled d (alsa_driver_silence_on_channel w d m chn n).2 chn n := by
  intro k hk j hj
  have hwrap : ulong_wrap w (n * d.sample_bytes) = n * d.sample_bytes := Nat.mod_eq_of_lt hbytes
  have hsb : 0 < d.sample_bytes := by omega
  unfold alsa_driver_silence_on_channel memset memset_interleave
  simp only [hwrap]
  cases hi : d.interleaved
  · simp only [Bool.false_eq_true, if_false]
    rw [hnil hi]
    rw [if_pos]
    refine ⟨by omega, ?_⟩
    have : k * d.sample_bytes + d.sample_bytes ≤ n * d.sample_bytes := by
      have := Nat.mul_le_mul_right d.sample_bytes (Nat.succ_le_of_lt hk)
      rw [Nat.succ_mul] at this
      exact this
    omega
  · simp only [if_true]
    rw [hil hi]
    rw [if_pos]
    refine ⟨k, ?_, by omega, by omega⟩
    rw [Nat.mul_div_cancel _ hsb]
    exact hk

theorem port_connected_cons_zero (port : jack_port_t) (rest : List jack_port_t) :
    port_connected (port :: rest) 0 = decide (port.connections ≠ 0) := by
  simp [port_connected]

theorem port_connected_cons_succ (port : jack_port_t) (rest : List jack_port_t) (k : Nat) :
    port_connected (port :: rest) (k + 1) = port_connected rest k := by
  simp [port_connected]

theorem mark_done_silent_zero (w : Nat) (d : alsa_driver_t) (chn : Nat)
    (h : ∀ q, d.silent q = 0) : ∀ q, (alsa_driver_mark_channel_done w d chn).silent q = 0 := by
  intro q
  unfold alsa_driver_mark_channel_done
  simp only [Function.update_apply]
  split_ifs
  · rfl
  · exact h q

theorem write_ports_spec (w n : Nat) (hw : 32 ≤ w) (ports : List jack_port_t) :
    ∀ (chn : Nat) (s : alsa_driver_t × Mem), chn + ports.length ≤ 31 →
      bookkeeping_only s.1 (write_ports w n ports chn s).1 ∧
      (∀ q, (write_ports w n ports chn s).1.channels_not_done.testBit q = true →
        s.1.channels_not_done.testBit q = true) ∧
      (∀ q, q < w → (write_ports w n ports chn s).1.channels_not_done.testBit q =
        (s.1.channels_not_done.testBit q &&
          !(decide (chn ≤ q) && port_connected ports (q - chn)))) ∧
      ((∀ q, s.1.silent q = 0) → ∀ q, (write_ports w n ports chn s).1.silent q = 0) := by
  induction ports with
  | nil =>
    intro chn s _
    refine ⟨bookkeeping_only_refl _, fun q h => h, ?_, fun h => h⟩
    intro q _
    simp [write_ports, port_connected]
  | cons port rest ih =>
    intro chn s hlen
    simp only [List.length_cons] at hlen
    by_cases hconn : port.connections = 0
    · have hstep : write_ports w n (port :: rest) chn s = write_ports w n rest (chn + 1) s := by
        rw [write_ports, if_pos hconn]
      rw [hstep]
      obtain ⟨h1, h2, h3, h4⟩ := ih (chn + 1) s (by omega)
      refine ⟨h1, h2, ?_, h4⟩
      intro q hq
      rw [h3 q hq]
      congr 2
      by_cases hle : chn + 1 ≤ q
      · obtain ⟨k, rfl⟩ : ∃ k, q = chn + 1 + k := ⟨q - (chn + 1), by omega⟩
        have e1 : chn + 1 + k - (chn + 1) = k := by omega
        have e2 : chn + 1 + k - chn = k + 1 := by omega
        have e4 : chn ≤ chn + 1 + k := by omega
        rw [e1, e2, port_connected_cons_succ]
        simp [e4]
      · by_cases heq : q = chn
        · subst heq
          simp [port_connected_cons_zero, hconn]
        · have : ¬ chn ≤ q := by omega
          simp [hle, this]
    · have hstep : write_ports w n (port :: rest) chn s =
          write_ports w n rest (chn + 1)
            (alsa_driver_write_to_channel w s.1 s.2 chn port.buffer n 0) := by
        rw [write_ports, if_neg hconn]
      rw [hstep]
      obtain ⟨h1, h2, h3, h4⟩ :=
        ih (chn + 1) (alsa_driver_write_to_channel w s.1 s.2 chn port.buffer n 0) (by omega)
      have hbit : ∀ q, (alsa_driver_write_to_channel w s.1 s.2 chn port.buffer n
          0).1.channels_not_done.testBit q =
          (s.1.channels_not_done.testBit q && (decide (q < w) && !decide (chn = q))) := by
        intro q
        exact testBit_and_chn_bit_compl w _ chn q hw (by omega)
      refine ⟨bookkeeping_only_trans (bookkeeping_only_mark_done w s.1 chn) h1, ?_, ?_, ?_⟩
      · intro q hq
        have := h2 q hq
        rw [hbit] at this
        simp only [Bool.and_eq_true] at this
        exact this.1
      · intro q hq
        rw [h3 q hq, hbit]
        by_cases hle : chn + 1 ≤ q
        · obtain ⟨k, rfl⟩ : ∃ k, q = chn + 1 + k := ⟨q - (chn + 1), by omega⟩
          have e1 : chn + 1 + k - (chn + 1) = k := by omega
          have e2 : chn + 1 + k - chn = k + 1 := by omega
          have e3 : ¬ chn = chn + 1 + k := by omega
          have e4 : chn ≤ chn + 1 + k := by omega
          rw [e1, e2, port_connected_cons_succ]
          simp [hq, e3, e4]
        · by_cases heq : q = chn
          · subst heq
            simp [port_connected_cons_zero, hconn]
          · have h5 : ¬ chn ≤ q := by omega
            have h6 : ¬ chn = q := fun h => heq h.symm
            simp [hle, h5, h6, hq]
      · intro hz
        exact h4 (mark_done_silent_zero w s.1 chn hz)

theorem bookkeeping_only_layout {d d' : alsa_driver_t} (h : bookkeeping_only d d') :
    d'.buffer_frames = d.buffer_frames ∧ d'.playback_nchannels = d.playback_nchannels ∧
    d'.sample_bytes = d.sample_bytes ∧ d'.interleaved = d.interleaved ∧
    d'.interleave_unit = d.interleave_unit ∧
    d'.playback_interleave_skip = d.playback_interleave_skip ∧
    d'.playback_addr = d.playback_addr := by
  unfold bookkeeping_only at h
  refine ⟨?_, ?_, ?_, ?_, ?_, ?_, ?_⟩ <;> rw [h]

theorem bookkeeping_only_modes {d d' : alsa_driver_t} (h : bookkeeping_only d d') :
    d'.hw_monitoring = d.hw_monitoring ∧ d'.all_monitor_in = d.all_monitor_in ∧
    d'.input_monitor_mask = d.input_monitor_mask ∧ d'.engine = d.engine ∧
    d'.playback_ports = d.playback_ports ∧ d'.channel_done_bits = d.channel_done_bits ∧
    d'.hw_input_monitor_mask = d.hw_input_monitor_mask := by
  unfold bookkeeping_only at h
  refine ⟨?_, ?_, ?_, ?_, ?_, ?_, ?_⟩ <;> rw [h]

theorem channel_zero_filled_congr {d d' : alsa_driver_t} (h : bookkeeping_only d d')
    (m : Mem) (p n : Nat) : channel_zero_filled d' m p n ↔ channel_zero_filled d m p n := by
  obtain ⟨_, _, h3, _, _, h6, h7⟩ := bookkeeping_only_layout h
  unfold channel_zero_filled
  rw [h3, h6, h7]

theorem silence_untouched_loop_inv (w n : Nat) (d : alsa_driver_t) (m : Mem) (conn : Nat → Bool)
    (hw : 32 ≤ w) (hP : d.playback_nchannels ≤ 31) (hbuf : 0 < d.buffer_frames)
    (hil : d.interleaved = true → d.interleave_unit = d.sample_bytes)
    (hnil : d.interleaved = false → d.playback_interleave_skip = d.sample_bytes)
    (hbytes : n * d.sample_bytes < 2 ^ w) (hn : n < 2 ^ w)
    (hsil : ∀ q, d.silent q = 0)
    (hbits : ∀ q, d.channels_not_done.testBit q =
      (decide (q < d.playback_nchannels) && !conn q)) :
    ∀ i, i ≤ d.playback_nchannels →
      bookkeeping_only d ((List.range i).foldl (silence_untouched_step w n) (d, m)).1 ∧
      (∀ q, ((List.range i).foldl (silence_untouched_step w n) (d, m)).1.channels_not_done.testBit
          q = (decide (i ≤ q) && (decide (q < d.playback_nchannels) && !conn q))) ∧
      (∀ q, ((List.range i).foldl (silence_untouched_step w n) (d, m)).1.silent q =
          if q < i ∧ conn q = false then n else 0) ∧
      (∀ q, q < i → conn q = false →
          channel_zero_filled d ((List.range i).foldl (silence_untouched_step w n) (d, m)).2
            q n) := by
  intro i
  induction i with
  | zero =>
    intro _
    refine ⟨bookkeeping_only_refl _, ?_, ?_, ?_⟩
    · intro q; simp [hbits]
    · intro q; simp [hsil]
    · intro q hq; omega
  | succ i ih =>
    intro hi
    obtain ⟨h1, h2, h3, h4⟩ := ih (by omega)
    rw [List.range_succ, List.foldl_append, List.foldl_cons, List.foldl_nil]
    generalize (List.range i).foldl (silence_untouched_step w n) (d, m) = s at h1 h2 h3 h4 ⊢
    obtain ⟨l1, l2, l3, l4, l5, l6, l7⟩ := bookkeeping_only_layout h1
    have hi31 : i < 31 := by omega
    have htest : (s.1.channels_not_done &&& chn_bit w i ≠ 0) ↔ conn i = false := by
      rw [and_chn_bit_ne_zero_iff w _ i hw hi31, h2 i]
      have : i < d.playback_nchannels := by omega
      simp [this]
    by_cases hc : conn i = false
    · have hs0 : s.1.silent i < s.1.buffer_frames := by
        rw [h3 i, l1]; simp [hbuf]
      have hstep : silence_untouched_step w n s i =
          ({ (alsa_driver_silence_on_channel w s.1 s.2 i n).1 with
              silent := Function.update (alsa_driver_silence_on_channel w s.1 s.2 i n).1.silent i
                (ulong_wrap w ((alsa_driver_silence_on_channel w s.1 s.2 i n).1.silent i + n)) },
           (alsa_driver_silence_on_channel w s.1 s.2 i n).2) := by
        unfold silence_untouched_step
        rw [if_pos (htest.mpr hc), if_pos hs0]
      rw [hstep]
      refine ⟨bookkeeping_only_trans h1 rfl, ?_, ?_, ?_⟩
      · intro q
        show (s.1.channels_not_done &&& chn_bit_compl w i).testBit q = _
        rw [testBit_and_chn_bit_compl w _ i q hw hi31, h2 q]
        by_cases hq : q < d.playback_nchannels
        · have hqw : q < w := by omega
          by_cases hqi : i = q
          · subst hqi; simp
          · by_cases hle : i ≤ q
            · have : i + 1 ≤ q := by omega
              simp [hq, hqw, hqi, hle, this]
            · have : ¬ i + 1 ≤ q := by omega
              simp [hle, this]
        · simp [hq]
      · intro q
        show Function.update (Function.update s.1.silent i 0) i
          (ulong_wrap w (Function.update s.1.silent i 0 i + n)) q = _
        by_cases hqi : q = i
        · subst hqi
          simp only [Function.update_same, Nat.zero_add]
          rw [if_pos ⟨by omega, hc⟩]
          exact Nat.mod_eq_of_lt hn
        · rw [Function.update_noteq hqi, Function.update_noteq hqi, h3 q]
          have : q < i + 1 ↔ q < i := by omega
          simp only [this]
      · intro q hq hcq
        show channel_zero_filled d (alsa_driver_silence_on_channel w s.1 s.2 i n).2 q n
        by_cases hqi : q = i
        · subst hqi
          rw [← channel_zero_filled_congr h1]
          apply silence_on_channel_zero_fill
          · rw [l4, l5, l3]; exact hil
          · rw [l4, l6, l3]; exact hnil
          · rw [l3]; exact hbytes
        · intro k hk j hj
          apply silence_on_channel_zero_pres
          exact h4 q (by omega) hcq k hk j hj
    · have hstep : silence_untouched_step w n s i = s := by
        unfold silence_untouched_step
        rw [if_neg (fun h => hc (htest.mp h))]
      rw [hstep]
      refine ⟨h1, ?_, ?_, ?_⟩
      · intro q
        rw [h2 q]
        by_cases hqi : q = i
        · subst hqi
          have : conn q = true := by simpa using hc
          simp [this]
        · have : i + 1 ≤ q ↔ i ≤ q := by omega
          simp only [this]
      · intro q
        rw [h3 q]
        by_cases hqi : q = i
        · subst hqi
          have : conn q = true := by simpa using hc
          simp [this]
        · have : q < i + 1 ↔ q < i := by omega
          simp only [this]
      · intro q hq hcq
        by_cases hqi : q = i
        · subst hqi; exact absurd hcq hc
        · exact h4 q (by omega) hcq

theorem foldl_preserves {α : Type} (P : alsa_driver_t × Mem → Prop)
    (f : alsa_driver_t × Mem → α → alsa_driver_t × Mem)
    (hf : ∀ s a, P s → P (f s a)) (l : List α) (s : alsa_driver_t × Mem) (hs : P s) :
    P (l.foldl f s) := by
  induction l generalizing s with
  | nil => exact hs
  | cons a l ih => exact ih (f s a) (hf s a hs)

theorem apply_silence_pending_silent_zero (w : Nat) (d : alsa_driver_t) (m : Mem) (n : Nat)
    (h : ∀ q, d.silent q = 0) : ∀ q, (apply_silence_pending w d m n).1.silent q = 0 := by
  unfold apply_silence_pending
  split_ifs
  · show ∀ q, (List.foldl _ (d, m) _).1.silent q = 0
    apply foldl_preserves (fun s => ∀ q, s.1.silent q = 0)
    · intro s a hs
      dsimp only
      split_ifs
      · exact mark_done_silent_zero w s.1 a hs
      · exact hs
    · exact h
  · exact h

theorem monitor_inputs_inactive (w : Nat) (d : alsa_driver_t) (m : Mem) (n : Nat)
    (hhw : d.hw_monitoring = false) (hall : d.all_monitor_in = false)
    (hmask : d.input_monitor_mask = 0) : monitor_inputs w d m n = (d, m) := by
  unfold monitor_inputs
  simp [hhw, hall, hmask]

theorem finish_span_spec (w n : Nat) (d : alsa_driver_t) (m : Mem)
    (hw : 32 ≤ w) (hP : d.playback_nchannels ≤ 31) (hbuf : 0 < d.buffer_frames)
    (hil : d.interleaved = true → d.interleave_unit = d.sample_bytes)
    (hnil : d.interleaved = false → d.playback_interleave_skip = d.sample_bytes)
    (hbytes : n * d.sample_bytes < 2 ^ w) (hn : n < 2 ^ w)
    (hsil : ∀ q, d.silent q = 0)
    (hcnd : d.channels_not_done = 2 ^ d.playback_nchannels - 1)
    (hports : d.playback_ports.length ≤ d.playback_nchannels)
    (hhw : d.hw_monitoring = false) (hall : d.all_monitor_in = false)
    (hmask : d.input_monitor_mask = 0) :
    bookkeeping_only d (finish_span w d m n).1 ∧
    (finish_span w d m n).1.channels_not_done = 0 ∧
    ∀ p, p < d.playback_nchannels →
      (port_connected d.playback_ports p = true → (finish_span w d m n).1.silent p = 0) ∧
      (port_connected d.playback_ports p = false →
        (finish_span w d m n).1.silent p = n ∧
        channel_zero_filled d (finish_span w d m n).2 p n) := by
  obtain ⟨f1, f2, f3, f4⟩ := write_ports_spec w n hw d.playback_ports 0 (d, m) (by omega)
  replace f1 : bookkeeping_only d (write_ports w n d.playback_ports 0 (d, m)).1 := f1
  replace f2 : ∀ q, (write_ports w n d.playback_ports 0 (d, m)).1.channels_not_done.testBit q =
      true → d.channels_not_done.testBit q = true := f2
  replace f3 : ∀ q, q < w →
      (write_ports w n d.playback_ports 0 (d, m)).1.channels_not_done.testBit q =
        (d.channels_not_done.testBit q &&
          !(decide (0 ≤ q) && port_connected d.playback_ports (q - 0))) := f3
  replace f4 : (∀ q, d.silent q = 0) →
      ∀ q, (write_ports w n d.playback_ports 0 (d, m)).1.silent q = 0 := f4
  have hbits : ∀ q, (write_ports w n d.playback_ports 0 (d, m)).1.channels_not_done.testBit q =
      (decide (q < d.playback_nchannels) && !port_connected d.playback_ports q) := by
    intro q
    by_cases hq : q < w
    · rw [f3 q hq]
      simp only [hcnd, Nat.testBit_two_pow_sub_one, Nat.zero_le, decide_True, Bool.true_and,
        Nat.sub_zero]
    · have hno : (write_ports w n d.playback_ports 0 (d, m)).1.channels_not_done.testBit q ≠
          true := by
        intro h
        have := f2 q h
        simp only [hcnd, Nat.testBit_two_pow_sub_one, decide_eq_true_eq] at this
        omega
      have : ¬ q < d.playback_nchannels := by omega
      simp only [this, decide_False, Bool.false_and]
      simpa using hno
  have hsil1 := f4 hsil
  obtain ⟨m1, m2, m3, _, m5, _, _⟩ := bookkeeping_only_modes f1
  obtain ⟨l1, l2, l3, l4, l5, l6, l7⟩ := bookkeeping_only_layout f1
  unfold finish_span
  simp only [monitor_inputs_inactive w _ _ n (m1.trans hhw) (m2.trans hall) (m3.trans hmask)]
  generalize write_ports w n d.playback_ports 0 (d, m) = s1 at f1 hbits hsil1 l1 l2 l3 l4 l5 l6 l7
  by_cases hz : s1.1.channels_not_done ≠ 0
  · rw [if_pos hz]
    unfold alsa_driver_silence_untouched_channels
    obtain ⟨i1, i2, i3, i4⟩ := silence_untouched_loop_inv w n s1.1 s1.2
      (port_connected d.playback_ports) hw (by omega) (by omega)
      (by rw [l4, l5, l3]; exact hil) (by rw [l4, l6, l3]; exact hnil)
      (by rw [l3]; exact hbytes) hn hsil1 (by rw [l2]; exact hbits)
      s1.1.playback_nchannels (le_refl _)
    refine ⟨bookkeeping_only_trans f1 i1, ?_, ?_⟩
    · apply Nat.eq_of_testBit_eq
      intro q
      rw [i2 q, Nat.zero_testBit]
      by_cases hq : q < s1.1.playback_nchannels
      · have : ¬ s1.1.playback_nchannels ≤ q := by omega
        simp [this]
      · simp [hq]
    · intro p hp
      rw [← l2] at hp
      refine ⟨?_, ?_⟩
      · intro hc
        rw [i3 p]; simp [hc]
      · intro hc
        refine ⟨by rw [i3 p]; simp [hc, hp], ?_⟩
        rw [← channel_zero_filled_congr f1]
        exact i4 p hp hc
  · rw [if_neg hz]
    have hz0 : s1.1.channels_not_done = 0 := by simpa using hz
    refine ⟨f1, hz0, ?_⟩
    intro p hp
    refine ⟨fun _ => hsil1 p, ?_⟩
    intro hc
    have := hbits p
    rw [hz0, Nat.zero_testBit] at this
    simp [hp, hc] at this

theorem contiguous_frames (w cf pf : Nat) (hcs : cf < 2 ^ (w - 1)) (hps : pf < 2 ^ (w - 1)) :
    ulong_of_int w (if long_of_ulong w cf < long_of_ulong w pf then long_of_ulong w cf
      else long_of_ulong w pf) = min cf pf := by
  rw [long_of_ulong_small w cf hcs, long_of_ulong_small w pf hps]
  have h2 : (2 : Nat) ^ (w - 1) ≤ 2 ^ w := Nat.pow_le_pow_right (by norm_num) (Nat.sub_le _ _)
  split_ifs with h
  · have : cf < pf := by exact_mod_cast h
    rw [ulong_of_int_natCast w cf (by omega)]; omega
  · have : ¬ cf < pf := by exact_mod_cast h
    rw [ulong_of_int_natCast w pf (by omega)]; omega

/-- Post-state of one processed span within the word (this supports C5): at most 31 playback
channels, the channels the mask word `channels_not_done` can track.  With hardware monitoring off,
`all_monitor_in` false, `input_monitor_mask` 0, all silence counters 0 beforehand, period count
2 and a pass of the loop that reaches the commits with `n = min cf pf` frames: `channels_not_done`
is 0 at commit; every channel `p < P` whose port is connected has `silent[p] = 0`; every channel
whose port is not connected (or that has no port) has `silent[p] = n` and its `n` frames zero in
memory. -/
theorem span_post_state (w : Nat) (d : alsa_driver_t) (m : Mem) (avail : Int)
    (coff poff : Nat) (e : SpanEnv)
    (careas pareas : Nat → snd_pcm_channel_area_t) (co cf po pf : Nat)
    (hw : 32 ≤ w) (hP : d.playback_nchannels ≤ 31)
    (hhw : d.hw_monitoring = false) (hall : d.all_monitor_in = false)
    (hmask : d.input_monitor_mask = 0)
    (hsil : ∀ p, d.silent p = 0)
    (hper : d.nfragments = 2) (hbuf : d.buffer_frames = d.frames_per_cycle * d.nfragments)
    (hfpos : 0 < d.frames_per_cycle)
    (hbits : d.channel_done_bits = 2 ^ d.playback_nchannels - 1)
    (hports : d.playback_ports.length ≤ d.playback_nchannels)
    (hil : d.interleaved = true → d.interleave_unit = d.sample_bytes)
    (hnil : d.interleaved = false → d.playback_interleave_skip = d.sample_bytes)
    (hfpc : d.frames_per_cycle < 2 ^ (w - 1))
    (hc : e.capture_begin = MmapReply.ok careas co cf)
    (hp : e.playback_begin = MmapReply.ok pareas po pf)
    (hcf : cf ≤ ulong_of_int w (span_request w d avail))
    (hpf : pf ≤ ulong_of_int w (span_request w d avail))
    (hbytes : min cf pf * d.sample_bytes < 2 ^ w)
    (hproc : d.engine = true → e.process_ret = 0) :
    (wait_iteration w d m avail coff poff e).ret = none ∧
    (wait_iteration w d m avail coff poff e).driver.channels_not_done = 0 ∧
    ∀ p, p < d.playback_nchannels →
      (port_connected d.playback_ports p = true →
        (wait_iteration w d m avail coff poff e).driver.silent p = 0) ∧
      (port_connected d.playback_ports p = false →
        (wait_iteration w d m avail coff poff e).driver.silent p = min cf pf ∧
        channel_zero_filled (wait_iteration w d m avail coff poff e).driver
          (wait_iteration w d m avail coff poff e).mem p (min cf pf)) := by
  have hreq := span_request_le w d avail hfpc
  have hcs : cf < 2 ^ (w - 1) := by omega
  have hps : pf < 2 ^ (w - 1) := by omega
  have hn := contiguous_frames w cf pf hcs hps
  have h2w : (2 : Nat) ^ (w - 1) ≤ 2 ^ w := Nat.pow_le_pow_right (by norm_num) (Nat.sub_le _ _)
  have hnlt : min cf pf < 2 ^ w := by omega
  unfold wait_iteration
  rw [hc, hp]
  simp only [get_channel_addresses_ok, Option.getD_some, hn, lt_self_iff_false, if_false]
  have hfr := bookkeeping_only_apply_silence_pending w
    { d with capture_areas := careas,
             capture_addr := fun chn =>
               if chn < d.capture_nchannels then area_addr w (careas chn) co
               else d.capture_addr chn,
             playback_areas := pareas,
             playback_addr := fun chn =>
               if chn < d.playback_nchannels then area_addr w (pareas chn) po
               else d.playback_addr chn } m (min cf pf)
  have hs0 := apply_silence_pending_silent_zero w
    { d with capture_areas := careas,
             capture_addr := fun chn =>
               if chn < d.capture_nchannels then area_addr w (careas chn) co
               else d.capture_addr chn,
             playback_areas := pareas,
             playback_addr := fun chn =>
               if chn < d.playback_nchannels then area_addr w (pareas chn) po
               else d.playback_addr chn } m (min cf pf) hsil
  obtain ⟨m1, m2, m3, m4, m5, m6, m7⟩ := bookkeeping_only_modes hfr
  obtain ⟨l1, l2, l3, l4, l5, l6, l7⟩ := bookkeeping_only_layout hfr
  simp only at m1 m2 m3 m4 m5 m6 m7 l1 l2 l3 l4 l5 l6
  clear hfr l7 hn hc hp hcf hpf hreq hcs hps
  generalize apply_silence_pending w _ m (min cf pf) = s1 at *
  have hnohw : ¬ (s1.1.hw_input_monitor_mask ≠ s1.1.input_monitor_mask ∧
      s1.1.hw_monitoring = true ∧ (!s1.1.all_monitor_in) = true) := by
    rw [m1, hhw]; simp
  simp only [if_neg hnohw]
  have hnoerr : ¬ (s1.1.engine = true ∧ e.process_ret ≠ 0) := by
    rw [m4]; intro h; exact h.2 (hproc h.1)
  simp only [if_neg hnoerr]
  generalize (if s1.1.engine = true then e.process_mem s1.2 else s1.2) = mp
  obtain ⟨g1, g2, g3⟩ := finish_span_spec w (min cf pf)
    { s1.1 with channels_not_done := s1.1.channel_done_bits } mp hw
    (by show s1.1.playback_nchannels ≤ 31; rw [l2]; exact hP)
    (by show 0 < s1.1.buffer_frames; rw [l1, hbuf, hper]; omega)
    (by show s1.1.interleaved = true → s1.1.interleave_unit = s1.1.sample_bytes
        rw [l4, l5, l3]; exact hil)
    (by show s1.1.interleaved = false → s1.1.playback_interleave_skip = s1.1.sample_bytes
        rw [l4, l6, l3]; exact hnil)
    (by show min cf pf * s1.1.sample_bytes < 2 ^ w; rw [l3]; exact hbytes)
    hnlt hs0
    (by show s1.1.channel_done_bits = 2 ^ s1.1.playback_nchannels - 1; rw [m6, l2]; exact hbits)
    (by show s1.1.playback_ports.length ≤ s1.1.playback_nchannels; rw [m5, l2]; exact hports)
    (by show s1.1.hw_monitoring = false; rw [m1]; exact hhw)
    (by show s1.1.all_monitor_in = false; rw [m2]; exact hall)
    (by show s1.1.input_monitor_mask = 0; rw [m3]; exact hmask)
  refine ⟨trivial, g2, ?_⟩
  intro p hp
  have g3p := g3 p (by show p < s1.1.playback_nchannels; rw [l2]; exact hp)
  have ht : ∀ b, port_connected d.playback_ports p = b →
      port_connected s1.1.playback_ports p = b := by
    intro b hb; rw [m5]; exact hb
  refine ⟨fun hcn => g3p.1 (ht _ hcn), fun hcn => ⟨(g3p.2 (ht _ hcn)).1, ?_⟩⟩
  rw [channel_zero_filled_congr g1]
  exact (g3p.2 (ht _ hcn)).2

/-- Instance of the post-state within the word: the stereo driver with only port 0 connected, a
span of 64 frames over memory filled with 255; channel 1 ends with `silent[1] = 64` and 64 zero
frames. -/
theorem span_post_state_witness :
    ((32 ≤ 32 ∧ ({ stereo_driver with playback_ports := [⟨1, 0⟩, ⟨0, 0⟩] }
        : alsa_driver_t).playback_nchannels ≤ 31) ∧
      port_connected [⟨1, 0⟩, ⟨0, 0⟩] 1 = false) ∧
    ((wait_iteration 32 { stereo_driver with playback_ports := [⟨1, 0⟩, ⟨0, 0⟩] }
        (fun _ => 255) 64 0 0 (plain_span 64 0)).driver.silent 1 = min 64 64 ∧
      channel_zero_filled
        (wait_iteration 32 { stereo_driver with playback_ports := [⟨1, 0⟩, ⟨0, 0⟩] }
          (fun _ => 255) 64 0 0 (plain_span 64 0)).driver
        (wait_iteration 32 { stereo_driver with playback_ports := [⟨1, 0⟩, ⟨0, 0⟩] }
          (fun _ => 255) 64 0 0 (plain_span 64 0)).mem 1 (min 64 64)) :=
  ⟨⟨⟨by decide, by decide⟩, by decide⟩,
   ((span_post_state 32 { stereo_driver with playback_ports := [⟨1, 0⟩, ⟨0, 0⟩] }
      (fun _ => 255) 64 0 0 (plain_span 64 0)
      (fun chn => ⟨4096 * chn, 0, 16⟩) (fun chn => ⟨65536 + 4096 * chn, 0, 16⟩) 0 64 0 64
      (by decide) (by decide) rfl rfl rfl (fun _ => rfl) rfl (by decide) (by decide) (by decide)
      (by decide) (by decide) (by decide) (by decide) rfl rfl (by decide) (by decide)
      (by decide) (fun _ => rfl)).2.2 1 (by decide)).2 (by decide)⟩

set_option maxRecDepth 100000 in
/-- C5 (the code at the failing input). A driver configured by `alsa_driver_set_parameters` for 33 channels
per stream (32 bit `unsigned long`), ports 0..31 connected, port 32 not connected, all silence
counters 0, software monitoring inactive, period count 2.  After a span of 64 frames
`channels_not_done` is 0, but the unconnected channel 32 has `silent[32] = 0`, not 64, and its
first byte is still 255: the 32 bit word has no bit left for channel 32, so the channel is never
silenced.  (The writes to channels 0..31 clear all 32 bits, whatever value `1<<32` takes.) -/
theorem span_post_state_wide_fails :
    wide_driver.playback_nchannels = 33 ∧
    port_connected wide_driver.playback_ports 32 = false ∧
    (wait_iteration 32 wide_driver (fun _ => 255) 64 0 0 (plain_span 64 0)).ret = none ∧
    (wait_iteration 32 wide_driver (fun _ => 255) 64 0 0
      (plain_span 64 0)).driver.channels_not_done = 0 ∧
    (wait_iteration 32 wide_driver (fun _ => 255) 64 0 0 (plain_span 64 0)).driver.silent 32
      = 0 ∧
    (wait_iteration 32 wide_driver (fun _ => 255) 64 0 0 (plain_span 64 0)).mem
      ((wait_iteration 32 wide_driver (fun _ => 255) 64 0 0
        (plain_span 64 0)).driver.playback_addr 32) = 255 := by
  decide

/-- C4 (the code at the failing input). Stereo driver, buffer of 128 frames, no port connected,
no monitoring: two consecutive spans of 64 frames leave `silent[1] = 64`, where the accumulated
silence is `min (64 + 64) 128 = 128`.  `alsa_driver_silence_on_channel` resets the counter
through `alsa_driver_mark_channel_done` just before `silent[chn] += nframes`. -/
theorem silent_counter_restarts_each_span :
    silent_after (alsa_driver_wait 32 stereo_driver (fun _ => 255) one_span_env) 1 = some 64 ∧
    silent_after (alsa_driver_wait 32 stereo_driver (fun _ => 255) two_span_env) 1 = some 64 := by
  decide

/-- What the loop body of `alsa_driver_silence_untouched_channels` does to the counter of a
channel it silences: the previous value is discarded, the counter becomes `nframes`. -/
theorem silence_untouched_step_restarts (w n : Nat) (d : alsa_driver_t) (m : Mem) (chn : Nat)
    (hbit : d.channels_not_done &&& chn_bit w chn ≠ 0) (hs : d.silent chn < d.buffer_frames) :
    (silence_untouched_step w n (d, m) chn).1.silent chn = ulong_wrap w (0 + n) := by
  unfold silence_untouched_step
  simp only [if_pos hbit, if_pos hs]
  simp [alsa_driver_silence_on_channel, alsa_driver_mark_channel_done]

/-! ## Channel count of a stream -/

theorem ite_elim {α : Type} (Q : α → Prop) (c : Prop) [Decidable c] (a b : α)
    (ha : Q a) (hb : Q b) : Q (if c then a else b) := by
  split_ifs <;> assumption

/-- The three shapes of the result of `alsa_driver_configure_stream`: a failure before the
channel count is read, a failure after it, success. -/
theorem configure_stream_cases (e : StreamEnv) (nchns : Nat) (Q : StreamResult → Prop) (n : Nat)
    (hn : n = if e.channels_max > 1024 then 2 else e.channels_max)
    (q1 : (e.hw_params_any < 0 ∨ e.set_periods_integer < 0 ∨
        (e.set_access_noninterleaved < 0 ∧ e.set_access_interleaved < 0) ∨
        (e.set_format_s32 < 0 ∧ e.set_format_s16 < 0) ∨ e.set_rate < 0) →
      Q ⟨-1, nchns, none⟩)
    (q2 : Q ⟨-1, n, some n⟩) (q3 : Q ⟨0, n, some n⟩) :
    Q (alsa_driver_configure_stream e nchns) := by
  unfold alsa_driver_configure_stream
  simp only [← hn]
  by_cases h1 : e.hw_params_any < 0
  · rw [if_pos h1]; exact q1 (Or.inl h1)
  rw [if_neg h1]
  by_cases h2 : e.set_periods_integer < 0
  · rw [if_pos h2]; exact q1 (Or.inr (Or.inl h2))
  rw [if_neg h2]
  by_cases h3 : e.set_access_noninterleaved < 0 ∧ e.set_access_interleaved < 0
  · rw [if_pos h3]; exact q1 (Or.inr (Or.inr (Or.inl h3)))
  rw [if_neg h3]
  by_cases h4 : e.set_format_s32 < 0 ∧ e.set_format_s16 < 0
  · rw [if_pos h4]; exact q1 (Or.inr (Or.inr (Or.inr (Or.inl h4))))
  rw [if_neg h4]
  by_cases h5 : e.set_rate < 0
  · rw [if_pos h5]; exact q1 (Or.inr (Or.inr (Or.inr (Or.inr h5))))
  rw [if_neg h5]
  repeat (first | assumption | refine ite_elim Q _ _ _ ?_ ?_)

/-- C11. Default-device clamp: whenever `alsa_driver_configure_stream` reaches
`snd_pcm_hw_params_set_channels`, the count it requests is the count it has stored in `*nchns`,
and that count is the reported `channels_max` when this is at most 1024 and 2 when it is larger;
the call is reached whenever the five negotiation steps before it succeed. -/
theorem configure_stream_channel_clamp (e : StreamEnv) (nchns : Nat) :
    (∀ k, (alsa_driver_configure_stream e nchns).channels_requested = some k →
      k = (if e.channels_max ≤ 1024 then e.channels_max else 2) ∧
      (alsa_driver_configure_stream e nchns).nchns = k) ∧
    (0 ≤ e.hw_params_any → 0 ≤ e.set_periods_integer →
      (0 ≤ e.set_access_noninterleaved ∨ 0 ≤ e.set_access_interleaved) →
      (0 ≤ e.set_format_s32 ∨ 0 ≤ e.set_format_s16) → 0 ≤ e.set_rate →
      (alsa_driver_configure_stream e nchns).channels_requested =
        some (if e.channels_max ≤ 1024 then e.channels_max else 2)) := by
  have hclamp : (if e.channels_max ≤ 1024 then e.channels_max else 2) =
      (if e.channels_max > 1024 then 2 else e.channels_max) := by
    split_ifs <;> omega
  constructor
  · apply configure_stream_cases e nchns
      (fun r => ∀ k, r.channels_requested = some k →
        k = (if e.channels_max ≤ 1024 then e.channels_max else 2) ∧ r.nchns = k)
      (if e.channels_max ≤ 1024 then e.channels_max else 2) hclamp
    · intro _ k hk; cases hk
    · intro k hk; cases hk; exact ⟨rfl, rfl⟩
    · intro k hk; cases hk; exact ⟨rfl, rfl⟩
  · intro h1 h2 h3 h4 h5
    apply configure_stream_cases e nchns
      (fun r => r.channels_requested =
        some (if e.channels_max ≤ 1024 then e.channels_max else 2))
      (if e.channels_max ≤ 1024 then e.channels_max else 2) hclamp
    · intro h
      exfalso
      omega
    · rfl
    · rfl

/-- Instances of C11: a reported maximum of 1024 is kept, 1025 and 16,000,000 become 2. -/
theorem configure_stream_channel_clamp_witness :
    (alsa_driver_configure_stream { willing_stream 2 with channels_max := 1024 } 0).nchns
      = 1024 ∧
    (alsa_driver_configure_stream { willing_stream 2 with channels_max := 1025 } 0).nchns = 2 ∧
    (alsa_driver_configure_stream { willing_stream 2 with channels_max := 16000000 }
      0).channels_requested = some 2 :=
  ⟨((configure_stream_channel_clamp { willing_stream 2 with channels_max := 1024 } 0).1 1024
      (by decide)).2,
   ((configure_stream_channel_clamp { willing_stream 2 with channels_max := 1025 } 0).1 2
      (by decide)).2,
   (configure_stream_channel_clamp { willing_stream 2 with channels_max := 16000000 } 0).2
      (by decide) (by decide) (by decide) (by decide) (by decide)⟩

/-! ## The word of channels to be done -/

theorem channel_done_bits_loop_succ (w P : Nat) :
    channel_done_bits_loop w (P + 1) = channel_done_bits_loop w P ||| chn_bit w P := by
  unfold channel_done_bits_loop
  rw [List.range_succ, List.foldl_append, List.foldl_cons, List.foldl_nil]

theorem channel_done_bits_loop_eq (w P : Nat) (hw : 32 ≤ w) (hP : P ≤ 31) :
    channel_done_bits_loop w P = 2 ^ P - 1 := by
  induction P with
  | zero => rfl
  | succ P ih =>
    rw [channel_done_bits_loop_succ, ih (by omega), chn_bit_eq w P hw (by omega)]
    apply Nat.eq_of_testBit_eq
    intro i
    rw [testBit_or_two_pow, Nat.testBit_two_pow_sub_one, Nat.testBit_two_pow_sub_one]
    by_cases h1 : i < P
    · have : i < P + 1 := by omega
      simp [h1, this]
    · by_cases h2 : P = i
      · subst h2; simp
      · have : ¬ i < P + 1 := by omega
        simp [h1, h2, this]

theorem setup_io_playback_nchannels (ops : memops_t) (d : alsa_driver_t) :
    (alsa_driver_setup_io_function_pointers ops d).playback_nchannels = d.playback_nchannels := by
  unfold alsa_driver_setup_io_function_pointers
  split_ifs <;> rfl

theorem setup_io_monitor_fields (ops : memops_t) (d : alsa_driver_t) :
    (alsa_driver_setup_io_function_pointers ops d).input_monitor_mask = d.input_monitor_mask ∧
    (alsa_driver_setup_io_function_pointers ops d).max_nchannels = d.max_nchannels ∧
    (alsa_driver_setup_io_function_pointers ops d).capture_nchannels = d.capture_nchannels := by
  unfold alsa_driver_setup_io_function_pointers
  split_ifs <;> exact ⟨rfl, rfl, rfl⟩

/-- What a successful run of the second half of `alsa_driver_set_parameters` leaves in the
driver, as far as channels and monitoring go. -/
theorem set_parameters_tail_fields (w : Nat) (ops : memops_t) (d : alsa_driver_t)
    (p_format : Int) (cenv penv : StreamEnv)
    (h : (set_parameters_tail w ops d p_format cenv penv).outcome = Outcome.returned 0) :
    (set_parameters_tail w ops d p_format cenv penv).driver.playback_nchannels =
      d.playback_nchannels ∧
    (set_parameters_tail w ops d p_format cenv penv).driver.capture_nchannels =
      d.capture_nchannels ∧
    (set_parameters_tail w ops d p_format cenv penv).driver.max_nchannels =
      max d.playback_nchannels d.capture_nchannels ∧
    (set_parameters_tail w ops d p_format cenv penv).driver.channel_done_bits =
      channel_done_bits_loop w d.playback_nchannels ∧
    (set_parameters_tail w ops d p_format cenv penv).driver.input_monitor_mask =
      d.input_monitor_mask ∧
    (∀ c, (set_parameters_tail w ops d p_format cenv penv).driver.input_monitor_requests c
      = 0) := by
  unfold set_parameters_tail at h ⊢
  by_cases h32 : p_format = SND_PCM_FORMAT_S32_LE
  · simp only [h32, if_true] at h ⊢
    by_cases hacc : decide (cenv.get_access = SND_PCM_ACCESS_MMAP_NONINTERLEAVED) ≠
        decide (penv.get_access = SND_PCM_ACCESS_MMAP_NONINTERLEAVED)
    · rw [if_pos hacc] at h; simp at h
    · rw [if_neg hacc]
      clear h
      dsimp only
      simp only [setup_io_playback_nchannels, (setup_io_monitor_fields _ _).1,
        (setup_io_monitor_fields _ _).2.1, (setup_io_monitor_fields _ _).2.2]
      unfold channel_done_bits_loop
      refine ⟨?_, ?_, ?_, ?_, ?_, ?_⟩
      rotate_left 5
      · first | trivial | (intro _; trivial)
      · split_ifs <;> rfl
      · split_ifs <;> rfl
      · split_ifs with h1 h2 h3 <;> simp only at * <;> omega
      · split_ifs <;> rfl
      · split_ifs <;> rfl
  · by_cases h16 : p_format = SND_PCM_FORMAT_S16_LE
    · have hne : ¬ SND_PCM_FORMAT_S16_LE = SND_PCM_FORMAT_S32_LE := by decide
      simp only [h16, hne, if_true, if_false] at h ⊢
      by_cases hacc : decide (cenv.get_access = SND_PCM_ACCESS_MMAP_NONINTERLEAVED) ≠
          decide (penv.get_access = SND_PCM_ACCESS_MMAP_NONINTERLEAVED)
      · rw [if_pos hacc] at h; simp at h
      · rw [if_neg hacc]
        clear h
        dsimp only
        simp only [setup_io_playback_nchannels, (setup_io_monitor_fields _ _).1,
          (setup_io_monitor_fields _ _).2.1, (setup_io_monitor_fields _ _).2.2]
        unfold channel_done_bits_loop
        refine ⟨?_, ?_, ?_, ?_, ?_, ?_⟩
        rotate_left 5
        · first | trivial | (intro _; trivial)
        · split_ifs <;> rfl
        · split_ifs <;> rfl
        · split_ifs with h1 h2 h3 <;> simp only at * <;> omega
        · split_ifs <;> rfl
        · split_ifs <;> rfl
    · simp [h32, h16] at h

/-- A successful `alsa_driver_set_parameters` is its second half run on the driver that holds
the two negotiated channel counts, the period count and the buffer length. -/
theorem set_parameters_success_shape (w : Nat) (ops : memops_t) (d : alsa_driver_t)
    (frames_per_cycle rate : Nat) (cenv penv : StreamEnv)
    (h : (alsa_driver_set_parameters w ops d frames_per_cycle rate cenv penv).outcome =
      Outcome.returned 0) :
    alsa_driver_set_parameters w ops d frames_per_cycle rate cenv penv =
      set_parameters_tail w ops
        { d with frame_rate := rate,
                 frames_per_cycle := frames_per_cycle,
                 capture_nchannels := (alsa_driver_configure_stream cenv d.capture_nchannels).nchns,
                 playback_nchannels :=
                   (alsa_driver_configure_stream penv d.playback_nchannels).nchns,
                 nfragments := uint_of_int cenv.get_periods,
                 buffer_frames :=
                   ulong_wrap w (frames_per_cycle * uint_of_int cenv.get_periods) }
        penv.get_format cenv penv := by
  have hneg : Outcome.returned (-1) ≠ Outcome.returned 0 := by decide
  unfold alsa_driver_set_parameters at h ⊢
  by_cases hc : (alsa_driver_configure_stream cenv d.capture_nchannels).ret ≠ 0
  · rw [if_pos hc] at h; exact absurd h hneg
  rw [if_neg hc] at h ⊢
  by_cases hp : (alsa_driver_configure_stream penv d.playback_nchannels).ret ≠ 0
  · rw [if_pos hp] at h; exact absurd h hneg
  rw [if_neg hp] at h ⊢
  by_cases hsz : uint_of_int cenv.get_period_size ≠ frames_per_cycle ∨
      uint_of_int penv.get_period_size ≠ frames_per_cycle
  · rw [if_pos hsz] at h; exact absurd h hneg
  rw [if_neg hsz] at h ⊢
  by_cases hn : uint_of_int penv.get_periods ≠ uint_of_int cenv.get_periods
  · rw [if_pos hn] at h; exact absurd h hneg
  rw [if_neg hn] at h ⊢
  by_cases hf : penv.get_format ≠ cenv.get_format
  · rw [if_pos hf] at h; exact absurd h hneg
  rw [if_neg hf]

/-- What a successful `alsa_driver_set_parameters` leaves in the driver, as far as channels and
monitoring go: the word of channels to be done is the one the loop at lines 473-476 computes for
the negotiated playback count, `max_nchannels` is the larger of the two counts, the request
counts are all zero, and `input_monitor_mask` is what it was. -/
theorem set_parameters_fields (w : Nat) (ops : memops_t) (d : alsa_driver_t)
    (frames_per_cycle rate : Nat) (cenv penv : StreamEnv) (r : SetParameters)
    (hr : r = alsa_driver_set_parameters w ops d frames_per_cycle rate cenv penv)
    (h : r.outcome = Outcome.returned 0) :
    r.driver.channel_done_bits = channel_done_bits_loop w r.driver.playback_nchannels ∧
    r.driver.max_nchannels = max r.driver.playback_nchannels r.driver.capture_nchannels ∧
    r.driver.input_monitor_mask = d.input_monitor_mask ∧
    (∀ c, r.driver.input_monitor_requests c = 0) ∧
    r.driver.playback_nchannels =
      (alsa_driver_configure_stream penv d.playback_nchannels).nchns ∧
    r.driver.capture_nchannels =
      (alsa_driver_configure_stream cenv d.capture_nchannels).nchns := by
  rw [hr] at h
  have hs := set_parameters_success_shape w ops d frames_per_cycle rate cenv penv h
  rw [hs] at h
  rw [hr, hs]
  obtain ⟨t1, t2, t3, t4, t5, t6⟩ := set_parameters_tail_fields w ops _ _ cenv penv h
  rw [t1, t2, t3, t4, t5]
  exact ⟨rfl, rfl, rfl, t6, rfl, rfl⟩

theorem get_channel_addresses_ret (w : Nat) (d : alsa_driver_t)
    (capture playback : Option (Nat × Nat)) (crep prep : MmapReply) :
    (alsa_driver_get_channel_addresses w d capture playback crep prep).ret = 0 ∧
    (alsa_driver_get_channel_addresses w d capture playback crep prep).driver.channel_done_bits
      = d.channel_done_bits := by
  unfold alsa_driver_get_channel_addresses
  cases capture <;> cases playback <;> cases crep <;> cases prep <;> simp

theorem hw_push_done_bits (d : alsa_driver_t) (c : Prop) [Decidable c] :
    (if c then hw_set_mask d d.input_monitor_mask else (d, [])).1.channels_not_done =
      d.channels_not_done ∧
    (if c then hw_set_mask d d.input_monitor_mask else (d, [])).1.channel_done_bits =
      d.channel_done_bits := by
  split_ifs <;> exact ⟨rfl, rfl⟩

/-- The state a pass of the processing loop has reached when line 785 has run: either
`engine->process` then fails and the pass returns -1 in that state, or the state goes through
the port, monitor and silence steps (`finish_span`) and is committed. -/
theorem wait_iteration_begin_cycle (w : Nat) (d : alsa_driver_t) (m : Mem) (avail : Int)
    (coff poff : Nat) (e : SpanEnv) :
    ∃ d2 m2, d2.channels_not_done = d.channel_done_bits ∧
      d2.channel_done_bits = d.channel_done_bits ∧
      (((wait_iteration w d m avail coff poff e).ret = some (-1) ∧
          (wait_iteration w d m avail coff poff e).driver = d2) ∨
        ((wait_iteration w d m avail coff poff e).ret = none ∧
          (wait_iteration w d m avail coff poff e).driver =
            (finish_span w d2 m2
              (ulong_of_int w (wait_iteration w d m avail coff poff e).contiguous)).1 ∧
          (wait_iteration w d m avail coff poff e).mem =
            (finish_span w d2 m2
              (ulong_of_int w (wait_iteration w d m avail coff poff e).contiguous)).2)) := by
  have hca := get_channel_addresses_ret w d
    (some (ulong_of_int w (span_request w d avail), coff))
    (some (ulong_of_int w (span_request w d avail), poff)) e.capture_begin e.playback_begin
  unfold wait_iteration
  simp only [hca.1, lt_self_iff_false, if_false]
  generalize alsa_driver_get_channel_addresses w d _ _ e.capture_begin e.playback_begin = ca
    at hca ⊢
  generalize hn : ulong_of_int w
    (if long_of_ulong w (ca.capture.getD (0, 0)).1 < long_of_ulong w (ca.playback.getD (0, 0)).1
     then long_of_ulong w (ca.capture.getD (0, 0)).1
     else long_of_ulong w (ca.playback.getD (0, 0)).1) = n
  have hfr := bookkeeping_only_apply_silence_pending w ca.driver m n
  obtain ⟨_, _, _, _, _, m6, _⟩ := bookkeeping_only_modes hfr
  generalize apply_silence_pending w ca.driver m n = s1 at m6 ⊢
  clear hfr
  have hh := hw_push_done_bits { s1.1 with channels_not_done := s1.1.channel_done_bits }
    (s1.1.hw_input_monitor_mask ≠ s1.1.input_monitor_mask ∧ s1.1.hw_monitoring = true ∧
      (!s1.1.all_monitor_in) = true)
  simp only at hh
  generalize (if s1.1.hw_input_monitor_mask ≠ s1.1.input_monitor_mask ∧
      s1.1.hw_monitoring = true ∧ (!s1.1.all_monitor_in) = true
    then hw_set_mask { s1.1 with channels_not_done := s1.1.channel_done_bits }
      s1.1.input_monitor_mask
    else ({ s1.1 with channels_not_done := s1.1.channel_done_bits }, [])) = hst at hh ⊢
  have h1 : hst.1.channels_not_done = d.channel_done_bits := by rw [hh.1, m6, hca.2]
  have h2 : hst.1.channel_done_bits = d.channel_done_bits := by rw [hh.2, m6, hca.2]
  by_cases hp : hst.1.engine = true ∧ e.process_ret ≠ 0
  · rw [if_pos hp]
    exact ⟨hst.1, m, h1, h2, Or.inl ⟨rfl, rfl⟩⟩
  · rw [if_neg hp]
    refine ⟨hst.1, (if hst.1.engine = true then e.process_mem s1.2 else s1.2), h1, h2,
      Or.inr ⟨rfl, ?_, ?_⟩⟩
    · simp only [hn]
    · simp only [hn]

/-- C13. For a playback channel count `P <= 31` the loop of `alsa_driver_set_parameters`
computes `channel_done_bits = 2 ^ P - 1`, that is exactly the bits `0..P-1`; a successful
`alsa_driver_set_parameters` that negotiates `P` playback channels stores that value; and in
every pass of the processing loop `channels_not_done` has that value when `engine->process` is
called and when the port, monitor and silence steps start. -/
theorem channel_done_bits_value (w P : Nat) (hw : 32 ≤ w) (hP : P ≤ 31) :
    channel_done_bits_loop w P = 2 ^ P - 1 ∧
    (∀ i, (channel_done_bits_loop w P).testBit i = decide (i < P)) ∧
    (∀ (ops : memops_t) (d : alsa_driver_t) (frames_per_cycle rate : Nat)
        (cenv penv : StreamEnv),
      (alsa_driver_set_parameters w ops d frames_per_cycle rate cenv penv).outcome =
        Outcome.returned 0 →
      (alsa_driver_set_parameters w ops d frames_per_cycle rate
        cenv penv).driver.playback_nchannels = P →
      (alsa_driver_set_parameters w ops d frames_per_cycle rate
        cenv penv).driver.channel_done_bits = 2 ^ P - 1) ∧
    (∀ (d : alsa_driver_t) (m : Mem) (avail : Int) (coff poff : Nat) (e : SpanEnv),
      d.channel_done_bits = 2 ^ P - 1 →
      ∃ d2 m2, d2.channels_not_done = 2 ^ P - 1 ∧
        (((wait_iteration w d m avail coff poff e).ret = some (-1) ∧
            (wait_iteration w d m avail coff poff e).driver = d2) ∨
          ((wait_iteration w d m avail coff poff e).ret = none ∧
            (wait_iteration w d m avail coff poff e).driver =
              (finish_span w d2 m2
                (ulong_of_int w (wait_iteration w d m avail coff poff e).contiguous)).1 ∧
            (wait_iteration w d m avail coff poff e).mem =
              (finish_span w d2 m2
                (ulong_of_int w (wait_iteration w d m avail coff poff e).contiguous)).2))) := by
  have hloop := channel_done_bits_loop_eq w P hw hP
  refine ⟨hloop, ?_, ?_, ?_⟩
  · intro i
    rw [hloop, Nat.testBit_two_pow_sub_one]
  · intro ops d fpc rate cenv penv hok hPn
    obtain ⟨f1, _⟩ := set_parameters_fields w ops d fpc rate cenv penv _ rfl hok
    rw [f1, hPn, hloop]
  · intro d m avail coff poff e hd
    obtain ⟨d2, m2, h1, _, h3⟩ := wait_iteration_begin_cycle w d m avail coff poff e
    exact ⟨d2, m2, by rw [h1, hd], h3⟩

/-- Instance of C13: two playback channels on a 32 bit word give the word 3, computed by the
loop and stored by `alsa_driver_set_parameters` for two willing streams. -/
theorem channel_done_bits_value_witness :
    (32 ≤ 32 ∧ 2 ≤ 31) ∧ channel_done_bits_loop 32 2 = 2 ^ 2 - 1 ∧
    (alsa_driver_set_parameters 32 idle_memops driver_calloc 64 48000
      (willing_stream SND_PCM_FORMAT_S16_LE)
      (willing_stream SND_PCM_FORMAT_S16_LE)).driver.channel_done_bits = 2 ^ 2 - 1 :=
  ⟨⟨by decide, by decide⟩, (channel_done_bits_value 32 2 (by decide) (by decide)).1,
   (channel_done_bits_value 32 2 (by decide) (by decide)).2.2.1 idle_memops driver_calloc 64
     48000 (willing_stream SND_PCM_FORMAT_S16_LE) (willing_stream SND_PCM_FORMAT_S16_LE)
     (by decide) (by decide)⟩

/-! ## Monitor requests: notifications, pending silence, monitor-all -/

/-- C16 (as stated, refuted). Four channels, channel 3, request count 0: the first `on` request
sends `notify (3, on)`, the second one, which takes the count from 1 to 2, sends nothing. -/
theorem second_monitor_on_is_silent :
    (alsa_driver_request_monitor_input 32 four_channel_driver 3 true).2 =
      [Event.input_monitor_notify 3 true] ∧
    (alsa_driver_request_monitor_input 32
      (alsa_driver_request_monitor_input 32 four_channel_driver 3 true).1 3 true).2 = [] ∧
    (alsa_driver_request_monitor_input 32
      (alsa_driver_request_monitor_input 32 four_channel_driver 3 true).1 3
        true).1.input_monitor_requests 3 = 2 := by
  decide

/-- C16 (amended). For a channel `c < max_nchannels` that has a bit of its own in the mask word
(`c <= 30`, or `c = 31` when `unsigned long` has 32 bits), with request count 0 and mask bit `c`
clear, the first of two successive `on` requests sets mask bit `c`, changes no other bit and
sends `notify (c, on)`; the second takes the count from 1 to 2, leaves the mask as it is and
sends no notification. -/
theorem monitor_on_twice_notifies_once (w : Nat) (d : alsa_driver_t) (c : Nat)
    (hw : 32 ≤ w) (hc : c < d.max_nchannels) (hc31 : c < 31 ∨ (c = 31 ∧ w = 32))
    (h0 : d.input_monitor_requests c = 0) (hbit : d.input_monitor_mask.testBit c = false) :
    (alsa_driver_request_monitor_input w d c true).2 = [Event.input_monitor_notify c true] ∧
    (alsa_driver_request_monitor_input w d c true).1.input_monitor_mask.testBit c = true ∧
    (∀ i, i ≠ c →
      (alsa_driver_request_monitor_input w d c true).1.input_monitor_mask.testBit i =
        d.input_monitor_mask.testBit i) ∧
    (alsa_driver_request_monitor_input w d c true).1.input_monitor_mask =
      d.input_monitor_mask ||| 2 ^ c ∧
    (alsa_driver_request_monitor_input w d c true).1.input_monitor_requests c = 1 ∧
    (alsa_driver_request_monitor_input w
      (alsa_driver_request_monitor_input w d c true).1 c true).2 = [] ∧
    (alsa_driver_request_monitor_input w
      (alsa_driver_request_monitor_input w d c true).1 c true).1.input_monitor_requests c = 2 ∧
    (alsa_driver_request_monitor_input w
      (alsa_driver_request_monitor_input w d c true).1 c true).1.input_monitor_mask =
      (alsa_driver_request_monitor_input w d c true).1.input_monitor_mask := by
  have h2w : (2 : Nat) < 2 ^ w :=
    lt_of_lt_of_le (by norm_num) (Nat.pow_le_pow_right (by norm_num) hw)
  have hwrap1 : ulong_wrap w (0 + 1) = 1 := by
    unfold ulong_wrap; exact Nat.mod_eq_of_lt (by omega)
  have hwrap2 : ulong_wrap w (1 + 1) = 2 := by
    unfold ulong_wrap; exact Nat.mod_eq_of_lt (by omega)
  have hb : chn_bit w c = 2 ^ c := by
    rcases hc31 with h | ⟨h1, h2⟩
    · exact chn_bit_eq w c hw h
    · subst h1; subst h2; decide
  have hclear : d.input_monitor_mask &&& chn_bit w c = 0 := by
    rw [hb]; exact (and_two_pow_eq_zero_iff _ _).mpr hbit
  have e1 := request_on_first w d c hc (by rw [h0]; exact hwrap1) hclear
  rw [e1]
  have e2 := request_on_more w
    { d with input_monitor_requests := Function.update d.input_monitor_requests c 1,
             input_monitor_mask := d.input_monitor_mask ||| chn_bit w c } c hc
    (by simp only [Function.update_same]; rw [hwrap2]; decide)
  rw [e2]
  simp only [Function.update_same, hwrap2, hb]
  refine ⟨trivial, ?_, ?_, trivial, trivial, trivial, trivial, trivial⟩
  · rw [testBit_or_two_pow]; simp
  · intro i hi
    rw [testBit_or_two_pow]
    simp [Ne.symm hi]

/-- Instance of C16 (amended): four channels, channel 3. -/
theorem monitor_on_twice_notifies_once_witness :
    (32 ≤ 32 ∧ 3 < four_channel_driver.max_nchannels ∧ (3 < 31 ∨ (3 = 31 ∧ 32 = 32)) ∧
      four_channel_driver.input_monitor_requests 3 = 0 ∧
      four_channel_driver.input_monitor_mask.testBit 3 = false) ∧
    (alsa_driver_request_monitor_input 32 four_channel_driver 3 true).2 =
      [Event.input_monitor_notify 3 true] ∧
    (alsa_driver_request_monitor_input 32 four_channel_driver 3
      true).1.input_monitor_mask.testBit 3 = true ∧
    (alsa_driver_request_monitor_input 32
      (alsa_driver_request_monitor_input 32 four_channel_driver 3 true).1 3 true).2 = [] :=
  ⟨⟨by decide, by decide, Or.inl (by decide), rfl, by decide⟩,
   (monitor_on_twice_notifies_once 32 four_channel_driver 3 (by decide) (by decide)
      (Or.inl (by decide)) rfl (by decide)).1,
   (monitor_on_twice_notifies_once 32 four_channel_driver 3 (by decide) (by decide)
      (Or.inl (by decide)) rfl (by decide)).2.1,
   (monitor_on_twice_notifies_once 32 four_channel_driver 3 (by decide) (by decide)
      (Or.inl (by decide)) rfl (by decide)).2.2.2.2.2.1⟩

theorem request_silence_pending_unchanged (w : Nat) (d : alsa_driver_t) (chn : Nat) (yn : Bool)
    (h : yn = true ∨ d.max_nchannels ≤ chn ∨ d.input_monitor_requests chn ≠ 1 ∨
      d.input_monitor_mask &&& chn_bit w chn = 0) :
    (alsa_driver_request_monitor_input w d chn yn).1.silence_pending = d.silence_pending := by
  by_cases hc : chn < d.max_nchannels
  swap
  · rw [request_out_of_range w d chn yn (by omega)]
  cases yn
  · by_cases h0 : d.input_monitor_requests chn = 0
    · rw [request_off_zero w d chn hc h0]
    · by_cases h1 : d.input_monitor_requests chn = 1
      · by_cases hm : d.input_monitor_mask &&& chn_bit w chn = 0
        · rw [request_off_last_clear w d chn hc h1 hm]
        · rcases h with h | h | h | h
          · cases h
          · omega
          · exact absurd h1 h
          · exact absurd h hm
      · rw [request_off_more w d chn hc (by omega)]
  · by_cases hr : ulong_wrap w (d.input_monitor_requests chn + 1) = 1
    · by_cases hm : d.input_monitor_mask &&& chn_bit w chn = 0
      · rw [request_on_first w d chn hc hr hm]
      · rw [request_on_first_set w d chn hc hr hm]
    · rw [request_on_more w d chn hc hr]

/-- C17. Pending silence on monitor-off.  For a channel `c < max_nchannels` (at most 31
channels) with request count 1 and mask bit set, an `off` request clears mask bit `c`; with
hardware monitoring off it sets bit `c` of `silence_pending` (the other bits are unchanged),
with hardware monitoring on `silence_pending` is unchanged.  Every other call leaves
`silence_pending` as it is: an `on` request, a request for a channel out of range, an `off`
request whose count is not 1, and an `off` request that finds the mask bit already clear. -/
theorem monitor_off_pending_silence (w : Nat) (d : alsa_driver_t)
    (hw : 32 ≤ w) (hM : d.max_nchannels ≤ 31) :
    (∀ c, c < d.max_nchannels → d.input_monitor_requests c = 1 →
      d.input_monitor_mask.testBit c = true →
      (alsa_driver_request_monitor_input w d c false).1.input_monitor_mask.testBit c = false ∧
      (d.hw_monitoring = false →
        (alsa_driver_request_monitor_input w d c false).1.silence_pending =
          d.silence_pending ||| 2 ^ c ∧
        (alsa_driver_request_monitor_input w d c false).1.silence_pending.testBit c = true) ∧
      (d.hw_monitoring = true →
        (alsa_driver_request_monitor_input w d c false).1.silence_pending =
          d.silence_pending)) ∧
    (∀ chn yn, (yn = true ∨ d.max_nchannels ≤ chn ∨ d.input_monitor_requests chn ≠ 1 ∨
        d.input_monitor_mask &&& chn_bit w chn = 0) →
      (alsa_driver_request_monitor_input w d chn yn).1.silence_pending = d.silence_pending) := by
  refine ⟨?_, fun chn yn h => request_silence_pending_unchanged w d chn yn h⟩
  intro c hc h1 hbit
  have hc31 : c < 31 := by omega
  have hb := chn_bit_eq w c hw hc31
  have hm : d.input_monitor_mask &&& chn_bit w c ≠ 0 :=
    (and_chn_bit_ne_zero_iff w _ c hw hc31).mpr hbit
  rw [request_off_last w d c hc h1 hm]
  refine ⟨?_, ?_, ?_⟩
  · show (d.input_monitor_mask &&& chn_bit_compl w c).testBit c = false
    rw [testBit_and_chn_bit_compl w _ c c hw hc31]
    simp
  · intro hhw
    simp only [hhw, Bool.false_eq_true, if_false, hb]
    refine ⟨trivial, ?_⟩
    rw [testBit_or_two_pow]; simp
  · intro hhw
    simp only [hhw, if_true]

/-- Instance of C17: four channels, one outstanding request for channel 3, hardware monitoring
off; the `off` request sets bit 3 of `silence_pending`, a further `on` request leaves it. -/
theorem monitor_off_pending_silence_witness :
    (32 ≤ 32 ∧ monitoring_driver.max_nchannels ≤ 31 ∧ 3 < monitoring_driver.max_nchannels ∧
      monitoring_driver.input_monitor_requests 3 = 1 ∧
      monitoring_driver.input_monitor_mask.testBit 3 = true ∧
      monitoring_driver.hw_monitoring = false) ∧
    (alsa_driver_request_monitor_input 32 monitoring_driver 3 false).1.silence_pending =
      monitoring_driver.silence_pending ||| 2 ^ 3 ∧
    (alsa_driver_request_monitor_input 32 monitoring_driver 2 true).1.silence_pending =
      monitoring_driver.silence_pending :=
  ⟨⟨by decide, by decide, by decide, by decide, by decide, by decide⟩,
   ((((monitor_off_pending_silence 32 monitoring_driver (by decide) (by decide)).1 3
      (by decide) (by decide) (by decide)).2.1) (by decide)).1,
   (monitor_off_pending_silence 32 monitoring_driver (by decide) (by decide)).2 2 true
      (Or.inl rfl)⟩

/-- C18. A call `request_all_monitor_input (yn)` sets `all_monitor_in` to `yn` and leaves
`input_monitor_mask`, `input_monitor_requests` and `silence_pending` unchanged.  With hardware
monitoring on it makes exactly one `set_input_monitor_mask` call on the hardware profile, with
`~0U` (the 32 bits 0..31 set) when `yn` is true and with the current `input_monitor_mask` when
`yn` is false; with hardware monitoring off it makes none. -/
theorem request_all_monitor_input_effect (d : alsa_driver_t) (yn : Bool) :
    (alsa_driver_request_all_monitor_input d yn).1.all_monitor_in = yn ∧
    (alsa_driver_request_all_monitor_input d yn).1.input_monitor_mask = d.input_monitor_mask ∧
    (alsa_driver_request_all_monitor_input d yn).1.input_monitor_requests =
      d.input_monitor_requests ∧
    (alsa_driver_request_all_monitor_input d yn).1.silence_pending = d.silence_pending ∧
    (d.hw_monitoring = true →
      (alsa_driver_request_all_monitor_input d yn).2 =
        [Event.set_input_monitor_mask (if yn then all_ones_uint else d.input_monitor_mask)]) ∧
    (d.hw_monitoring = false → (alsa_driver_request_all_monitor_input d yn).2 = []) ∧
    (∀ i, all_ones_uint.testBit i = decide (i < 32)) := by
  refine ⟨?_, ?_, ?_, ?_, ?_, ?_, ?_⟩
  · rfl
  · unfold alsa_driver_request_all_monitor_input hw_set_mask
    split_ifs <;> rfl
  · unfold alsa_driver_request_all_monitor_input hw_set_mask
    split_ifs <;> rfl
  · unfold alsa_driver_request_all_monitor_input hw_set_mask
    split_ifs <;> rfl
  · intro h
    unfold alsa_driver_request_all_monitor_input hw_set_mask
    cases yn <;> simp [h]
  · intro h
    unfold alsa_driver_request_all_monitor_input
    simp [h]
  · intro i
    unfold all_ones_uint
    rw [Nat.testBit_two_pow_sub_one]

/-- Instances of C18: with hardware monitoring on, `yn` true pushes `~0U`; with hardware
monitoring off nothing is pushed. -/
theorem request_all_monitor_input_effect_witness :
    (({ monitoring_driver with hw_monitoring := true } : alsa_driver_t).hw_monitoring = true ∧
      monitoring_driver.hw_monitoring = false) ∧
    (alsa_driver_request_all_monitor_input { monitoring_driver with hw_monitoring := true }
      true).2 = [Event.set_input_monitor_mask (if true then all_ones_uint else
        ({ monitoring_driver with hw_monitoring := true } : alsa_driver_t).input_monitor_mask)] ∧
    (alsa_driver_request_all_monitor_input monitoring_driver true).2 = [] :=
  ⟨⟨rfl, by decide⟩,
   (request_all_monitor_input_effect { monitoring_driver with hw_monitoring := true }
      true).2.2.2.2.1 rfl,
   (request_all_monitor_input_effect monitoring_driver true).2.2.2.2.2.1 (by decide)⟩

/-! ## Construction and reset -/

/-- The failure paths of `alsa_driver_new` that come after the card-type check (a failed
parameter allocation, a failed `alsa_driver_set_parameters`) go through `alsa_driver_delete`,
which closes both streams. -/
theorem new_late_failure_closes (w : Nat) (ops : memops_t) (e : NewEnv)
    (frames_per_cycle rate : Nat)
    (h1 : 0 ≤ e.open_playback) (h2 : 0 ≤ e.open_capture)
    (h3 : (alsa_driver_check_card_type e).1 = 0)
    (hnull : (alsa_driver_new w ops e frames_per_cycle rate).outcome.isNull = true) :
    (alsa_driver_new w ops e frames_per_cycle rate).handles.playback_open = false ∧
    (alsa_driver_new w ops e frames_per_cycle rate).handles.capture_open = false := by
  unfold alsa_driver_new at hnull ⊢
  simp only [not_lt.mpr h1, not_lt.mpr h2, if_false, h3, ne_eq, not_true_eq_false] at hnull ⊢
  generalize alsa_driver_set_parameters w ops driver_calloc frames_per_cycle rate
    e.capture e.playback = sp at hnull ⊢
  by_cases a1 : e.hw_params_malloc_playback < 0
  · simp only [a1, if_true]; exact ⟨rfl, rfl⟩
  by_cases a2 : e.hw_params_malloc_capture < 0
  · simp only [a1, a2, if_true, if_false]; exact ⟨rfl, rfl⟩
  by_cases a3 : e.sw_params_malloc_playback < 0
  · simp only [a1, a2, a3, if_true, if_false]; exact ⟨rfl, rfl⟩
  by_cases a4 : e.sw_params_malloc_capture < 0
  · simp only [a1, a2, a3, a4, if_true, if_false]; exact ⟨rfl, rfl⟩
  simp only [a1, a2, a3, a4, if_false] at hnull ⊢
  cases hsp : sp.outcome with
  | exited code => simp only [hsp] at hnull; cases hnull
  | returned r =>
    simp only [hsp] at hnull ⊢
    by_cases hr : r = 0
    · simp only [hr, not_true_eq_false, if_false] at hnull; cases hnull
    · simp only [hr, not_false_eq_true, if_true]; exact ⟨rfl, rfl⟩

/-- The failure paths of `alsa_driver_new` at the capture open and at the card-type check return
the null pointer with the playback stream still open. -/
theorem new_early_failure_keeps_playback (w : Nat) (ops : memops_t) (e : NewEnv)
    (frames_per_cycle rate : Nat) (h1 : 0 ≤ e.open_playback)
    (h2 : e.open_capture < 0 ∨ (alsa_driver_check_card_type e).1 ≠ 0) :
    (alsa_driver_new w ops e frames_per_cycle rate).outcome.isNull = true ∧
    (alsa_driver_new w ops e frames_per_cycle rate).handles.playback_open = true := by
  unfold alsa_driver_new
  simp only [not_lt.mpr h1, if_false]
  by_cases hc : e.open_capture < 0
  · rw [if_pos hc]; exact ⟨rfl, rfl⟩
  · rcases h2 with h2 | h2
    · exact absurd h2 hc
    · rw [if_neg hc, if_pos h2]; exact ⟨rfl, rfl⟩

/-- C14 (the code at the failing inputs). When the playback stream opens and the capture stream
does not, `alsa_driver_new` returns the null pointer and the playback stream is still open; when
both streams open and the control device does not, it returns the null pointer with both
streams still open.  On the sibling paths (a failed parameter allocation, a failed
`alsa_driver_set_parameters`) it returns the null pointer with both streams closed. -/
theorem new_early_failures_leave_streams_open :
    ((alsa_driver_new 32 idle_memops capture_refused_env 64 48000).outcome.isNull = true ∧
      (alsa_driver_new 32 idle_memops capture_refused_env 64 48000).handles.playback_open
        = true) ∧
    ((alsa_driver_new 32 idle_memops control_refused_env 64 48000).outcome.isNull = true ∧
      (alsa_driver_new 32 idle_memops control_refused_env 64 48000).handles.playback_open
        = true ∧
      (alsa_driver_new 32 idle_memops control_refused_env 64 48000).handles.capture_open
        = true) ∧
    ((alsa_driver_new 32 idle_memops no_memory_env 64 48000).outcome.isNull = true ∧
      (alsa_driver_new 32 idle_memops no_memory_env 64 48000).handles.playback_open = false ∧
      (alsa_driver_new 32 idle_memops no_memory_env 64 48000).handles.capture_open = false) ∧
    ((alsa_driver_new 32 idle_memops unconfigurable_env 64 48000).outcome.isNull = true ∧
      (alsa_driver_new 32 idle_memops unconfigurable_env 64 48000).handles.playback_open
        = false ∧
      (alsa_driver_new 32 idle_memops unconfigurable_env 64 48000).handles.capture_open
        = false) := by
  decide

/-- A successful `alsa_driver_reset_parameters` zeroes every request count and keeps
`input_monitor_mask`. -/
theorem reset_parameters_monitor_fields (w : Nat) (ops : memops_t) (d : alsa_driver_t)
    (frames_per_cycle rate : Nat) (cenv penv : StreamEnv)
    (h : (alsa_driver_reset_parameters w ops d frames_per_cycle rate cenv penv).outcome =
      Outcome.returned 0) :
    (alsa_driver_reset_parameters w ops d frames_per_cycle rate
      cenv penv).driver.input_monitor_mask = d.input_monitor_mask ∧
    ∀ c, (alsa_driver_reset_parameters w ops d frames_per_cycle rate
      cenv penv).driver.input_monitor_requests c = 0 := by
  unfold alsa_driver_reset_parameters at h ⊢
  obtain ⟨_, _, f3, f4, _, _⟩ := set_parameters_fields w ops
    (alsa_driver_release_channel_dependent_memory d) frames_per_cycle rate cenv penv _ rfl h
  exact ⟨f3, f4⟩

/-- C15 (the code at the failing input). A driver of two channels with one outstanding request
for channel 1 satisfies the mask invariant; after a successful `alsa_driver_reset_parameters`
for two channels the request count of channel 1 is 0 while bit 1 of `input_monitor_mask` is
still set, so the invariant no longer holds. -/
theorem reset_parameters_keeps_stale_mask :
    mask_inv requested_driver ∧
    (alsa_driver_reset_parameters 32 idle_memops requested_driver 64 48000
      (stream_of_channels 2) (stream_of_channels 2)).outcome = Outcome.returned 0 ∧
    (alsa_driver_reset_parameters 32 idle_memops requested_driver 64 48000
      (stream_of_channels 2) (stream_of_channels 2)).driver.max_nchannels = 2 ∧
    (alsa_driver_reset_parameters 32 idle_memops requested_driver 64 48000
      (stream_of_channels 2) (stream_of_channels 2)).driver.input_monitor_requests 1 = 0 ∧
    (alsa_driver_reset_parameters 32 idle_memops requested_driver 64 48000
      (stream_of_channels 2) (stream_of_channels 2)).driver.input_monitor_mask.testBit 1
        = true ∧
    ¬ mask_inv (alsa_driver_reset_parameters 32 idle_memops requested_driver 64 48000
      (stream_of_channels 2) (stream_of_channels 2)).driver := by
  refine ⟨?_, by decide, by decide, by decide, by decide, ?_⟩
  · unfold mask_inv
    decide
  · intro h
    have h1 := (h 1 (by decide)).mp (by decide)
    revert h1
    decide

/-! ## Software monitoring -/

theorem copy_channel_mask (w : Nat) (d : alsa_driver_t) (m : Mem) (i o n : Nat) :
    (alsa_driver_copy_channel w d m i o n).1.input_monitor_mask = d.input_monitor_mask := rfl

theorem monitor_mask_loop_eq (w n : Nat) (l : List Nat) (s : alsa_driver_t × Mem) :
    l.foldl (fun (s : alsa_driver_t × Mem) chn =>
        if s.1.input_monitor_mask &&& chn_bit w chn ≠ 0 then
          alsa_driver_copy_channel w s.1 s.2 chn chn n
        else s) s =
      (l.filter (fun chn => decide (s.1.input_monitor_mask &&& chn_bit w chn ≠ 0))).foldl
        (fun (s : alsa_driver_t × Mem) chn => alsa_driver_copy_channel w s.1 s.2 chn chn n) s := by
  induction l generalizing s with
  | nil => rfl
  | cons a l ih =>
    rw [List.foldl_cons, List.filter_cons]
    by_cases h : s.1.input_monitor_mask &&& chn_bit w a ≠ 0
    · rw [if_pos h, if_pos (decide_eq_true h), List.foldl_cons, ih]
      rfl
    · rw [if_neg h, if_neg (by simpa using h), ih]

/-- The monitoring code at lines 815-829 is the sequence of calls
`alsa_driver_copy_channel (driver, chn, chn, contiguous)` for the channels of
`monitor_copy_channels`, in that order. -/
theorem monitor_inputs_eq_copies (w : Nat) (d : alsa_driver_t) (m : Mem) (n : Nat) :
    monitor_inputs w d m n =
      (monitor_copy_channels w d).foldl
        (fun (s : alsa_driver_t × Mem) chn => alsa_driver_copy_channel w s.1 s.2 chn chn n)
        (d, m) := by
  unfold monitor_inputs monitor_copy_channels
  by_cases hh : (!d.hw_monitoring) = true
  · rw [if_pos hh, if_pos hh]
    by_cases ha : d.all_monitor_in = true
    · rw [if_pos ha, if_pos ha]
    · rw [if_neg ha, if_neg ha]
      by_cases hm : d.input_monitor_mask ≠ 0
      · rw [if_pos hm, if_pos hm, monitor_mask_loop_eq]
      · rw [if_neg hm, if_neg hm]; rfl
  · rw [if_neg hh, if_neg hh]; rfl

/-- Every channel the monitoring code copies is below `playback_nchannels`: the index into
`playback_addr` is in range. -/
theorem monitor_copy_channels_lt_playback (w : Nat) (d : alsa_driver_t) (c : Nat)
    (h : c ∈ monitor_copy_channels w d) : c < d.playback_nchannels := by
  unfold monitor_copy_channels at h
  split_ifs at h
  · exact List.mem_range.mp h
  · exact List.mem_range.mp (List.mem_filter.mp h).1
  · cases h
  · cases h

/-- C20 (the code at the failing input). With one capture channel and two playback channels
negotiated and `all_monitor_in` set through `alsa_driver_request_all_monitor_input`, the
monitoring code calls `alsa_driver_copy_channel (driver, chn, chn, ...)` for the channels 0
and 1; the call for channel 1 reads `capture_addr[1]`, and 1 is not below `capture_nchannels`,
the length of `capture_addr`.  Both indices are below `playback_nchannels`. -/
theorem monitor_loop_reads_past_capture :
    mono_in_stereo_out.capture_nchannels = 1 ∧ mono_in_stereo_out.playback_nchannels = 2 ∧
    mono_in_stereo_out.hw_monitoring = false ∧ mono_in_stereo_out.all_monitor_in = true ∧
    monitor_copy_channels 32 mono_in_stereo_out = [0, 1] ∧
    (∀ (m : Mem) (n : Nat), monitor_inputs 32 mono_in_stereo_out m n =
      [0, 1].foldl (fun (s : alsa_driver_t × Mem) chn =>
        alsa_driver_copy_channel 32 s.1 s.2 chn chn n) (mono_in_stereo_out, m)) ∧
    (∃ c, c ∈ monitor_copy_channels 32 mono_in_stereo_out ∧
      ¬ c < mono_in_stereo_out.capture_nchannels) ∧
    (∀ c, c ∈ monitor_copy_channels 32 mono_in_stereo_out →
      c < mono_in_stereo_out.playback_nchannels) := by
  have hl : monitor_copy_channels 32 mono_in_stereo_out = [0, 1] := by decide
  refine ⟨by decide, by decide, by decide, by decide, hl, ?_, ⟨1, ?_, by decide⟩, ?_⟩
  · intro m n
    rw [monitor_inputs_eq_copies, hl]
  · rw [hl]; decide
  · intro c hc
    exact monitor_copy_channels_lt_playback 32 _ c hc

/-! ## Channels beyond the word -/

set_option maxRecDepth 100000 in
/-- C12 (the code at the failing input). With 33 playback channels negotiated and an
`unsigned long` of 32 bits, the word of channels to be done is the word for 32 channels and has
no bit for channel 32; marking channel 32 done clears the bit of channel 0; and in a span of 64
frames in which no port is written and no input is monitored, the channels 0 and 31 are
silenced (`silent = 64`, first byte 0) while the untouched channel 32 is not (`silent[32] = 0`,
first byte still 255). -/
theorem wide_channel_not_tracked :
    wide_idle_driver.playback_nchannels = 33 ∧
    wide_idle_driver.channel_done_bits = channel_done_bits_loop 32 33 ∧
    channel_done_bits_loop 32 33 = channel_done_bits_loop 32 32 ∧
    (channel_done_bits_loop 32 33).testBit 32 = false ∧
    (alsa_driver_mark_channel_done 32
      { wide_idle_driver with channels_not_done := wide_idle_driver.channel_done_bits }
      32).channels_not_done.testBit 0 = false ∧
    (wait_iteration 32 wide_idle_driver (fun _ => 255) 64 0 0 (plain_span 64 0)).ret = none ∧
    (wait_iteration 32 wide_idle_driver (fun _ => 255) 64 0 0 (plain_span 64 0)).driver.silent 0
      = 64 ∧
    (wait_iteration 32 wide_idle_driver (fun _ => 255) 64 0 0 (plain_span 64 0)).driver.silent 31
      = 64 ∧
    (wait_iteration 32 wide_idle_driver (fun _ => 255) 64 0 0 (plain_span 64 0)).mem
      ((wait_iteration 32 wide_idle_driver (fun _ => 255) 64 0 0
        (plain_span 64 0)).driver.playback_addr 31) = 0 ∧
    (wait_iteration 32 wide_idle_driver (fun _ => 255) 64 0 0 (plain_span 64 0)).driver.silent 32
      = 0 ∧
    (wait_iteration 32 wide_idle_driver (fun _ => 255) 64 0 0 (plain_span 64 0)).mem
      ((wait_iteration 32 wide_idle_driver (fun _ => 255) 64 0 0
        (plain_span 64 0)).driver.playback_addr 32) = 255 := by
  decide

/-- Within the word (channel below 31) `alsa_driver_mark_channel_done` clears the bit of that
channel only and resets the silence counter of that channel only. -/
theorem mark_done_clears_only (w : Nat) (d : alsa_driver_t) (p : Nat) (hw : 32 ≤ w)
    (hp : p < 31) :
    (∀ i, (alsa_driver_mark_channel_done w d p).channels_not_done.testBit i =
      (d.channels_not_done.testBit i && (decide (i < w) && !decide (p = i)))) ∧
    (alsa_driver_mark_channel_done w d p).silent p = 0 ∧
    (∀ q, q ≠ p → (alsa_driver_mark_channel_done w d p).silent q = d.silent q) ∧
    bookkeeping_only d (alsa_driver_mark_channel_done w d p) := by
  refine ⟨fun i => testBit_and_chn_bit_compl w _ p i hw hp, ?_, ?_, rfl⟩
  · show Function.update d.silent p 0 p = 0
    rw [Function.update_same]
  · intro q hq
    show Function.update d.silent p 0 q = d.silent q
    rw [Function.update_noteq hq]

/-! ## Software monitoring of a span -/

theorem copies_mark_done (w n : Nat) (hw : 32 ≤ w) (c : Nat) (l : List Nat)
    (hl : ∀ q, q ∈ l → q < 31) (s : alsa_driver_t × Mem)
    (h : c ∈ l ∨ (s.1.channels_not_done.testBit c = false ∧ s.1.silent c = 0)) :
    (l.foldl (fun (s : alsa_driver_t × Mem) chn => alsa_driver_copy_channel w s.1 s.2 chn chn n)
        s).1.channels_not_done.testBit c = false ∧
    (l.foldl (fun (s : alsa_driver_t × Mem) chn => alsa_driver_copy_channel w s.1 s.2 chn chn n)
        s).1.silent c = 0 := by
  induction l generalizing s with
  | nil =>
    rcases h with h | h
    · cases h
    · exact h
  | cons a l ih =>
    rw [List.foldl_cons]
    have ha : a < 31 := hl a (List.mem_cons_self a l)
    obtain ⟨hbits, hs0, hsq, _⟩ := mark_done_clears_only w s.1 a hw ha
    apply ih (fun q hq => hl q (List.mem_cons_of_mem a hq))
    by_cases hca : c = a
    · right
      subst hca
      constructor
      · show (alsa_driver_mark_channel_done w s.1 c).channels_not_done.testBit c = false
        rw [hbits]; simp
      · exact hs0
    · rcases h with h | h
      · rcases List.mem_cons.mp h with h | h
        · exact absurd h hca
        · exact Or.inl h
      · right
        constructor
        · show (alsa_driver_mark_channel_done w s.1 a).channels_not_done.testBit c = false
          rw [hbits, h.1]; rfl
        · show (alsa_driver_mark_channel_done w s.1 a).silent c = 0
          rw [hsq c hca]; exact h.2

theorem silence_step_keeps_clear (w n : Nat) (s : alsa_driver_t × Mem) (a c : Nat)
    (h : s.1.channels_not_done.testBit c = false) :
    (silence_untouched_step w n s a).1.channels_not_done.testBit c = false := by
  unfold silence_untouched_step
  split_ifs
  · show (s.1.channels_not_done &&& chn_bit_compl w a).testBit c = false
    rw [Nat.testBit_and, h]; rfl
  · exact h
  · exact h

/-- A channel whose bit in `channels_not_done` is clear is passed over by the loop of
`alsa_driver_silence_untouched_channels`: the loop is the loop without that channel. -/
theorem silence_loop_skips (w n : Nat) (hw : 32 ≤ w) (c : Nat) (hc : c < 31) (l : List Nat)
    (s : alsa_driver_t × Mem) (h : s.1.channels_not_done.testBit c = false) :
    l.foldl (silence_untouched_step w n) s =
      (l.filter (fun q => decide (q ≠ c))).foldl (silence_untouched_step w n) s := by
  induction l generalizing s with
  | nil => rfl
  | cons a l ih =>
    rw [List.foldl_cons, List.filter_cons]
    by_cases hac : a = c
    · subst hac
      have hz : ¬ (s.1.channels_not_done &&& chn_bit w a ≠ 0) := by
        rw [and_chn_bit_ne_zero_iff w _ a hw hc, h]; simp
      have hstep : silence_untouched_step w n s a = s := by
        unfold silence_untouched_step
        rw [if_neg hz]
      rw [hstep, if_neg (by simp)]
      exact ih s h
    · rw [if_pos (by simpa using hac), List.foldl_cons]
      exact ih _ (silence_step_keeps_clear w n s a c h)

theorem monitor_copy_channels_mem (w : Nat) (d : alsa_driver_t) (hw : 32 ≤ w)
    (hP : d.playback_nchannels ≤ 31) (hh : d.hw_monitoring = false) (c : Nat) :
    c ∈ monitor_copy_channels w d ↔
      (c < d.playback_nchannels ∧
        (d.all_monitor_in = true ∨ d.input_monitor_mask.testBit c = true)) := by
  unfold monitor_copy_channels
  rw [if_pos (by rw [hh]; rfl)]
  by_cases ha : d.all_monitor_in = true
  · rw [if_pos ha, List.mem_range]
    exact ⟨fun h => ⟨h, Or.inl ha⟩, fun h => h.1⟩
  · rw [if_neg ha]
    by_cases hm : d.input_monitor_mask ≠ 0
    · rw [if_pos hm, List.mem_filter, List.mem_range, decide_eq_true_iff]
      constructor
      · rintro ⟨h1, h2⟩
        exact ⟨h1, Or.inr ((and_chn_bit_ne_zero_iff w _ c hw (by omega)).mp h2)⟩
      · rintro ⟨h1, h2 | h2⟩
        · exact absurd h2 ha
        · exact ⟨h1, (and_chn_bit_ne_zero_iff w _ c hw (by omega)).mpr h2⟩
    · rw [if_neg hm]
      have hz : d.input_monitor_mask = 0 := by
        by_contra h; exact hm h
      constructor
      · intro h; cases h
      · rintro ⟨_, h2 | h2⟩
        · exact absurd h2 ha
        · rw [hz, Nat.zero_testBit] at h2; cases h2

theorem copies_mem (w n : Nat) (d : alsa_driver_t) (l : List Nat) :
    ∀ s : alsa_driver_t × Mem, bookkeeping_only d s.1 →
      (l.foldl (fun (s : alsa_driver_t × Mem) chn =>
          alsa_driver_copy_channel w s.1 s.2 chn chn n) s).2 =
        l.foldl (fun (mem : Mem) chn =>
          d.channel_copy mem (d.playback_addr chn) (d.capture_addr chn)
            (ulong_wrap w (n * d.sample_bytes)) d.playback_interleave_skip
            d.capture_interleave_skip) s.2 := by
  induction l with
  | nil => intro s _; rfl
  | cons a l ih =>
    intro s hs
    rw [List.foldl_cons, List.foldl_cons,
      ih _ (bookkeeping_only_trans hs (bookkeeping_only_mark_done w s.1 a))]
    unfold bookkeeping_only at hs
    show List.foldl _ (s.1.channel_copy s.2 (s.1.playback_addr a) (s.1.capture_addr a)
      (ulong_wrap w (n * s.1.sample_bytes)) s.1.playback_interleave_skip
      s.1.capture_interleave_skip) l = _
    rw [hs]

set_option maxRecDepth 100000 in
/-- C19 (the code at the failing input). A driver configured for 33 channels per stream (32 bit
`unsigned long`), hardware monitoring off, `all_monitor_in` false, one monitor request for
channel 0, copy routines that copy bytes, capture memory all 7 and playback memory all 255.
Channel 32 is not selected (the mask has no bit 32), yet in a span of 64 frames the monitoring
code calls `alsa_driver_copy_channel` for the channels 0 and 32, because `1<<32` tests bit 0 of
the mask: afterwards the 128 bytes of playback channel 32 hold the capture data (7), like those
of the selected channel 0, while the unselected channel 1 is silenced (0). -/
theorem monitor_copy_beyond_word :
    wide_copying_driver.playback_nchannels = 33 ∧
    wide_copying_driver.capture_nchannels = 33 ∧
    wide_copying_driver.hw_monitoring = false ∧
    wide_copying_driver.all_monitor_in = false ∧
    wide_copying_driver.input_monitor_mask = 1 ∧
    wide_copying_driver.input_monitor_mask.testBit 32 = false ∧
    monitor_copy_channels 32 wide_copying_driver = [0, 32] ∧
    (wait_iteration 32 wide_copying_driver wide_memory 64 0 0 wide_span).ret = none ∧
    (wait_iteration 32 wide_copying_driver wide_memory 64 0 0 wide_span).mem
      (1048576 + 4096 * 0) = 7 ∧
    (wait_iteration 32 wide_copying_driver wide_memory 64 0 0 wide_span).mem
      (1048576 + 4096 * 1) = 0 ∧
    (wait_iteration 32 wide_copying_driver wide_memory 64 0 0 wide_span).mem
      (1048576 + 4096 * 32) = 7 ∧
    (wait_iteration 32 wide_copying_driver wide_memory 64 0 0 wide_span).mem
      (1048576 + 4096 * 32 + 127) = 7 ∧
    (wait_iteration 32 wide_copying_driver wide_memory 64 0 0 wide_span).mem
      (1048576 + 4096 * 32 + 128) = 255 := by
  decide

/-- Software monitoring step of a span within the word (at most 31 playback channels; this
supports C19).  The step is the sequence of calls `alsa_driver_copy_channel (driver, c, c, n)`
for the channels of `monitor_copy_channels`, and memory afterwards is what the calls
`driver->channel_copy (playback_addr[c], capture_addr[c], n * sample_bytes, ...)` for these
channels leave, in that order.  With hardware monitoring off these are exactly the channels
`c < P` that are selected (`all_monitor_in` true, or bit `c` of `input_monitor_mask` set); for
each of them bit `c` of `channels_not_done` is clear and `silent[c] = 0` after the step, and the
loop of `alsa_driver_silence_untouched_channels` that follows passes the channel over.  With
hardware monitoring on the step copies nothing and leaves driver and memory as they are. -/
theorem monitor_step_copies_selected (w : Nat) (d : alsa_driver_t) (m : Mem) (n : Nat)
    (hw : 32 ≤ w) (hP : d.playback_nchannels ≤ 31) :
    monitor_inputs w d m n =
      (monitor_copy_channels w d).foldl
        (fun (s : alsa_driver_t × Mem) chn => alsa_driver_copy_channel w s.1 s.2 chn chn n)
        (d, m) ∧
    (monitor_inputs w d m n).2 =
      (monitor_copy_channels w d).foldl
        (fun (mem : Mem) chn =>
          d.channel_copy mem (d.playback_addr chn) (d.capture_addr chn)
            (ulong_wrap w (n * d.sample_bytes)) d.playback_interleave_skip
            d.capture_interleave_skip) m ∧
    (d.hw_monitoring = false →
      ∀ c, (c ∈ monitor_copy_channels w d ↔
        (c < d.playback_nchannels ∧
          (d.all_monitor_in = true ∨ d.input_monitor_mask.testBit c = true)))) ∧
    (d.hw_monitoring = false →
      ∀ c, c < d.playback_nchannels →
        (d.all_monitor_in = true ∨ d.input_monitor_mask.testBit c = true) →
        (monitor_inputs w d m n).1.channels_not_done.testBit c = false ∧
        (monitor_inputs w d m n).1.silent c = 0 ∧
        alsa_driver_silence_untouched_channels w (monitor_inputs w d m n).1
            (monitor_inputs w d m n).2 n =
          ((List.range d.playback_nchannels).filter (fun q => decide (q ≠ c))).foldl
            (silence_untouched_step w n) (monitor_inputs w d m n)) ∧
    (d.hw_monitoring = true →
      monitor_copy_channels w d = [] ∧ monitor_inputs w d m n = (d, m)) := by
  have hlink := monitor_inputs_eq_copies w d m n
  refine ⟨hlink, ?_, fun hh c => monitor_copy_channels_mem w d hw hP hh c, ?_, ?_⟩
  · rw [hlink]
    exact copies_mem w n d _ (d, m) (bookkeeping_only_refl d)
  · intro hh c hc hsel
    have hmem : c ∈ monitor_copy_channels w d :=
      (monitor_copy_channels_mem w d hw hP hh c).mpr ⟨hc, hsel⟩
    have hl : ∀ q, q ∈ monitor_copy_channels w d → q < 31 := fun q hq =>
      lt_of_lt_of_le (monitor_copy_channels_lt_playback w d q hq) hP
    have hdone := copies_mark_done w n hw c (monitor_copy_channels w d) hl (d, m) (Or.inl hmem)
    rw [← hlink] at hdone
    refine ⟨hdone.1, hdone.2, ?_⟩
    have hbk : bookkeeping_only d (monitor_inputs w d m n).1 := by
      rw [hlink]
      exact bookkeeping_only_foldl _ (fun s a => bookkeeping_only_mark_done w s.1 a) _ (d, m)
    unfold alsa_driver_silence_untouched_channels
    rw [(bookkeeping_only_layout hbk).2.1]
    exact silence_loop_skips w n hw c (by omega) _ _ hdone.1
  · intro hh
    constructor
    · unfold monitor_copy_channels
      rw [if_neg (by rw [hh]; simp)]
    · unfold monitor_inputs
      rw [if_neg (by rw [hh]; simp)]

/-- Instance of the monitoring step within the word: four channels, hardware monitoring off, one
monitor request for channel 3.  Channel 3 is the one channel copied; after the step its bit is
clear and its silence counter is 0. -/
theorem monitor_step_copies_selected_witness :
    (32 ≤ 32 ∧ monitoring_driver.playback_nchannels ≤ 31 ∧
      monitoring_driver.hw_monitoring = false ∧ 3 < monitoring_driver.playback_nchannels ∧
      monitoring_driver.input_monitor_mask.testBit 3 = true) ∧
    (monitor_inputs 32 { monitoring_driver with channels_not_done := 15 } (fun _ => 0)
      64).1.channels_not_done.testBit 3 = false ∧
    (3 ∈ monitor_copy_channels 32 { monitoring_driver with channels_not_done := 15 } ↔
      (3 < 4 ∧ (false = true ∨ (8 : Nat).testBit 3 = true))) :=
  ⟨⟨by decide, by decide, by decide, by decide, by decide⟩,
   ((monitor_step_copies_selected 32 { monitoring_driver with channels_not_done := 15 }
      (fun _ => 0) 64 (by decide) (by decide)).2.2.2.1 (by decide) 3 (by decide)
      (Or.inr (by decide))).1,
   (monitor_step_copies_selected 32 { monitoring_driver with channels_not_done := 15 }
      (fun _ => 0) 64 (by decide) (by decide)).2.2.1 (by decide) 3⟩

/-! ## Unbalanced monitor-off, mmap errors, clock sync data -/

/-- C24. Unbalanced monitor-off: for a channel `c < max_nchannels` whose request count is 0,
`request_monitor_input (c, off)` leaves the count at 0 (no decrement is made, so the unsigned
counter does not wrap), leaves `input_monitor_mask` and `silence_pending` unchanged and sends no
notification; the driver record as a whole is unchanged. -/
theorem monitor_off_at_zero (w : Nat) (d : alsa_driver_t) (c : Nat)
    (hc : c < d.max_nchannels) (h0 : d.input_monitor_requests c = 0) :
    (alsa_driver_request_monitor_input w d c false).1.input_monitor_requests c = 0 ∧
    (alsa_driver_request_monitor_input w d c false).1.input_monitor_mask =
      d.input_monitor_mask ∧
    (alsa_driver_request_monitor_input w d c false).1.silence_pending = d.silence_pending ∧
    (alsa_driver_request_monitor_input w d c false).2 = [] ∧
    (alsa_driver_request_monitor_input w d c false).1 = d := by
  rw [request_off_zero w d c hc h0]
  exact ⟨h0, rfl, rfl, rfl, rfl⟩

/-- Instance of C24: four channels, no request outstanding for channel 2. -/
theorem monitor_off_at_zero_witness :
    (2 < monitoring_driver.max_nchannels ∧ monitoring_driver.input_monitor_requests 2 = 0) ∧
    (alsa_driver_request_monitor_input 32 monitoring_driver 2 false).1.input_monitor_requests 2
      = 0 ∧
    (alsa_driver_request_monitor_input 32 monitoring_driver 2 false).2 = [] :=
  ⟨⟨by decide, by decide⟩,
   (monitor_off_at_zero 32 monitoring_driver 2 (by decide) (by decide)).1,
   (monitor_off_at_zero 32 monitoring_driver 2 (by decide) (by decide)).2.2.2.1⟩

/-- C21 (the code at the failing input). `snd_pcm_mmap_begin` fails on the capture stream with
`-EPIPE` (or on the playback stream, or on both): `alsa_driver_get_channel_addresses` returns 0,
not -1, because the result is held in an `unsigned long` before it is compared with 0.  The
pass of the loop goes on with the areas it had: `engine->process` is called for 64 frames, 64
frames are committed on both streams, and `alsa_driver_wait` returns 0. -/
theorem mmap_begin_error_not_reported :
    (alsa_driver_get_channel_addresses 32 stereo_driver (some (64, 0)) (some (64, 0))
      (MmapReply.error (-32)) (plain_span 64 0).playback_begin).ret = 0 ∧
    (alsa_driver_get_channel_addresses 32 stereo_driver (some (64, 0)) (some (64, 0))
      (plain_span 64 0).capture_begin (MmapReply.error (-32))).ret = 0 ∧
    (alsa_driver_get_channel_addresses 32 stereo_driver (some (64, 0)) (some (64, 0))
      (MmapReply.error (-32)) (MmapReply.error (-32))).ret = 0 ∧
    (wait_iteration 32 stereo_driver (fun _ => 0) 64 0 0 capture_begin_fails).ret = none ∧
    (wait_iteration 32 stereo_driver (fun _ => 0) 64 0 0 capture_begin_fails).events =
      [Event.mmap_begin Stream.capture 64, Event.mmap_begin Stream.playback 64,
       Event.process 64, Event.mmap_commit Stream.capture 0 64,
       Event.mmap_commit Stream.playback 0 64] ∧
    (alsa_driver_wait 32 stereo_driver (fun _ => 0) begin_fails_env).map
      (fun r => r.outcome) = some (Outcome.returned 0) := by
  decide

/-- The allocation requested for `clock_sync_data` is one of the two channel counts, in bytes:
at most `max C P`, and for a `ClockSyncStatus` of two bytes or more and at least one channel
less than `size * max C P`. -/
theorem clock_sync_data_bytes_small (w size : Nat) (d : alsa_driver_t) :
    clock_sync_data_bytes w size d ≤ max d.capture_nchannels d.playback_nchannels ∧
    (2 ≤ size → 0 < max d.capture_nchannels d.playback_nchannels →
      clock_sync_data_bytes w size d <
        size * max d.capture_nchannels d.playback_nchannels) := by
  have hle : clock_sync_data_bytes w size d ≤ max d.capture_nchannels d.playback_nchannels := by
    unfold clock_sync_data_bytes
    split_ifs
    · exact le_max_left _ _
    · exact le_max_right _ _
  refine ⟨hle, fun hs hm => lt_of_le_of_lt hle ?_⟩
  calc max d.capture_nchannels d.playback_nchannels
      < 2 * max d.capture_nchannels d.playback_nchannels := by omega
    _ ≤ size * max d.capture_nchannels d.playback_nchannels := Nat.mul_le_mul_right _ hs

/-- C22 (the code at the failing input). Two capture and two playback channels negotiated, a
`ClockSyncStatus` of 4 bytes: the size passed to `malloc` is 2 bytes, where one status per
channel takes `4 * max 2 2 = 8`; the store of `alsa_driver_set_clock_sync_status` for channel 0
ends at byte 4 and the one for channel 1 covers the bytes 4..7, both past the 2 bytes
requested. -/
theorem clock_sync_data_too_small :
    configured_stereo.capture_nchannels = 2 ∧ configured_stereo.playback_nchannels = 2 ∧
    clock_sync_data_bytes 32 4 configured_stereo = 2 ∧
    4 * max configured_stereo.capture_nchannels configured_stereo.playback_nchannels = 8 ∧
    alsa_driver_set_clock_sync_status 4 0 = (0, 4) ∧
    alsa_driver_set_clock_sync_status 4 1 = (4, 8) ∧
    ¬ (alsa_driver_set_clock_sync_status 4 0).2 ≤ clock_sync_data_bytes 32 4 configured_stereo ∧
    ¬ (alsa_driver_set_clock_sync_status 4 1).2 ≤
      clock_sync_data_bytes 32 4 configured_stereo := by
  decide

/-! ## Termination of the processing loop -/

theorem loop_passes_append (a b : List Event) :
    loop_passes (a ++ b) = loop_passes a + loop_passes b := by
  simp [loop_passes, List.filter_append]

theorem committed_frames_append (s : Stream) (a b : List Event) :
    committed_frames s (a ++ b) = committed_frames s a + committed_frames s b := by
  simp [committed_frames, List.map_append, List.sum_append]

theorem bookkeeping_only_write_ports (w n : Nat) (ports : List jack_port_t) :
    ∀ (chn : Nat) (s : alsa_driver_t × Mem),
      bookkeeping_only s.1 (write_ports w n ports chn s).1 := by
  induction ports with
  | nil => intro chn s; exact bookkeeping_only_refl _
  | cons port rest ih =>
    intro chn s
    unfold write_ports
    split_ifs
    · exact ih (chn + 1) s
    · exact bookkeeping_only_trans (bookkeeping_only_mark_done w s.1 chn) (ih (chn + 1) _)

theorem bookkeeping_only_silence_step (w n : Nat) (s : alsa_driver_t × Mem) (chn : Nat) :
    bookkeeping_only s.1 (silence_untouched_step w n s chn).1 := by
  unfold silence_untouched_step
  split_ifs
  · rfl
  · exact bookkeeping_only_refl _
  · exact bookkeeping_only_refl _

theorem bookkeeping_only_finish_span (w : Nat) (d : alsa_driver_t) (m : Mem) (n : Nat) :
    bookkeeping_only d (finish_span w d m n).1 := by
  have h1 := bookkeeping_only_write_ports w n d.playback_ports 0 (d, m)
  have h2 : ∀ s : alsa_driver_t × Mem, bookkeeping_only s.1 (monitor_inputs w s.1 s.2 n).1 := by
    intro s
    rw [monitor_inputs_eq_copies]
    exact bookkeeping_only_foldl _ (fun s a => bookkeeping_only_mark_done w s.1 a) _ _
  have h3 : ∀ s : alsa_driver_t × Mem,
      bookkeeping_only s.1 (alsa_driver_silence_untouched_channels w s.1 s.2 n).1 := by
    intro s
    unfold alsa_driver_silence_untouched_channels
    exact bookkeeping_only_foldl _ (fun s a => bookkeeping_only_silence_step w n s a) _ _
  unfold finish_span
  simp only
  split_ifs
  · exact bookkeeping_only_trans h1 (bookkeeping_only_trans (h2 _) (h3 _))
  · exact bookkeeping_only_trans h1 (h2 _)

theorem bookkeeping_only_frames_per_cycle {d d' : alsa_driver_t} (h : bookkeeping_only d d') :
    d'.frames_per_cycle = d.frames_per_cycle ∧ d'.engine = d.engine := by
  unfold bookkeeping_only at h
  constructor <;> rw [h]

theorem contiguous_long (w cf pf : Nat) (hcs : cf < 2 ^ (w - 1)) (hps : pf < 2 ^ (w - 1)) :
    (if long_of_ulong w cf < long_of_ulong w pf then long_of_ulong w cf
      else long_of_ulong w pf) = ((min cf pf : Nat) : Int) := by
  rw [long_of_ulong_small w cf hcs, long_of_ulong_small w pf hps]
  split_ifs with h
  · have : cf < pf := by exact_mod_cast h
    rw [Nat.min_eq_left (le_of_lt this)]
  · have : ¬ cf < pf := by exact_mod_cast h
    rw [Nat.min_eq_right (by omega)]

theorem hw_push_trace (d : alsa_driver_t) (c : Prop) [Decidable c] (mask : Nat) :
    (if c then hw_set_mask d mask else (d, [])).1.frames_per_cycle = d.frames_per_cycle ∧
    (if c then hw_set_mask d mask else (d, [])).1.engine = d.engine ∧
    loop_passes (if c then hw_set_mask d mask else (d, [])).2 = 0 ∧
    ∀ s, committed_frames s (if c then hw_set_mask d mask else (d, [])).2 = 0 := by
  split_ifs
  · exact ⟨rfl, rfl, rfl, fun _ => rfl⟩
  · exact ⟨rfl, rfl, rfl, fun _ => rfl⟩

/-- A pass of the loop in which both `snd_pcm_mmap_begin` calls succeed and `engine->process`
returns 0 (or no engine is attached) reaches the commits: `contiguous` is the smaller of the two
counts granted, that count is committed on both streams, and `frames_per_cycle` is as before. -/
theorem wait_iteration_granted (w : Nat) (d : alsa_driver_t) (m : Mem) (avail : Int)
    (coff poff : Nat) (e : SpanEnv)
    (careas pareas : Nat → snd_pcm_channel_area_t) (co cf po pf : Nat)
    (hc : e.capture_begin = MmapReply.ok careas co cf)
    (hp : e.playback_begin = MmapReply.ok pareas po pf)
    (hcs : cf < 2 ^ (w - 1)) (hps : pf < 2 ^ (w - 1)) (hret : e.process_ret = 0) :
    ∃ (d1 : alsa_driver_t) (m1 : Mem) (evs : List Event),
      wait_iteration w d m avail coff poff e =
        ⟨none, d1, m1, evs, ((min cf pf : Nat) : Int), co, po⟩ ∧
      d1.frames_per_cycle = d.frames_per_cycle ∧ loop_passes evs = 1 ∧
      committed_frames Stream.capture evs = min cf pf ∧
      committed_frames Stream.playback evs = min cf pf := by
  have hn := contiguous_frames w cf pf hcs hps
  have hl := contiguous_long w cf pf hcs hps
  unfold wait_iteration
  rw [hc, hp]
  simp only [get_channel_addresses_ok, Option.getD_some, hl, lt_self_iff_false, if_false, hret,
    ne_eq, not_true_eq_false, and_false]
  rw [hl] at hn
  simp only [hn]
  have hfr := bookkeeping_only_apply_silence_pending w
    { d with capture_areas := careas,
             capture_addr := fun chn =>
               if chn < d.capture_nchannels then area_addr w (careas chn) co
               else d.capture_addr chn,
             playback_areas := pareas,
             playback_addr := fun chn =>
               if chn < d.playback_nchannels then area_addr w (pareas chn) po
               else d.playback_addr chn } m (min cf pf)
  have he1 := (bookkeeping_only_frames_per_cycle hfr).1
  simp only at he1
  generalize apply_silence_pending w _ m (min cf pf) = s1 at he1 ⊢
  clear hfr
  have hh := hw_push_trace { s1.1 with channels_not_done := s1.1.channel_done_bits }
    (s1.1.hw_input_monitor_mask ≠ s1.1.input_monitor_mask ∧ s1.1.hw_monitoring = true ∧
      (!s1.1.all_monitor_in) = true) s1.1.input_monitor_mask
  simp only at hh
  generalize (if s1.1.hw_input_monitor_mask ≠ s1.1.input_monitor_mask ∧
      s1.1.hw_monitoring = true ∧ (!s1.1.all_monitor_in) = true
    then hw_set_mask { s1.1 with channels_not_done := s1.1.channel_done_bits }
      s1.1.input_monitor_mask
    else ({ s1.1 with channels_not_done := s1.1.channel_done_bits }, [])) = h at hh ⊢
  obtain ⟨hh1, _, hh3, hh4⟩ := hh
  generalize hm3 : (if h.1.engine = true then e.process_mem s1.2 else s1.2) = m3
  have hfs := (bookkeeping_only_frames_per_cycle
    (bookkeeping_only_finish_span w h.1 m3 (min cf pf))).1
  refine ⟨_, _, _, rfl, by rw [hfs, hh1, he1], ?_, ?_, ?_⟩
  · split_ifs <;>
      (simp only [loop_passes_append, hh3]; rfl)
  · split_ifs <;>
      (simp only [committed_frames_append, hh4]; simp [committed_frames])
  · split_ifs <;>
      (simp only [committed_frames_append, hh4]; simp [committed_frames])

theorem requested_le (w fpc a : Nat) (ha : a < 2 ^ (w - 1)) :
    ulong_of_int w (if ulong_of_int w (a : Int) > fpc then long_of_ulong w fpc else (a : Int))
      ≤ a := by
  have h2 : (2 : Nat) ^ (w - 1) ≤ 2 ^ w := Nat.pow_le_pow_right (by norm_num) (Nat.sub_le _ _)
  have hua : ulong_of_int w (a : Int) = a := ulong_of_int_natCast w a (by omega)
  rw [hua]
  split_ifs with h
  · rw [long_of_ulong_small w fpc (by omega), ulong_of_int_natCast w fpc (by omega)]
    omega
  · rw [hua]

theorem wait_loop_granted (w : Nat) (spans : List SpanEnv) :
    ∀ (d : alsa_driver_t) (m : Mem) (a coff poff : Nat), a < 2 ^ (w - 1) → a ≤ spans.length →
      spans_grant w d.frames_per_cycle (a : Int) spans = true →
      ∃ c, wait_loop w spans d m (a : Int) coff poff = some c ∧ c.ret = 0 ∧
        loop_passes c.events ≤ a ∧ committed_frames Stream.capture c.events = a ∧
        committed_frames Stream.playback c.events = a := by
  induction spans with
  | nil =>
    intro d m a coff poff _ hlen _
    have ha : a = 0 := by simpa using hlen
    subst ha
    refine ⟨⟨0, d, m, []⟩, ?_, rfl, ?_, rfl, rfl⟩
    · unfold wait_loop; simp
    · exact Nat.le_refl _
  | cons e rest ih =>
    intro d m a coff poff hlong hlen hg
    by_cases ha : a = 0
    · subst ha
      refine ⟨⟨0, d, m, []⟩, ?_, rfl, ?_, rfl, rfl⟩
      · unfold wait_loop; simp
      · exact Nat.le_refl _
    · have haz : ¬ ((a : Int) = 0) := by exact_mod_cast ha
      have hreq := requested_le w d.frames_per_cycle a hlong
      unfold spans_grant at hg
      rw [if_neg haz] at hg
      cases hcb : e.capture_begin with
      | error code => rw [hcb] at hg; simp [MmapReply.granted] at hg
      | ok careas co cf =>
        cases hpb : e.playback_begin with
        | error code => rw [hcb, hpb] at hg; simp [MmapReply.granted] at hg
        | ok pareas po pf =>
          rw [hcb, hpb] at hg
          simp only [MmapReply.granted, Bool.and_eq_true, decide_eq_true_eq] at hg
          obtain ⟨⟨hcf1, hcf2, hpf1, hpf2, hret⟩, hrest⟩ := hg
          have hcfa : cf ≤ a := le_trans hcf2 hreq
          have hpfa : pf ≤ a := le_trans hpf2 hreq
          obtain ⟨d1, m1, evs, hit, hfpc, hpass, hcc, hcp⟩ :=
            wait_iteration_granted w d m (a : Int) coff poff e careas pareas co cf po pf
              hcb hpb (by omega) (by omega) hret
          have hmin : min cf pf ≤ a := le_trans (Nat.min_le_left _ _) hcfa
          have hmin1 : 1 ≤ min cf pf := Nat.le_min.mpr ⟨hcf1, hpf1⟩
          have hsub : (a : Int) - ((min cf pf : Nat) : Int) = ((a - min cf pf : Nat) : Int) := by
            rw [Nat.cast_sub hmin]
          rw [hsub, ← hfpc] at hrest
          have hlen2 : a - min cf pf ≤ rest.length := by
            simp only [List.length_cons] at hlen
            omega
          obtain ⟨c, hc, hc0, hcpass, hccap, hcplay⟩ :=
            ih d1 m1 (a - min cf pf) co po (by omega) hlen2 hrest
          refine ⟨⟨c.ret, c.driver, c.mem, evs ++ c.events⟩, ?_, hc0, ?_, ?_, ?_⟩
          · unfold wait_loop
            rw [if_neg haz]
            simp only [hit, hsub, hc]
          · rw [loop_passes_append, hpass]; omega
          · rw [committed_frames_append, hcc, hccap]; omega
          · rw [committed_frames_append, hcp, hcplay]; omega

/-- C23. Termination of the processing loop.  For every initial `avail > 0` (a `long`), with at
least `avail` replies at hand and every pass served within bounds (both `snd_pcm_mmap_begin`
calls grant a contiguous count between 1 and the count requested, `engine->process` returns 0),
the loop of `alsa_driver_wait` ends with `return 0`, that is with `avail = 0`, after at most
`avail` passes, and the frame counts committed on the capture stream and on the playback stream
each add up to the initial `avail`. -/
theorem wait_loop_terminates (w : Nat) (d : alsa_driver_t) (m : Mem) (avail : Int)
    (coff poff : Nat) (spans : List SpanEnv)
    (hpos : 0 < avail) (hlong : avail < 2 ^ (w - 1)) (hfuel : avail ≤ spans.length)
    (hg : spans_grant w d.frames_per_cycle avail spans = true) :
    ∃ c, wait_loop w spans d m avail coff poff = some c ∧ c.ret = 0 ∧
      (loop_passes c.events : Int) ≤ avail ∧
      (committed_frames Stream.capture c.events : Int) = avail ∧
      (committed_frames Stream.playback c.events : Int) = avail := by
  obtain ⟨a, rfl⟩ := Int.eq_ofNat_of_zero_le (le_of_lt hpos)
  have hlong2 : a < 2 ^ (w - 1) := by exact_mod_cast hlong
  have hfuel2 : a ≤ spans.length := by exact_mod_cast hfuel
  obtain ⟨c, h1, h2, h3, h4, h5⟩ := wait_loop_granted w spans d m a coff poff hlong2 hfuel2 hg
  exact ⟨c, h1, h2, by exact_mod_cast h3, by exact_mod_cast h4, by exact_mod_cast h5⟩

set_option maxRecDepth 100000 in
/-- Instance of C23: the stereo driver, 100 frames available; the loop ends after two passes of
64 and 36 frames. -/
theorem wait_loop_terminates_witness :
    ((0 : Int) < 100 ∧ (100 : Int) < 2 ^ (32 - 1) ∧ (100 : Int) ≤ uneven_spans.length ∧
      spans_grant 32 stereo_driver.frames_per_cycle 100 uneven_spans = true) ∧
    ∃ c, wait_loop 32 uneven_spans stereo_driver (fun _ => 0) 100 0 0 = some c ∧ c.ret = 0 ∧
      (loop_passes c.events : Int) ≤ 100 ∧
      (committed_frames Stream.capture c.events : Int) = 100 ∧
      (committed_frames Stream.playback c.events : Int) = 100 :=
  ⟨⟨by decide, by decide, by decide, by decide⟩,
   wait_loop_terminates 32 stereo_driver (fun _ => 0) 100 0 0 uneven_spans
     (by decide) (by decide) (by decide) (by decide)⟩

/-! ## Xrun recovery: the calls of the stop and start sequences -/

theorem andThen_of_ret_zero (c : Call) (f : alsa_driver_t → Mem → Call) (h : c.ret = 0) :
    c.andThen f =
      ⟨(f c.driver c.mem).ret, (f c.driver c.mem).driver, (f c.driver c.mem).mem,
        c.events ++ (f c.driver c.mem).events⟩ := by
  unfold Call.andThen
  rw [if_neg (by simp [h])]

theorem andThen_of_ret_ne_zero (c : Call) (f : alsa_driver_t → Mem → Call) (h : c.ret ≠ 0) :
    c.andThen f = c := by
  unfold Call.andThen
  rw [if_pos h]

theorem andThen_head (c : Call) (f : alsa_driver_t → Mem → Call) (ev : Event)
    (h : ∃ tail, c.events = ev :: tail) : ∃ tail, (c.andThen f).events = ev :: tail := by
  obtain ⟨tail, ht⟩ := h
  unfold Call.andThen
  split_ifs
  · exact ⟨tail, ht⟩
  · exact ⟨tail ++ (f c.driver c.mem).events, by simp [ht]⟩

/-- Stop sequence, every call succeeding: `snd_pcm_drop` on the playback stream, on the capture
stream when the streams are not linked, then the hardware monitor mask is set to 0. -/
theorem audio_stop_ok (d : alsa_driver_t) (m : Mem) (e : StopEnv)
    (h1 : 0 ≤ e.drop_playback)
    (h2 : d.capture_and_playback_not_synced = true → 0 ≤ e.drop_capture) :
    alsa_driver_audio_stop d m e =
      ⟨0, { d with hw_input_monitor_mask :=
              d.hw_set_input_monitor_mask d.hw_input_monitor_mask 0 }, m,
        [Event.pcm_drop Stream.playback] ++
          (if d.capture_and_playback_not_synced then [Event.pcm_drop Stream.capture] else []) ++
          [Event.set_input_monitor_mask 0]⟩ := by
  unfold alsa_driver_audio_stop hw_set_mask
  rw [if_neg (not_lt.mpr h1)]
  cases hs : d.capture_and_playback_not_synced
  · simp
  · simp [not_lt.mpr (h2 hs)]

/-- Stop sequence, a `snd_pcm_drop` failing: the function returns -1 after that call and leaves
the driver as it was. -/
theorem audio_stop_fail (d : alsa_driver_t) (m : Mem) (e : StopEnv)
    (h : ¬ (0 ≤ e.drop_playback ∧
      (d.capture_and_playback_not_synced = true → 0 ≤ e.drop_capture))) :
    alsa_driver_audio_stop d m e =
      ⟨-1, d, m, [Event.pcm_drop Stream.playback] ++
        (if 0 ≤ e.drop_playback then [Event.pcm_drop Stream.capture] else [])⟩ := by
  unfold alsa_driver_audio_stop
  by_cases h1 : e.drop_playback < 0
  · rw [if_pos h1, if_neg (not_le.mpr h1)]; rfl
  · rw [if_neg h1, if_pos (not_lt.mp h1)]
    have h1' : 0 ≤ e.drop_playback := not_lt.mp h1
    have h2 : ¬ (d.capture_and_playback_not_synced = true → 0 ≤ e.drop_capture) :=
      fun h2 => h ⟨h1', h2⟩
    have hs : d.capture_and_playback_not_synced = true := by
      by_contra hs; exact h2 (fun h3 => absurd h3 hs)
    have hc : e.drop_capture < 0 := by
      by_contra hc; exact h2 (fun _ => not_lt.mp hc)
    rw [if_pos hs, if_pos hc]
    rfl

theorem start_prepare_ok (d : alsa_driver_t) (m : Mem) (e : StartEnv)
    (h1 : 0 ≤ e.prepare_playback)
    (h2 : d.capture_and_playback_not_synced = true → 0 ≤ e.prepare_capture) :
    start_prepare d m e =
      ⟨0, d, m, [Event.pcm_prepare Stream.playback] ++
        (if d.capture_and_playback_not_synced then [Event.pcm_prepare Stream.capture]
         else [])⟩ := by
  unfold start_prepare
  rw [if_neg (not_lt.mpr h1)]
  cases hs : d.capture_and_playback_not_synced
  · simp
  · simp [not_lt.mpr (h2 hs)]

theorem start_prepare_ret (d : alsa_driver_t) (m : Mem) (e : StartEnv) :
    ((start_prepare d m e).ret = 0 ↔
      (0 ≤ e.prepare_playback ∧
        (d.capture_and_playback_not_synced = true → 0 ≤ e.prepare_capture))) ∧
    ∃ tail, (start_prepare d m e).events = Event.pcm_prepare Stream.playback :: tail := by
  unfold start_prepare
  split_ifs with h1 h2 h3
  · exact ⟨Iff.intro (fun h => (by cases h)) (fun h => absurd h.1 (not_le.mpr h1)), _, rfl⟩
  · exact ⟨Iff.intro (fun h => (by cases h)) (fun h => absurd (h.2 h2) (not_le.mpr h3)), _, rfl⟩
  · exact ⟨Iff.intro (fun _ => ⟨not_lt.mp h1, fun _ => not_lt.mp h3⟩) (fun _ => rfl), _, rfl⟩
  · exact ⟨Iff.intro (fun _ => ⟨not_lt.mp h1, fun h => absurd h h2⟩) (fun _ => rfl), _, rfl⟩

theorem start_trigger_ok (d : alsa_driver_t) (m : Mem) (e : StartEnv)
    (h1 : 0 ≤ e.start_playback)
    (h2 : d.capture_and_playback_not_synced = true → 0 ≤ e.start_capture) :
    start_trigger d m e =
      ⟨0, d, m, [Event.pcm_start Stream.playback] ++
        (if d.capture_and_playback_not_synced then [Event.pcm_start Stream.capture]
         else [])⟩ := by
  unfold start_trigger
  rw [if_neg (not_lt.mpr h1)]
  cases hs : d.capture_and_playback_not_synced
  · simp
  · simp [not_lt.mpr (h2 hs)]

theorem start_trigger_ret (d : alsa_driver_t) (m : Mem) (e : StartEnv) :
    (start_trigger d m e).ret = 0 ↔
      (0 ≤ e.start_playback ∧
        (d.capture_and_playback_not_synced = true → 0 ≤ e.start_capture)) := by
  unfold start_trigger
  split_ifs with h1 h2 h3
  · exact Iff.intro (fun h => (by cases h)) (fun h => absurd h.1 (not_le.mpr h1))
  · exact Iff.intro (fun h => (by cases h)) (fun h => absurd (h.2 h2) (not_le.mpr h3))
  · exact Iff.intro (fun _ => ⟨not_lt.mp h1, fun _ => not_lt.mp h3⟩) (fun _ => rfl)
  · exact Iff.intro (fun _ => ⟨not_lt.mp h1, fun h => absurd h h2⟩) (fun _ => rfl)

/-- The loop of `alsa_driver_audio_start` over all playback channels zero-fills `buffer_frames`
frames of each of them and touches the bookkeeping fields only. -/
theorem silence_all_channels_zero (w : Nat) (d : alsa_driver_t) (m : Mem)
    (hil : d.interleaved = true → d.interleave_unit = d.sample_bytes)
    (hnil : d.interleaved = false → d.playback_interleave_skip = d.sample_bytes)
    (hbytes : d.buffer_frames * d.sample_bytes < 2 ^ w) :
    bookkeeping_only d (silence_all_channels w d m).1 ∧
    ∀ p, p < d.playback_nchannels →
      channel_zero_filled d (silence_all_channels w d m).2 p d.buffer_frames := by
  have hbk : ∀ (l : List Nat),
      bookkeeping_only d (l.foldl (fun (s : alsa_driver_t × Mem) chn =>
        alsa_driver_silence_on_channel w s.1 s.2 chn s.1.buffer_frames) (d, m)).1 :=
    fun l => bookkeeping_only_foldl _
      (fun s a => bookkeeping_only_silence w s.1 s.2 a _) l (d, m)
  unfold silence_all_channels
  refine ⟨hbk _, ?_⟩
  have key : ∀ i, i ≤ d.playback_nchannels → ∀ p, p < i →
      channel_zero_filled d ((List.range i).foldl (fun (s : alsa_driver_t × Mem) chn =>
        alsa_driver_silence_on_channel w s.1 s.2 chn s.1.buffer_frames) (d, m)).2 p
        d.buffer_frames := by
    intro i
    induction i with
    | zero => intro _ p hp; omega
    | succ i ih =>
      intro hi p hp
      rw [List.range_succ, List.foldl_append, List.foldl_cons, List.foldl_nil]
      have hb := hbk (List.range i)
      generalize (List.range i).foldl (fun (s : alsa_driver_t × Mem) chn =>
        alsa_driver_silence_on_channel w s.1 s.2 chn s.1.buffer_frames) (d, m) = st at hb ih
      obtain ⟨l1, _, l3, l4, l5, l6, l7⟩ := bookkeeping_only_layout hb
      by_cases hpi : p = i
      · subst hpi
        rw [← channel_zero_filled_congr hb, l1]
        have := silence_on_channel_zero_fill w st.1 st.2 p d.buffer_frames
          (by rw [l4, l5, l3]; exact hil) (by rw [l4, l6, l3]; exact hnil) (by rw [l3]; exact hbytes)
        exact this
      · intro k hk j hj
        exact silence_on_channel_zero_pres w st.1 st.2 i _ _
          (ih (by omega) p (by omega) k hk j hj)
  intro p hp
  exact key d.playback_nchannels (Nat.le_refl _) p hp

theorem hw_push_settings (d : alsa_driver_t) (c : Prop) [Decidable c] (mask : Nat) :
    (if c then hw_set_mask d mask else (d, [])).1 =
      { d with hw_input_monitor_mask :=
                 if c then d.hw_set_input_monitor_mask d.hw_input_monitor_mask mask
                 else d.hw_input_monitor_mask } ∧
    (if c then hw_set_mask d mask else (d, [])).2 =
      (if c then [Event.set_input_monitor_mask mask] else []) := by
  split_ifs
  · exact ⟨rfl, rfl⟩
  · exact ⟨rfl, rfl⟩

/-- The fill block of the start sequence when `snd_pcm_mmap_begin` succeeds and the whole
buffer is available: the monitor mask is pushed when hardware monitoring is on, the addresses
are taken at the offset `snd_pcm_mmap_begin` stored, every channel is silenced over
`buffer_frames` frames and the buffer is committed at that offset. -/
theorem start_fill_ok (w : Nat) (d : alsa_driver_t) (m : Mem) (e : StartEnv)
    (areas : Nat → snd_pcm_channel_area_t) (off fr : Nat)
    (hmm : e.mmap = MmapReply.ok areas off fr)
    (havail : ulong_of_int w e.avail = d.buffer_frames) :
    ∃ hwm : Nat,
    start_fill w d m e =
      ⟨0,
       (silence_all_channels w
          { d with hw_input_monitor_mask := hwm,
                   playback_areas := areas,
                   playback_addr := fun chn =>
                     if chn < d.playback_nchannels then area_addr w (areas chn) off
                     else d.playback_addr chn } m).1,
       (silence_all_channels w
          { d with hw_input_monitor_mask := hwm,
                   playback_areas := areas,
                   playback_addr := fun chn =>
                     if chn < d.playback_nchannels then area_addr w (areas chn) off
                     else d.playback_addr chn } m).2,
       (if d.hw_monitoring then [Event.set_input_monitor_mask d.input_monitor_mask] else []) ++
         [Event.avail_update Stream.playback, Event.mmap_begin Stream.playback d.buffer_frames,
          Event.mmap_commit Stream.playback off d.buffer_frames]⟩ := by
  have hbk : ∀ (x : alsa_driver_t) (mm : Mem),
      (silence_all_channels w x mm).1.buffer_frames = x.buffer_frames := by
    intro x mm
    unfold silence_all_channels
    exact (bookkeeping_only_layout (bookkeeping_only_foldl _
      (fun s a => bookkeeping_only_silence w s.1 s.2 a _) _ (x, mm))).1
  obtain ⟨hp1, hp2⟩ := hw_push_settings d (d.hw_monitoring = true) d.input_monitor_mask
  unfold start_fill
  simp only
  rw [hp2, hp1]
  generalize (if d.hw_monitoring = true then
      d.hw_set_input_monitor_mask d.hw_input_monitor_mask d.input_monitor_mask
    else d.hw_input_monitor_mask) = hwm
  refine ⟨hwm, ?_⟩
  unfold alsa_driver_get_channel_addresses
  rw [hmm]
  simp [havail, hbk]

theorem start_fill_short (w : Nat) (d : alsa_driver_t) (m : Mem) (e : StartEnv)
    (havail : ulong_of_int w e.avail ≠ d.buffer_frames) :
    (start_fill w d m e).ret = -1 := by
  obtain ⟨hp1, _⟩ := hw_push_settings d (d.hw_monitoring = true) d.input_monitor_mask
  unfold start_fill
  simp only
  rw [hp1]
  rw [if_pos havail]

theorem silence_all_channels_sync (w : Nat) (d : alsa_driver_t) (m : Mem) :
    (silence_all_channels w d m).1.capture_and_playback_not_synced =
      d.capture_and_playback_not_synced ∧
    (silence_all_channels w d m).1.hw_monitoring = d.hw_monitoring ∧
    (silence_all_channels w d m).1.input_monitor_mask = d.input_monitor_mask ∧
    (silence_all_channels w d m).1.all_monitor_in = d.all_monitor_in := by
  have h : bookkeeping_only d (silence_all_channels w d m).1 := by
    unfold silence_all_channels
    exact bookkeeping_only_foldl _ (fun s a => bookkeeping_only_silence w s.1 s.2 a _) _ (d, m)
  unfold bookkeeping_only at h
  refine ⟨?_, ?_, ?_, ?_⟩ <;> rw [h]

theorem start_finish_ok (d : alsa_driver_t) (m : Mem) :
    ∃ dF, start_finish d m =
      ⟨0, dF, m,
        (if d.hw_monitoring = true ∧ (d.input_monitor_mask ≠ 0 ∨ d.all_monitor_in = true) then
          [Event.set_input_monitor_mask
            (if d.all_monitor_in = true then all_ones_uint else d.input_monitor_mask)]
         else []) ++ [Event.poll_descriptors]⟩ := by
  unfold start_finish hw_set_mask
  split_ifs <;> exact ⟨_, rfl⟩

/-- The start sequence when `snd_pcm_mmap_begin` succeeds and every other call succeeds with
the whole buffer available: the calls it makes, in order, and the silence it leaves in the
playback buffer. -/
theorem audio_start_ok (w : Nat) (d : alsa_driver_t) (m : Mem) (e : StartEnv)
    (areas : Nat → snd_pcm_channel_area_t) (off fr : Nat)
    (hmm : e.mmap = MmapReply.ok areas off fr)
    (h1 : 0 ≤ e.prepare_playback)
    (h2 : d.capture_and_playback_not_synced = true → 0 ≤ e.prepare_capture)
    (h3 : ulong_of_int w e.avail = d.buffer_frames)
    (h4 : 0 ≤ e.start_playback)
    (h5 : d.capture_and_playback_not_synced = true → 0 ≤ e.start_capture) :
    ∃ dF mF, alsa_driver_audio_start w d m e =
      ⟨0, dF, mF,
        [Event.pcm_prepare Stream.playback] ++
        (if d.capture_and_playback_not_synced then [Event.pcm_prepare Stream.capture]
         else []) ++
        ((if d.hw_monitoring then [Event.set_input_monitor_mask d.input_monitor_mask]
          else []) ++
         [Event.avail_update Stream.playback, Event.mmap_begin Stream.playback d.buffer_frames,
          Event.mmap_commit Stream.playback off d.buffer_frames]) ++
        ([Event.pcm_start Stream.playback] ++
         (if d.capture_and_playback_not_synced then [Event.pcm_start Stream.capture]
          else [])) ++
        ((if d.hw_monitoring = true ∧ (d.input_monitor_mask ≠ 0 ∨ d.all_monitor_in = true) then
           [Event.set_input_monitor_mask
             (if d.all_monitor_in = true then all_ones_uint else d.input_monitor_mask)]
          else []) ++ [Event.poll_descriptors])⟩ ∧
      ((d.interleaved = true → d.interleave_unit = d.sample_bytes) →
        (d.interleaved = false → d.playback_interleave_skip = d.sample_bytes) →
        d.buffer_frames * d.sample_bytes < 2 ^ w →
        ∀ p, p < d.playback_nchannels → ∀ k, k < d.buffer_frames → ∀ j, j < d.sample_bytes →
          mF (area_addr w (areas p) off + k * d.playback_interleave_skip + j) = 0) := by
  obtain ⟨hwm, hfill⟩ := start_fill_ok w d m e areas off fr hmm h3
  have hz := silence_all_channels_zero w
    { d with hw_input_monitor_mask := hwm,
             playback_areas := areas,
             playback_addr := fun chn =>
               if chn < d.playback_nchannels then area_addr w (areas chn) off
               else d.playback_addr chn } m
  have hs := silence_all_channels_sync w
    { d with hw_input_monitor_mask := hwm,
             playback_areas := areas,
             playback_addr := fun chn =>
               if chn < d.playback_nchannels then area_addr w (areas chn) off
               else d.playback_addr chn } m
  simp only at hz hs
  generalize silence_all_channels w _ m = sa at hfill hz hs
  obtain ⟨s1, s2, s3, s4⟩ := hs
  obtain ⟨dF, hfin⟩ := start_finish_ok sa.1 sa.2
  rw [s2, s3, s4] at hfin
  refine ⟨dF, sa.2, ?_, ?_⟩
  · have e1 : ((start_prepare d m e).andThen fun d1 m1 => start_fill w d1 m1 e) =
        ⟨0, sa.1, sa.2,
          ([Event.pcm_prepare Stream.playback] ++
            (if d.capture_and_playback_not_synced then [Event.pcm_prepare Stream.capture]
             else [])) ++
          ((if d.hw_monitoring then [Event.set_input_monitor_mask d.input_monitor_mask]
            else []) ++
           [Event.avail_update Stream.playback,
            Event.mmap_begin Stream.playback d.buffer_frames,
            Event.mmap_commit Stream.playback off d.buffer_frames])⟩ := by
      rw [start_prepare_ok d m e h1 h2, andThen_of_ret_zero _ _ rfl]
      simp only
      rw [hfill]
    have e2 : (((start_prepare d m e).andThen fun d1 m1 => start_fill w d1 m1 e).andThen
          fun d2 m2 => start_trigger d2 m2 e) =
        ⟨0, sa.1, sa.2,
          ([Event.pcm_prepare Stream.playback] ++
            (if d.capture_and_playback_not_synced then [Event.pcm_prepare Stream.capture]
             else [])) ++
          ((if d.hw_monitoring then [Event.set_input_monitor_mask d.input_monitor_mask]
            else []) ++
           [Event.avail_update Stream.playback,
            Event.mmap_begin Stream.playback d.buffer_frames,
            Event.mmap_commit Stream.playback off d.buffer_frames]) ++
          ([Event.pcm_start Stream.playback] ++
           (if d.capture_and_playback_not_synced then [Event.pcm_start Stream.capture]
            else []))⟩ := by
      rw [e1, andThen_of_ret_zero _ _ rfl]
      simp only
      rw [start_trigger_ok sa.1 sa.2 e h4 (by rw [s1]; exact h5), s1]
    unfold alsa_driver_audio_start
    rw [e2, andThen_of_ret_zero _ _ rfl]
    simp only
    rw [hfin]
  · intro hil hnil hbytes p hp k hk j hj
    have := (hz hil hnil hbytes).2 p hp k hk j hj
    simpa [hp] using this

theorem audio_start_head (w : Nat) (d : alsa_driver_t) (m : Mem) (e : StartEnv) :
    ∃ tail, (alsa_driver_audio_start w d m e).events =
      Event.pcm_prepare Stream.playback :: tail := by
  unfold alsa_driver_audio_start
  exact andThen_head _ _ _ (andThen_head _ _ _ (andThen_head _ _ _ (start_prepare_ret d m e).2))

/-- The start sequence when `snd_pcm_mmap_begin` succeeds and some other call fails or the
whole buffer is not available: the function does not return 0. -/
theorem audio_start_fail (w : Nat) (d : alsa_driver_t) (m : Mem) (e : StartEnv)
    (areas : Nat → snd_pcm_channel_area_t) (off fr : Nat)
    (hmm : e.mmap = MmapReply.ok areas off fr)
    (h : ¬ (0 ≤ e.prepare_playback ∧
      (d.capture_and_playback_not_synced = true → 0 ≤ e.prepare_capture) ∧
      ulong_of_int w e.avail = d.buffer_frames ∧ 0 ≤ e.start_playback ∧
      (d.capture_and_playback_not_synced = true → 0 ≤ e.start_capture))) :
    (alsa_driver_audio_start w d m e).ret ≠ 0 := by
  unfold alsa_driver_audio_start
  by_cases hp : 0 ≤ e.prepare_playback ∧
      (d.capture_and_playback_not_synced = true → 0 ≤ e.prepare_capture)
  swap
  · have h0 : (start_prepare d m e).ret ≠ 0 := fun h0 => hp ((start_prepare_ret d m e).1.mp h0)
    rw [andThen_of_ret_ne_zero (start_prepare d m e) _ h0,
      andThen_of_ret_ne_zero (start_prepare d m e) _ h0,
      andThen_of_ret_ne_zero (start_prepare d m e) _ h0]
    exact h0
  rw [start_prepare_ok d m e hp.1 hp.2, andThen_of_ret_zero ⟨0, d, m, _⟩
    (fun d1 m1 => start_fill w d1 m1 e) rfl]
  simp only
  by_cases h3 : ulong_of_int w e.avail = d.buffer_frames
  swap
  · have hf := start_fill_short w d m e h3
    have h0 : (Call.mk (start_fill w d m e).ret (start_fill w d m e).driver
        (start_fill w d m e).mem
        (([Event.pcm_prepare Stream.playback] ++
          if d.capture_and_playback_not_synced = true then [Event.pcm_prepare Stream.capture]
          else []) ++ (start_fill w d m e).events)).ret ≠ 0 := by
      show (start_fill w d m e).ret ≠ 0
      rw [hf]; decide
    rw [andThen_of_ret_ne_zero _ _ h0, andThen_of_ret_ne_zero _ _ h0]
    exact h0
  obtain ⟨hwm, hfill⟩ := start_fill_ok w d m e areas off fr hmm h3
  have hs := silence_all_channels_sync w
    { d with hw_input_monitor_mask := hwm,
             playback_areas := areas,
             playback_addr := fun chn =>
               if chn < d.playback_nchannels then area_addr w (areas chn) off
               else d.playback_addr chn } m
  simp only at hs
  generalize silence_all_channels w _ m = sa at hfill hs
  rw [hfill]
  simp only
  have ht : ¬ (0 ≤ e.start_playback ∧
      (d.capture_and_playback_not_synced = true → 0 ≤ e.start_capture)) :=
    fun ht => h ⟨hp.1, hp.2, h3, ht.1, ht.2⟩
  have htr : (start_trigger sa.1 sa.2 e).ret ≠ 0 := by
    intro h0
    have := (start_trigger_ret sa.1 sa.2 e).mp h0
    rw [hs.1] at this
    exact ht this
  rw [andThen_of_ret_zero ⟨0, sa.1, sa.2, _⟩ (fun d2 m2 => start_trigger d2 m2 e) rfl]
  simp only
  have h0 : (Call.mk (start_trigger sa.1 sa.2 e).ret (start_trigger sa.1 sa.2 e).driver
      (start_trigger sa.1 sa.2 e).mem
      ((([Event.pcm_prepare Stream.playback] ++
          if d.capture_and_playback_not_synced = true then [Event.pcm_prepare Stream.capture]
          else []) ++
        ((if d.hw_monitoring = true then [Event.set_input_monitor_mask d.input_monitor_mask]
          else []) ++
         [Event.avail_update Stream.playback, Event.mmap_begin Stream.playback d.buffer_frames,
          Event.mmap_commit Stream.playback off d.buffer_frames])) ++
        (start_trigger sa.1 sa.2 e).events)).ret ≠ 0 := htr
  rw [andThen_of_ret_ne_zero _ _ h0]
  exact htr

/-- C7 (amended). Xrun recovery cycle: when `poll` reports events without `POLLERR` (after `k`
retried interrupted polls, `k = 0` unless the debugger flag is on), `snd_pcm_avail_update`
returns `-EPIPE` on the capture or on the playback stream, `snd_pcm_delay` reports no error and
the `snd_pcm_mmap_begin` of the start sequence does not fail, `alsa_driver_wait` returns; it
calls `engine->process` zero times, makes no mmap call on the capture stream and at most two on
the playback stream.  It runs the stop sequence (`snd_pcm_drop` on the playback stream, on the
capture stream when the streams are not linked, hardware monitor mask set to 0); when a drop
fails it returns -1 at once with driver and memory untouched.  Otherwise it runs the start
sequence after it; when a call of the start sequence fails or the whole buffer is not available
it returns -1; when all succeed it returns 0, having made exactly the calls listed (prepare,
monitor mask, `snd_pcm_avail_update`, `snd_pcm_mmap_begin` for `buffer_frames` frames, the
commit of `buffer_frames` frames at the offset granted, `snd_pcm_start`, monitor mask, poll
descriptors), and `buffer_frames` frames of every playback channel are zero in memory. -/
theorem xrun_recovery_cycle (w : Nat) (d : alsa_driver_t) (m : Mem) (env : WaitEnv)
    (k revents : Nat) (rest : List PollReply)
    (areas : Nat → snd_pcm_channel_area_t) (off fr : Nat)
    (hk : k = 0 ∨ env.under_gdb = true)
    (hpoll : env.polls =
      List.replicate k (PollReply.failed EINTR) ++ PollReply.returned revents :: rest)
    (hrev : revents ≠ 0) (herr : revents &&& POLLERR = 0)
    (hx : env.capture_avail = -EPIPE ∨ env.playback_avail = -EPIPE)
    (hdelay : env.delay = 0)
    (hmm : env.start.mmap = MmapReply.ok areas off fr) :
    let sync := d.capture_and_playback_not_synced
    let pre := List.replicate (k + 1) Event.poll ++
      [Event.avail_update Stream.capture, Event.avail_update Stream.playback, Event.pcm_delay]
    let stop_calls := [Event.pcm_drop Stream.playback] ++
      (if sync then [Event.pcm_drop Stream.capture] else []) ++
      [Event.set_input_monitor_mask 0]
    let start_calls := [Event.pcm_prepare Stream.playback] ++
      (if sync then [Event.pcm_prepare Stream.capture] else []) ++
      ((if d.hw_monitoring then [Event.set_input_monitor_mask d.input_monitor_mask] else []) ++
        [Event.avail_update Stream.playback, Event.mmap_begin Stream.playback d.buffer_frames,
         Event.mmap_commit Stream.playback off d.buffer_frames]) ++
      ([Event.pcm_start Stream.playback] ++
        (if sync then [Event.pcm_start Stream.capture] else [])) ++
      ((if d.hw_monitoring = true ∧ (d.input_monitor_mask ≠ 0 ∨ d.all_monitor_in = true) then
          [Event.set_input_monitor_mask
            (if d.all_monitor_in = true then all_ones_uint else d.input_monitor_mask)]
        else []) ++ [Event.poll_descriptors])
    ∃ r, alsa_driver_wait w d m env = some r ∧
      count_process r.events = 0 ∧
      count_mmap Stream.capture r.events = 0 ∧
      count_mmap Stream.playback r.events ≤ 2 ∧
      (¬ (0 ≤ env.stop.drop_playback ∧ (sync = true → 0 ≤ env.stop.drop_capture)) →
        r.outcome = Outcome.returned (-1) ∧ r.driver = d ∧ r.mem = m ∧
        r.events = pre ++ ([Event.pcm_drop Stream.playback] ++
          (if 0 ≤ env.stop.drop_playback then [Event.pcm_drop Stream.capture] else []))) ∧
      (0 ≤ env.stop.drop_playback ∧ (sync = true → 0 ≤ env.stop.drop_capture) →
        (∃ tail, r.events = pre ++ stop_calls ++ Event.pcm_prepare Stream.playback :: tail) ∧
        (¬ (0 ≤ env.start.prepare_playback ∧ (sync = true → 0 ≤ env.start.prepare_capture) ∧
            ulong_of_int w env.start.avail = d.buffer_frames ∧ 0 ≤ env.start.start_playback ∧
            (sync = true → 0 ≤ env.start.start_capture)) →
          r.outcome = Outcome.returned (-1)) ∧
        (0 ≤ env.start.prepare_playback ∧ (sync = true → 0 ≤ env.start.prepare_capture) ∧
            ulong_of_int w env.start.avail = d.buffer_frames ∧ 0 ≤ env.start.start_playback ∧
            (sync = true → 0 ≤ env.start.start_capture) →
          r.outcome = Outcome.returned 0 ∧
          r.events = pre ++ stop_calls ++ start_calls ∧
          ((d.interleaved = true → d.interleave_unit = d.sample_bytes) →
            (d.interleaved = false → d.playback_interleave_skip = d.sample_bytes) →
            d.buffer_frames * d.sample_bytes < 2 ^ w →
            ∀ p, p < d.playback_nchannels → ∀ f, f < d.buffer_frames →
              ∀ j, j < d.sample_bytes →
                r.mem (area_addr w (areas p) off + f * d.playback_interleave_skip + j) = 0))) := by
  intro sync pre stop_calls start_calls
  obtain ⟨s, hs⟩ : ∃ s, s = alsa_driver_audio_stop d m env.stop := ⟨_, rfl⟩
  obtain ⟨t, ht⟩ : ∃ t, t = alsa_driver_audio_start w s.driver s.mem env.start := ⟨_, rfl⟩
  have hpre : ∀ tail : List PollReply,
      wait_from_poll w d m env (List.replicate k (PollReply.failed EINTR) ++ tail) =
        match wait_from_poll w d m env tail with
        | none => none
        | some r =>
          some ⟨r.outcome, r.driver, r.mem, List.replicate k Event.poll ++ r.events⟩ := by
    intro tail
    rcases hk with hk | hk
    · subst hk
      cases h : wait_from_poll w d m env tail <;> simp [h]
    · exact wait_from_poll_retry w d m env hk k tail
  have hrun : alsa_driver_wait w d m env =
      some ⟨(if s.ret ≠ 0 then Outcome.returned (-1)
             else if t.ret ≠ 0 then Outcome.returned (-1) else Outcome.returned 0),
            (if s.ret ≠ 0 then s.driver else t.driver),
            (if s.ret ≠ 0 then s.mem else t.mem),
            pre ++ (if s.ret ≠ 0 then s.events else s.events ++ t.events)⟩ := by
    rw [ht, hs]
    unfold alsa_driver_wait
    rw [hpoll, hpre, wait_from_poll, if_neg (by simp [herr]), if_neg hrev,
      wait_after_poll_xrun w d m env hx hdelay]
    simp only [pre, List.replicate_succ', List.append_assoc, List.cons_append, List.nil_append,
      List.singleton_append]
  have hse := audio_stop_events d m env.stop
  rw [← hs] at hse
  have hte := audio_start_events w s.driver s.mem env.start
  rw [← ht] at hte
  have hth := audio_start_head w s.driver s.mem env.start
  rw [← ht] at hth
  have hpp : count_process pre = 0 := by
    simp [pre, count_process, List.filter_replicate]
  have hpm : ∀ st, count_mmap st pre = 0 := by
    intro st
    simp [pre, count_mmap, List.filter_replicate]
  refine ⟨_, hrun, ?_, ?_, ?_, ?_, ?_⟩
  · show count_process (pre ++ _) = 0
    rw [count_process_append, hpp]
    split_ifs
    · simpa using (hse Stream.capture).1
    · rw [count_process_append, (hse Stream.capture).1, hte.1]
  · show count_mmap Stream.capture (pre ++ _) = 0
    rw [count_mmap_append, hpm]
    split_ifs
    · simpa using (hse Stream.capture).2
    · rw [count_mmap_append, (hse Stream.capture).2, hte.2.1]
  · show count_mmap Stream.playback (pre ++ _) ≤ 2
    rw [count_mmap_append, hpm]
    split_ifs
    · rw [(hse Stream.playback).2]; omega
    · rw [count_mmap_append, (hse Stream.playback).2]
      have : count_mmap Stream.playback t.events ≤ 2 := hte.2.2
      omega
  · intro hstop
    have hsf := audio_stop_fail d m env.stop hstop
    rw [← hs] at hsf
    have hne : s.ret ≠ 0 := by rw [hsf]; simp
    simp only [if_pos hne]
    rw [hsf]
    refine ⟨?_, ?_, ?_, ?_⟩ <;> trivial
  · intro hstop
    have hso := audio_stop_ok d m env.stop hstop.1 hstop.2
    rw [← hs] at hso
    have hn : ¬ s.ret ≠ 0 := by rw [hso]; simp
    simp only [if_neg hn]
    refine ⟨?_, ?_, ?_⟩
    · obtain ⟨tail, htail⟩ := hth
      refine ⟨tail, ?_⟩
      rw [htail, hso]
      simp only [stop_calls, sync, List.append_assoc]
    · intro hstart
      have := audio_start_fail w s.driver s.mem env.start areas off fr hmm
        (by rw [hso]; exact hstart)
      rw [← ht] at this
      rw [if_pos this]
    · intro hstart
      obtain ⟨dF, mF, heq, hzero⟩ := audio_start_ok w s.driver s.mem env.start areas off fr hmm
        hstart.1 (by rw [hso]; exact hstart.2.1) (by rw [hso]; exact hstart.2.2.1)
        hstart.2.2.2.1 (by rw [hso]; exact hstart.2.2.2.2)
      rw [← ht] at heq
      rw [hso] at heq hzero
      simp only at heq hzero
      have ht0 : ¬ t.ret ≠ 0 := by rw [heq]; simp
      rw [if_neg ht0]
      refine ⟨rfl, ?_, ?_⟩
      · rw [heq, hso]
        simp only [stop_calls, start_calls, sync, List.append_assoc]
      · rw [heq]
        exact hzero

/-- Instance of C7 (amended): a capture overrun on the stereo driver, playback memory all 255
beforehand, every call of the recovery succeeding.  The call returns 0 after the calls listed,
and byte 1 of frame 5 of playback channel 1 is zero afterwards. -/
theorem xrun_recovery_cycle_witness :
    (xrun_env.polls = List.replicate 0 (PollReply.failed EINTR) ++
        PollReply.returned POLLOUT :: [] ∧
      POLLOUT ≠ 0 ∧ POLLOUT &&& POLLERR = 0 ∧ xrun_env.capture_avail = -EPIPE ∧
      xrun_env.delay = 0 ∧
      xrun_env.start.mmap =
        MmapReply.ok (fun chn => ⟨65536 + 4096 * chn, 0, 16⟩) 0 128) ∧
    ∃ r, alsa_driver_wait 32 stereo_driver (fun _ => 255) xrun_env = some r ∧
      r.outcome = Outcome.returned 0 ∧
      r.events =
        [Event.poll, Event.avail_update Stream.capture, Event.avail_update Stream.playback,
         Event.pcm_delay, Event.pcm_drop Stream.playback, Event.set_input_monitor_mask 0,
         Event.pcm_prepare Stream.playback, Event.avail_update Stream.playback,
         Event.mmap_begin Stream.playback 128, Event.mmap_commit Stream.playback 0 128,
         Event.pcm_start Stream.playback, Event.poll_descriptors] ∧
      r.mem (65536 + 4096 * 1 + 5 * 2 + 1) = 0 := by
  refine ⟨⟨rfl, by decide, by decide, rfl, rfl, rfl⟩, ?_⟩
  obtain ⟨r, hr, _, _, _, _, h6⟩ :=
    xrun_recovery_cycle 32 stereo_driver (fun _ => 255) xrun_env 0 POLLOUT []
      (fun chn => ⟨65536 + 4096 * chn, 0, 16⟩) 0 128
      (Or.inl rfl) rfl (by decide) (by decide) (Or.inl rfl) rfl rfl
  obtain ⟨_, _, h7⟩ := h6 ⟨by decide, by decide⟩
  obtain ⟨h8, h9, h10⟩ := h7 ⟨by decide, by decide, by decide, by decide, by decide⟩
  exact ⟨r, hr, h8, h9, h10 (by decide) (by decide) (by decide) 1 (by decide) 5 (by decide) 1
    (by decide)⟩

end Jack
